import Mathlib

/-!
# XModemUtil: the serial event handlers of `MainWindow`

A shallow embedding of `UwxMainWindow.h` / `UwxMainWindow.cpp`.

* Bytes are natural numbers below 256, byte arrays (`QByteArray`) are lists.
* The fixed-width members keep their C++ width through an explicit
  remainder at every update (`uint8_t` : 256, `uint16_t` : 65536,
  `uint32_t` : 4294967296).
* A handler returns `none` where the C++ code has no defined behaviour
  (reading outside a buffer, `at(0)` on an empty array, a division by zero).
* The Qt members the handlers talk to are kept as small records: what was
  handed to `spSerialPort.write`, the open firmware file with its cursor,
  the value given to the progress bar, the messages shown in the popup.
-/

namespace XModemUtil

/-! ## Defines and constants (`UwxMainWindow.h`) -/

def XMODEM_INVERSE : Nat := 0xff
def XMODEM_FIRST_PACKET_ID : Nat := 1
def XMODEM_SECOND_PACKET_ID : Nat := 2
def PERCENT_100 : Nat := 100
def BOOTLOADER_ERROR_CHAR : Nat := 0x66
def BOOTLOADER_ERROR_UNRECOGNISED : Nat := 0x04
def BOOTLOADER_ERROR_CHAR_INDEX : Nat := 0
def BOOTLOADER_ERROR_RESPONSE_INDEX : Nat := 1
def BOOTLOADER_ENTER_TIMER_CHECK_MS : Nat := 1500
def BOOTLOADER_ENTER_CHECK_TIMES : Nat := 5
def MODEM_WAKEUP_RESPONSE_MINIMUM_SIZE : Nat := 3
def MODEM_VERSION_MODEL_MINIMUM_SIZE : Nat := 14
def MODEM_VERSION_MINIMUM_SIZE : Nat := 7
def ZEPHYR_APPLICATION_TRIGGER_DATA_SIZE : Nat := 30

def nXModemPaddingCharacter : Nat := 26
def nXModemDataSize : Nat := 1024
def nXModemHeaderSize : Nat := 3

/-- The bytes of an ASCII string literal. -/
def bytesOf (str : String) : List Nat := str.toList.map Char.toNat

def baBootloaderUnlockCommand : List Nat := [0x70, 0x0f, 0x51, 0x2a, 0x51]
def baBootloaderBridgeUARTsCommand : List Nat := [0x7e, 0x01, 0x06, 0x01, 0x06]
def baFirmwareUpgradeStartCommand : List Nat := bytesOf "AT+WDSD"
def baFirmwareUpgradeAcceptCommand : List Nat := bytesOf "AT+WDSR=4"
def baVersionQueryCommand : List Nat := bytesOf "ATI3"
def baModemError : List Nat := bytesOf "\r\nERROR\r\n"
def baCR : List Nat := bytesOf "\r"
def baCRLF : List Nat := bytesOf "\r\n"
def baModemModel : List Nat := bytesOf "HL7800"
def baNotFoundError : List Nat := bytesOf "not found"
def nModemVersionCutChars : Nat := 7
def baZephyrEnterBootloader : List Nat := bytesOf "mg100 bootloader\r\noob bootloader\r\n"

/-! `enum XModemPacketTypes`, used as byte values. -/

def XModemPacketType128BytePacket : Nat := 0x01
def XModemPacketType1024BytePacket : Nat := 0x02
def XModemPacketTypeEndOfFrame : Nat := 0x04
def XModemPacketTypeAck : Nat := 0x06
def XModemPacketTypeNack : Nat := 0x15

/-- The `enum ApplicationModeTypes`. -/
inductive ApplicationModeTypes where
  | ApplicationModeTypeFirmwareUpdate
  | ApplicationModeTypeQuery
  | ApplicationModeTypeOnlineFileDownload
  | ApplicationModeTypeOnlineRefresh
  | ApplicationModeTypeFirmwareUpdateModeCheck
  deriving DecidableEq, Repr

/-- The `enum ActionModeTypes`. -/
inductive ActionModeTypes where
  | ActionModeTypeModem
  | ActionModeTypeBootloaderUnbridged
  | ActionModeTypeBootloaderBridged
  | ActionModeTypeUserApplication
  | ActionModeTypeXModemWaitForNack
  | ActionModeTypeXModemSendData
  | ActionModeTypeXModemSendEndOfFrame
  | ActionModeTypeXModemFinished
  deriving DecidableEq, Repr

open ApplicationModeTypes ActionModeTypes

/-! ## The Qt objects the handlers use -/

/-- A `QFile` on a regular file: the bytes on disk, whether the device is
open, and the cursor of the open device. -/
structure QFile where
  content : List Nat
  isOpen : Bool
  cursor : Nat
  deriving DecidableEq, Repr

namespace QFile

/-- The call `QFile::pos()`; a closed device reports 0. -/
def pos (f : QFile) : Nat := if f.isOpen then f.cursor else 0

/-- The call `QFile::size()`. -/
def size (f : QFile) : Nat := f.content.length

/-- The call `QFile::seek(offset)`: moves the cursor of an open file (also
past the end of the file); a closed device is left alone. -/
def seek (f : QFile) (offset : Nat) : QFile :=
  if f.isOpen then { f with cursor := offset } else f

/-- The call `QFile::read(maxSize)`: at most `maxSize` bytes from the cursor on,
fewer at the end of the file, and the cursor moves past them; a closed
device yields no byte. -/
def read (f : QFile) (maxSize : Nat) : List Nat × QFile :=
  if f.isOpen then
    let bytes := (f.content.drop f.cursor).take maxSize
    (bytes, { f with cursor := f.cursor + bytes.length })
  else ([], f)

/-- The call `QFile::close()`. -/
def close (f : QFile) : QFile := { f with isOpen := false, cursor := 0 }

end QFile

/-- The `QSerialPort`: whether it is open, every byte array handed to
`write` so far (oldest first), and the level of the clear-to-send line. -/
structure QSerialPort where
  isOpen : Bool
  written : List (List Nat)
  clearToSend : Bool
  deriving DecidableEq, Repr

namespace QSerialPort

/-- The call `QSerialPort::write(data)`. -/
def write (p : QSerialPort) (data : List Nat) : QSerialPort :=
  { p with written := p.written ++ [data] }

/-- The call `QSerialPort::close()`. -/
def close (p : QSerialPort) : QSerialPort := { p with isOpen := false }

end QSerialPort

/-- The memory `QByteArray::data()` points to: the bytes of the array followed
by the terminating zero byte Qt keeps behind them. -/
def QByteArray.data (ba : List Nat) : List Nat := ba ++ [0]

/-- The call `QByteArray::at(i)`; an index outside the array is undefined. -/
def QByteArray.at (ba : List Nat) (i : Nat) : Option Nat := ba.get? i

/-- The first index at or after `i` where `needle` starts in the rest `hay` of
an array whose first `i` bytes were already passed, or `INDEX_NOT_FOUND`. -/
def QByteArray.indexOf.go (needle : List Nat) : List Nat → Nat → Int
  | [], i => if needle = [] then (i : Int) else -1
  | b :: hay, i =>
    if needle.isPrefixOf (b :: hay) then (i : Int)
    else QByteArray.indexOf.go needle hay (i + 1)

/-- The call `QByteArray::indexOf(needle, start)` for `start >= 0`: the index of
the first occurrence at or after `start`, or -1 (`INDEX_NOT_FOUND`). -/
def QByteArray.indexOf (ba needle : List Nat) (start : Nat) : Int :=
  if ba.length < start then -1
  else QByteArray.indexOf.go needle (ba.drop start) start

/-- The call `QByteArray::mid(pos, len)`: `len` bytes from `pos` on; a negative
`len`, or one that reaches past the end, takes everything from `pos` on. -/
def QByteArray.mid (ba : List Nat) (pos len : Int) : List Nat :=
  if (ba.length : Int) < pos then []
  else if pos < 0 then
    if len < 0 ∨ (ba.length : Int) ≤ len + pos then ba
    else if len + pos ≤ 0 then []
    else ba.take (len + pos).toNat
  else if len < 0 ∨ (ba.length : Int) - pos < len then ba.drop pos.toNat
  else (ba.drop pos.toNat).take len.toNat

/-- One step of the UTF-8 decoder of `QString::fromUtf8`: the UTF-16 code units
for the sequence that starts with lead byte `b`, and how many of the
following bytes it consumes. A malformed or cut-off sequence gives the
replacement character U+FFFD and consumes the lead byte only. -/
def QString.decodeOne (b : Nat) (rest : List Nat) : List Nat × Nat :=
  let isCont := fun (c : Nat) => decide (0x80 ≤ c ∧ c ≤ 0xBF)
  if b < 0x80 then ([b], 0)
  else if 0xC2 ≤ b ∧ b ≤ 0xDF then
    match rest with
    | c1 :: _ => if isCont c1 then ([(b - 0xC0) * 64 + (c1 - 0x80)], 1) else ([0xFFFD], 0)
    | _ => ([0xFFFD], 0)
  else if 0xE0 ≤ b ∧ b ≤ 0xEF then
    match rest with
    | c1 :: c2 :: _ =>
      let u := (b - 0xE0) * 4096 + (c1 - 0x80) * 64 + (c2 - 0x80)
      if isCont c1 ∧ isCont c2 ∧ 0x800 ≤ u ∧ ¬ (0xD800 ≤ u ∧ u ≤ 0xDFFF) then ([u], 2)
      else ([0xFFFD], 0)
    | _ => ([0xFFFD], 0)
  else if 0xF0 ≤ b ∧ b ≤ 0xF4 then
    match rest with
    | c1 :: c2 :: c3 :: _ =>
      let u := (b - 0xF0) * 262144 + (c1 - 0x80) * 4096 + (c2 - 0x80) * 64 + (c3 - 0x80)
      if isCont c1 ∧ isCont c2 ∧ isCont c3 ∧ 0x10000 ≤ u ∧ u ≤ 0x10FFFF then
        ([0xD800 + (u - 0x10000) / 1024, 0xDC00 + (u - 0x10000) % 1024], 3)
      else ([0xFFFD], 0)
    | _ => ([0xFFFD], 0)
  else ([0xFFFD], 0)

/-- The decoding loop of `QString::fromUtf8`, with `fuel` bounding the number
of sequences (the number of bytes is always enough). -/
def QString.decode : Nat → List Nat → List Nat
  | 0, _ => []
  | _, [] => []
  | fuel + 1, b :: rest =>
    let r := QString.decodeOne b rest
    r.1 ++ QString.decode fuel (rest.drop r.2)

/-- The constructor `QString(const QByteArray &)`: the bytes up to the first
zero byte, without a leading byte-order mark, decoded from UTF-8 to UTF-16
code units. -/
def QString.fromByteArray (ba : List Nat) : List Nat :=
  let chars := ba.takeWhile (fun b => b ≠ 0)
  let chars := if [0xEF, 0xBB, 0xBF].isPrefixOf chars then chars.drop 3 else chars
  QString.decode chars.length chars

/-- A `QString` literal as UTF-16 code units (ASCII text only). -/
def qstr (str : String) : List Nat := str.toList.map Char.toNat

/-- The call `QString::indexOf(needle)`, on code units. -/
def QString.indexOf (str needle : List Nat) : Int := QByteArray.indexOf str needle 0

/-- The call `QString::number(n)` for a non-negative `n`. -/
def QString.number (n : Nat) : List Nat := qstr (toString n)

/-- Conversion of a non-negative 64-bit quotient to `int` (32 bits). -/
def toInt32 (v : Nat) : Int :=
  if v % 4294967296 < 2147483648 then (v % 4294967296 : Nat)
  else ((v % 4294967296 : Nat) : Int) - 4294967296

/-- The members of `class MainWindow` the serial handlers read or write,
with the user-interface elements they touch. -/
structure MainWindow where
  spSerialPort : QSerialPort
  fpFirmwareFile : QFile
  baLastPacket : List Nat
  nAppMode : ApplicationModeTypes
  nAction : ActionModeTypes
  nCPacket : Nat
  nCFilePos : Nat
  bLastPacketSent : Bool
  nBytesWritten : Nat
  nBootloaderTimerChecks : Nat
  baRecBuf : List Nat
  /-- Whether `tmrBootloaderEntranceTimer` is running. -/
  tmrBootloaderEntranceTimer : Bool
  /-- The interval of `tmrBootloaderEntranceTimer` in milliseconds, as the last
  call of `start(msec)` set it. -/
  tmrBootloaderEntranceTimerInterval : Nat
  /-- The last value given to `ui->progressBar->setValue`. -/
  progressBar : Int
  /-- The messages shown through `pmErrorForm`, oldest first. -/
  pmErrorForm : List (List Nat)
  /-- The last argument of `SetInputsEnabled`. -/
  inputsEnabled : Bool
  /-- The text of `ui->edit_File`, as UTF-16 code units. -/
  edit_File : List Nat
  /-- The bytes of the file named by `edit_File`, when `open(QFile::ReadOnly)`
  succeeds on it. -/
  firmwareOnDisk : Option (List Nat)
  /-- The text `fpFirmwareFile.errorString()` returns, as UTF-16 code units, once
  `open(QFile::ReadOnly)` has failed on the file named by `edit_File`. -/
  fpFirmwareFileErrorString : List Nat
  /-- The answer given to the `QMessageBox::question` dialog (`Yes` is `true`). -/
  questionAnswer : Bool
  deriving DecidableEq, Repr

/-! ## `MainWindow::Calc8BitCRC` -/

/-- The `while (i < nSize)` loop of `Calc8BitCRC`: `pData` is the memory from
the current pointer on, `n` the iterations left, `nCRC` the 8-bit
accumulator. Reading past the end of the memory is undefined. -/
def Calc8BitCRC.loop : List Nat → Nat → Nat → Option Nat
  | _, 0, nCRC => some nCRC
  | [], _ + 1, _ => none
  | b :: pData, n + 1, nCRC => Calc8BitCRC.loop pData n ((nCRC + b) % 256)

/-- The function `MainWindow::Calc8BitCRC(pData, nSize)`: skips the header, then
adds `nSize` bytes into an 8-bit sum. -/
def Calc8BitCRC (pData : List Nat) (nSize : Nat) : Option Nat :=
  Calc8BitCRC.loop (pData.drop nXModemHeaderSize) nSize 0

/-- The expression `(nCFilePos*PERCENT_100)/fpFirmwareFile.size()` as passed to
`setValue`: a 32-bit unsigned product, a 64-bit division (undefined for an
empty file), converted to `int`. -/
def progressValue (nCFilePos size : Nat) : Option Int :=
  if size = 0 then none
  else some (toInt32 ((nCFilePos * PERCENT_100) % 4294967296 / size))

/-! ## `MainWindow::SerialRead`, firmware upgrade mode -/

/-- The `XModemPacketTypeAck` branch of `SerialRead`. -/
def SerialRead.onAck (s : MainWindow) : Option MainWindow :=
  -- Load next packet
  let s := { s with baLastPacket := [] }
  let s := { s with baLastPacket := s.baLastPacket ++ [XModemPacketType1024BytePacket] }
  let s := { s with baLastPacket := s.baLastPacket ++ [s.nCPacket] }
  let s := { s with baLastPacket := s.baLastPacket ++ [XMODEM_INVERSE - s.nCPacket] }
  let s := if s.fpFirmwareFile.pos ≠ s.nCFilePos
    then { s with fpFirmwareFile := s.fpFirmwareFile.seek s.nCFilePos } else s
  let rd := s.fpFirmwareFile.read nXModemDataSize
  let s := { s with baLastPacket := s.baLastPacket ++ rd.1, fpFirmwareFile := rd.2 }
  if s.baLastPacket.length ≠ nXModemHeaderSize then
    let s := if s.baLastPacket.length < nXModemDataSize + nXModemHeaderSize
      then
        -- Pad with spaces
        { s with
          baLastPacket := s.baLastPacket ++
            List.replicate (nXModemDataSize + nXModemHeaderSize - s.baLastPacket.length)
              nXModemPaddingCharacter
          bLastPacketSent := true }
      else s
    match Calc8BitCRC (QByteArray.data s.baLastPacket)
        ((s.baLastPacket.length - nXModemHeaderSize) % 65536) with
    | none => none
    | some nCRC =>
      let s := { s with baLastPacket := s.baLastPacket ++ [nCRC] }
      let s := { s with spSerialPort := s.spSerialPort.write s.baLastPacket }
      match progressValue s.nCFilePos s.fpFirmwareFile.size with
      | none => none
      | some v =>
        let s := { s with progressBar := v }
        let s := { s with nCPacket := (s.nCPacket + 1) % 256 }
        some { s with nCFilePos := (s.nCFilePos + nXModemDataSize) % 4294967296 }
  else
    -- Finished transfer, send end of frame message
    let s := { s with nAction := ActionModeTypeXModemSendEndOfFrame }
    let s := { s with baLastPacket := [] }
    let s := { s with baLastPacket := s.baLastPacket ++ [XModemPacketTypeEndOfFrame] }
    some { s with spSerialPort := s.spSerialPort.write s.baLastPacket }

/-- The `XModemPacketTypeNack` branch of `SerialRead`. -/
def SerialRead.onNack (s : MainWindow) : Option MainWindow :=
  if s.nAction = ActionModeTypeXModemWaitForNack then
    -- First NACK packet has been received, modem is now ready to receive real first packet
    let s := { s with nAction := ActionModeTypeXModemSendData }
    let s := { s with nCFilePos := 0 }
    let s := { s with nCPacket := XMODEM_FIRST_PACKET_ID }
    let s := { s with baLastPacket := [] }
    let s := { s with baLastPacket := s.baLastPacket ++ [XModemPacketType1024BytePacket] }
    let s := { s with baLastPacket := s.baLastPacket ++ [s.nCPacket] }
    let s := { s with baLastPacket := s.baLastPacket ++ [XMODEM_INVERSE - s.nCPacket] }
    let s := { s with fpFirmwareFile := s.fpFirmwareFile.seek 0 }
    let rd := s.fpFirmwareFile.read nXModemDataSize
    let s := { s with baLastPacket := s.baLastPacket ++ rd.1, fpFirmwareFile := rd.2 }
    match Calc8BitCRC (QByteArray.data s.baLastPacket) nXModemDataSize with
    | none => none
    | some nCRC =>
      let s := { s with baLastPacket := s.baLastPacket ++ [nCRC] }
      let s := { s with spSerialPort := s.spSerialPort.write s.baLastPacket }
      match progressValue s.nCFilePos s.fpFirmwareFile.size with
      | none => none
      | some v =>
        let s := { s with progressBar := v }
        let s := { s with nCFilePos := nXModemDataSize }
        some { s with nCPacket := XMODEM_SECOND_PACKET_ID }
  else if s.nAction = ActionModeTypeXModemSendData then
    -- Last packet has an error, retransmit it
    some { s with spSerialPort := s.spSerialPort.write s.baLastPacket }
  else some s

/-- The branch `nAppMode == ApplicationModeTypeFirmwareUpdate` of `SerialRead`;
`baRecData` is what `spSerialPort.readAll()` returned. -/
def SerialRead.firmwareUpdate (s : MainWindow) (baRecData : List Nat) : Option MainWindow :=
  if s.nAction = ActionModeTypeXModemWaitForNack ∨ s.nAction = ActionModeTypeXModemSendData then
    match baRecData with
    | [] => none
    | c :: _ =>
      if c = XModemPacketTypeAck then SerialRead.onAck s
      else if c = XModemPacketTypeNack then SerialRead.onNack s
      else some s
  else
    -- Not in main XModem data transfer
    if s.nAction = ActionModeTypeXModemSendEndOfFrame then
      -- We are finished
      let s := { s with nAction := ActionModeTypeXModemFinished }
      let s := { s with nBytesWritten := 0 }
      let s := { s with fpFirmwareFile := s.fpFirmwareFile.close }
      let s := { s with baLastPacket := [] }
      let s := { s with baLastPacket := baFirmwareUpgradeAcceptCommand ++ baCRLF }
      some { s with spSerialPort := s.spSerialPort.write s.baLastPacket }
    else some s

/-! ## `MainWindow::SerialRead`, mode check and query -/

/-- The `SetInputsEnabled(bEnabled)` helper, reduced to the flag it sets on every
input widget. -/
def SetInputsEnabled (s : MainWindow) (bEnabled : Bool) : MainWindow :=
  { s with inputsEnabled := bEnabled }

/-- The part of `SerialRead` that runs once a modem version of sufficient
length was extracted (`strFirmwareVersion`, as code units). -/
def SerialRead.versionFound (s : MainWindow) (strFirmwareVersion : List Nat) : MainWindow :=
  let s := { s with baRecBuf := [] }
  let r : MainWindow × Bool :=
    if s.nAppMode = ApplicationModeTypeQuery then
      -- Just checking firmware, display result to user
      ({ s with pmErrorForm := s.pmErrorForm ++
          [qstr "Modem is running firmware version " ++ strFirmwareVersion] }, false)
    else
      -- Not just checking firmware version on module
      let bContinue :=
        if QString.indexOf s.edit_File (strFirmwareVersion ++ qstr "_to") = -1
        then s.questionAnswer else true
      if bContinue = true then
        -- Firmware upgrade mode
        let s := { s with nAppMode := ApplicationModeTypeFirmwareUpdate }
        match s.firmwareOnDisk with
        | some bytes =>
          let s := { s with fpFirmwareFile := { content := bytes, isOpen := true, cursor := 0 } }
          let s := { s with nAction := ActionModeTypeXModemWaitForNack }
          let s := { s with bLastPacketSent := false }
          let baCommand := baFirmwareUpgradeStartCommand ++ bytesOf "=" ++
            QString.number s.fpFirmwareFile.size ++ baCRLF
          ({ s with spSerialPort := s.spSerialPort.write baCommand }, true)
        | none =>
          ({ s with pmErrorForm := s.pmErrorForm ++
              [qstr "Failed to open FOTO file '" ++ s.edit_File ++ qstr "' for reading: "
                ++ s.fpFirmwareFileErrorString] },
            false)
      else (s, false)
  if r.2 = false then
    SetInputsEnabled { r.1 with spSerialPort := r.1.spSerialPort.close } true
  else r.1

/-- The branch of `SerialRead` for `ApplicationModeTypeFirmwareUpdateModeCheck`
and `ApplicationModeTypeQuery`. -/
def SerialRead.modeCheck (s : MainWindow) (baRecData : List Nat) : Option MainWindow :=
  -- Firmware download mode - query which mode
  let s := { s with baRecBuf := s.baRecBuf ++ baRecData }
  if s.nAction = ActionModeTypeModem then
    -- Checking which mode
    if 1 < s.baRecBuf.length
        ∧ QByteArray.at s.baRecBuf BOOTLOADER_ERROR_CHAR_INDEX = some BOOTLOADER_ERROR_CHAR
        ∧ QByteArray.at s.baRecBuf BOOTLOADER_ERROR_RESPONSE_INDEX
            = some BOOTLOADER_ERROR_UNRECOGNISED then
      -- In bootloader
      let s := { s with nAction := ActionModeTypeBootloaderUnbridged }
      some { s with spSerialPort := s.spSerialPort.write baBootloaderUnlockCommand }
    else if QByteArray.indexOf s.baRecBuf baModemModel 0 ≠ -1 then
      -- In modem mode: extract version
      let i := QByteArray.indexOf s.baRecBuf baModemModel 0
      let strFirmwareVersion := QString.fromByteArray
        (QByteArray.mid s.baRecBuf (i + nModemVersionCutChars)
          (QByteArray.indexOf s.baRecBuf baCR (i + baCR.length).toNat
            - (i + nModemVersionCutChars)))
      if MODEM_VERSION_MODEL_MINIMUM_SIZE ≤ s.baRecBuf.length
          ∧ MODEM_VERSION_MINIMUM_SIZE ≤ strFirmwareVersion.length then
        some (SerialRead.versionFound s strFirmwareVersion)
      else some s
    else if QByteArray.indexOf s.baRecBuf baModemError 0 ≠ -1 then
      -- In modem mode, query firmware
      let s := { s with baRecBuf := [] }
      some { s with spSerialPort := s.spSerialPort.write (baVersionQueryCommand ++ baCR) }
    else if QByteArray.indexOf s.baRecBuf baNotFoundError 0 ≠ -1
        ∨ ZEPHYR_APPLICATION_TRIGGER_DATA_SIZE < s.baRecBuf.length then
      -- In Zephyr application
      let s := { s with baRecBuf := [] }
      let s := { s with spSerialPort := s.spSerialPort.write baZephyrEnterBootloader }
      let s := { s with nAction := ActionModeTypeUserApplication }
      -- Start the recurring timer to check if the bootloader has been entered
      let s := { s with nBootloaderTimerChecks := 0 }
      some { s with
        tmrBootloaderEntranceTimer := true
        tmrBootloaderEntranceTimerInterval := BOOTLOADER_ENTER_TIMER_CHECK_MS }
    else some s
  else if s.nAction = ActionModeTypeBootloaderUnbridged then
    -- Bridge UARTs together to talk to modem
    let s := { s with baRecBuf := [] }
    let s := { s with spSerialPort := s.spSerialPort.write baBootloaderBridgeUARTsCommand }
    some { s with nAction := ActionModeTypeBootloaderBridged }
  else if s.nAction = ActionModeTypeBootloaderBridged then
    if MODEM_WAKEUP_RESPONSE_MINIMUM_SIZE < s.baRecBuf.length then
      -- Modem should have started, check
      let s := { s with baRecBuf := [] }
      let s := { s with nAction := ActionModeTypeModem }
      some { s with spSerialPort := s.spSerialPort.write (baVersionQueryCommand ++ baCR) }
    else some s
  else some s

/-! ## The three event handlers -/

/-- The slot `MainWindow::SerialRead()`; `baRecData` is what
`spSerialPort.readAll()` returned. -/
def SerialRead (s : MainWindow) (baRecData : List Nat) : Option MainWindow :=
  if s.nAppMode = ApplicationModeTypeFirmwareUpdate then
    -- Firmware upgrade mode
    SerialRead.firmwareUpdate s baRecData
  else if s.nAppMode = ApplicationModeTypeFirmwareUpdateModeCheck
      ∨ s.nAppMode = ApplicationModeTypeQuery then
    SerialRead.modeCheck s baRecData
  else some s

/-- The slot `MainWindow::SerialBytesWritten(intByteCount)`. -/
def SerialBytesWritten (s : MainWindow) (intByteCount : Nat) : MainWindow :=
  if s.nAppMode = ApplicationModeTypeFirmwareUpdate
      ∧ s.nAction = ActionModeTypeXModemFinished then
    let s := { s with nBytesWritten := (s.nBytesWritten + intByteCount) % 65536 }
    if s.nBytesWritten = s.baLastPacket.length then
      -- Upgrade finished
      let s := { s with spSerialPort := s.spSerialPort.close }
      let s := { s with progressBar := (PERCENT_100 : Int) }
      SetInputsEnabled s true
    else s
  else s

/-- The slot `MainWindow::BootloaderEntranceTimerTimeout()`. -/
def BootloaderEntranceTimerTimeout (s : MainWindow) : MainWindow :=
  -- Should now be in bootloader mode
  if s.spSerialPort.clearToSend = true then
    -- CTS is asserted, we are in the bootloader
    let s := { s with tmrBootloaderEntranceTimer := false }
    let s := { s with nAction := ActionModeTypeBootloaderUnbridged }
    { s with spSerialPort := s.spSerialPort.write baBootloaderUnlockCommand }
  else
    let s := { s with nBootloaderTimerChecks := (s.nBootloaderTimerChecks + 1) % 256 }
    if BOOTLOADER_ENTER_CHECK_TIMES < s.nBootloaderTimerChecks then
      -- Failed to enter bootloader mode
      let s := { s with tmrBootloaderEntranceTimer := false }
      let s := { s with pmErrorForm := s.pmErrorForm ++
        [qstr "CTS is de-asserted, module has failed to enter bootloader mode."] }
      let s := { s with spSerialPort := s.spSerialPort.close }
      SetInputsEnabled s true
    else s

/-- Feeds the received chunks to `SerialRead`, one `readyRead` event each, in
order. -/
def SerialReadAll : MainWindow → List (List Nat) → Option MainWindow
  | s, [] => some s
  | s, baRecData :: more =>
    match SerialRead s baRecData with
    | none => none
    | some s1 => SerialReadAll s1 more

/-- A window as the transfer engine is entered for a firmware file with the
given bytes: the file open at its start, `nCPacket` as the constructor sets
it, `bLastPacketSent` cleared, waiting for the first NACK, nothing written
to the port yet. -/
def transferEntered (bytes : List Nat) : MainWindow :=
  { spSerialPort := { isOpen := true, written := [], clearToSend := false }
    fpFirmwareFile := { content := bytes, isOpen := true, cursor := 0 }
    baLastPacket := []
    nAppMode := ApplicationModeTypeFirmwareUpdate
    nAction := ActionModeTypeXModemWaitForNack
    nCPacket := XMODEM_FIRST_PACKET_ID
    nCFilePos := 0
    bLastPacketSent := false
    nBytesWritten := 0
    nBootloaderTimerChecks := 0
    baRecBuf := []
    tmrBootloaderEntranceTimer := false
    tmrBootloaderEntranceTimerInterval := 0
    progressBar := 0
    pmErrorForm := []
    inputsEnabled := false
    edit_File := []
    firmwareOnDisk := some bytes
    fpFirmwareFileErrorString := qstr "Unknown error"
    questionAnswer := true }

/-- An example firmware file of one full block: 1024 bytes of value 7. -/
def oneBlockFile : List Nat := List.replicate 1024 7

/-- The window of `transferEntered oneBlockFile` with a file offset and a packet
counter left over from an earlier transfer. -/
def staleWindow : MainWindow :=
  { transferEntered oneBlockFile with nCFilePos := 5120, nCPacket := 77 }

/-- An example firmware file of exactly two blocks: 2048 bytes of value 7. -/
def twoBlockFile : List Nat := List.replicate 2048 7

/-- An example firmware file one byte short of a block: 1023 bytes of value 7. -/
def shortFile : List Nat := List.replicate 1023 7

/-- An example firmware file of 4194304 blocks, 4294967296 zero bytes: its size
does not fit the 32-bit file offset. -/
def hugeFile : List Nat := List.replicate 4294967296 0

/-- The window of `transferEntered [0x41, 0x42, 0x43]` once the data phase has
begun (action SendData), before any frame of the three-byte file is sent. -/
def sendingThreeBytes : MainWindow :=
  { transferEntered [0x41, 0x42, 0x43] with nAction := ActionModeTypeXModemSendData }

/-- The value `SerialRead` gives `strFirmwareVersion` for the receive buffer
`baRecBuf`: the `mid` that starts `nModemVersionCutChars` behind the start
of the model marker and runs up to the carriage return searched from
`baCR.length()` behind that start, converted to a `QString`. -/
def SerialRead.strFirmwareVersion (baRecBuf : List Nat) : List Nat :=
  QString.fromByteArray
    (QByteArray.mid baRecBuf
      (QByteArray.indexOf baRecBuf baModemModel 0 + nModemVersionCutChars)
      (QByteArray.indexOf baRecBuf baCR
          (QByteArray.indexOf baRecBuf baModemModel 0 + baCR.length).toNat
        - (QByteArray.indexOf baRecBuf baModemModel 0 + nModemVersionCutChars)))

/-- The timer `tmrBootloaderEntranceTimer` reaching its interval `n` times: each
timeout runs the slot `BootloaderEntranceTimerTimeout`; once the timer is
stopped it fires no more. -/
def TimerTicks : Nat → MainWindow → MainWindow
  | 0, s => s
  | n + 1, s =>
    if s.tmrBootloaderEntranceTimer = true then TimerTicks n (BootloaderEntranceTimerTimeout s)
    else s

/-- Feeds the byte counts of successive `bytesWritten` signals to
`SerialBytesWritten`, in order. -/
def SerialBytesWrittenAll : MainWindow → List Nat → MainWindow
  | s, [] => s
  | s, intByteCount :: more => SerialBytesWrittenAll (SerialBytesWritten s intByteCount) more

/-- A window right after `OpenSerialPort` succeeded in the given mode: the port
open, the version query written, action Modem, an empty receive buffer, no
firmware file open yet, the poller at rest. `edit_File` holds `name` and the
file of that name can be opened with the bytes `onDisk`, if any; if not, the
failed open reports `No such file or directory`. -/
def portOpened (mode : ApplicationModeTypes) (name : List Nat) (onDisk : Option (List Nat)) :
    MainWindow :=
  { spSerialPort :=
      { isOpen := true, written := [baVersionQueryCommand ++ baCR], clearToSend := false }
    fpFirmwareFile := { content := [], isOpen := false, cursor := 0 }
    baLastPacket := []
    nAppMode := mode
    nAction := ActionModeTypeModem
    nCPacket := XMODEM_FIRST_PACKET_ID
    nCFilePos := 0
    bLastPacketSent := false
    nBytesWritten := 0
    nBootloaderTimerChecks := 0
    baRecBuf := []
    tmrBootloaderEntranceTimer := false
    tmrBootloaderEntranceTimerInterval := 0
    progressBar := 0
    pmErrorForm := []
    inputsEnabled := false
    edit_File := name
    firmwareOnDisk := onDisk
    fpFirmwareFileErrorString := qstr "No such file or directory"
    questionAnswer := true }

/-- A window whose bootloader entrance poller was just started by the mode
detector (rule 4): action UserApplication, the timer running, the check
counter at 0, clear-to-send not asserted. -/
def pollerStarted : MainWindow :=
  { portOpened ApplicationModeTypeFirmwareUpdateModeCheck [] none with
    nAction := ActionModeTypeUserApplication
    tmrBootloaderEntranceTimer := true
    tmrBootloaderEntranceTimerInterval := BOOTLOADER_ENTER_TIMER_CHECK_MS
    nBootloaderTimerChecks := 0 }

/-- A window in action Finished right after the accept command was written:
`nBytesWritten` reset to 0, the last packet the 11 bytes `AT+WDSR=4` CR LF. -/
def acceptSent : MainWindow :=
  { transferEntered [0x41] with
    nAction := ActionModeTypeXModemFinished
    nBytesWritten := 0
    baLastPacket := baFirmwareUpgradeAcceptCommand ++ baCRLF }

/-- A window that just opened the port for an update from the file `fw.bin`,
which can be opened and holds three bytes. -/
def checkWindow : MainWindow :=
  portOpened ApplicationModeTypeFirmwareUpdateModeCheck (qstr "fw.bin") (some [0x41, 0x42, 0x43])

/-- A window that just opened the port for an update from the file `fw.bin`,
which cannot be opened. -/
def checkWindowNoFile : MainWindow :=
  portOpened ApplicationModeTypeFirmwareUpdateModeCheck (qstr "fw.bin") none

/-- A window that just opened the port for a version query. -/
def queryWindow : MainWindow := portOpened ApplicationModeTypeQuery [] none

/-- An example answer of the modem to the version query: the model marker, a
dot, the version `1234567` and a carriage return. -/
def versionReply : List Nat := bytesOf "HL7800.1234567\r"

/-- A window whose poller has counted three timeouts when clear-to-send is
found asserted. -/
def pollerSignalled : MainWindow :=
  { pollerStarted with
    nBootloaderTimerChecks := 3
    spSerialPort := { pollerStarted.spSerialPort with clearToSend := true } }

/-- A window in a version query whose UARTs were just bridged: the unlock and
the bridge command are written, the receive buffer is empty. -/
def bridgedWindow : MainWindow :=
  { queryWindow with
    nAction := ActionModeTypeBootloaderBridged
    spSerialPort := { queryWindow.spSerialPort with
      written := [baVersionQueryCommand ++ baCR, baBootloaderUnlockCommand,
        baBootloaderBridgeUARTsCommand] } }

/-- The integer values of `enum ActionModeTypes`, in the order of declaration. -/
def ActionModeTypes.toNat : ActionModeTypes → Nat
  | ActionModeTypeModem => 0
  | ActionModeTypeBootloaderUnbridged => 1
  | ActionModeTypeBootloaderBridged => 2
  | ActionModeTypeUserApplication => 3
  | ActionModeTypeXModemWaitForNack => 4
  | ActionModeTypeXModemSendData => 5
  | ActionModeTypeXModemSendEndOfFrame => 6
  | ActionModeTypeXModemFinished => 7

/-- The two signals of `spSerialPort` that the constructor of `MainWindow`
connects to the transfer: `readyRead()` with the bytes `readAll()` then
yields, and `bytesWritten(qint64)`. -/
inductive SerialSignal where
  | readyRead (baRecData : List Nat)
  | bytesWritten (intByteCount : Nat)
  deriving DecidableEq, Repr

/-- Delivers one signal of the serial port to the slot connected to it. -/
def deliver (s : MainWindow) : SerialSignal → Option MainWindow
  | SerialSignal.readyRead baRecData => SerialRead s baRecData
  | SerialSignal.bytesWritten intByteCount => some (SerialBytesWritten s intByteCount)

/-- Delivers the signals one after the other, in order. -/
def deliverAll : MainWindow → List SerialSignal → Option MainWindow
  | s, [] => some s
  | s, sig :: more =>
    match deliver s sig with
    | none => none
    | some s1 => deliverAll s1 more

/-- The window of `transferEntered twoBlockFile` in the data phase with the
packet counter at 255 and the second block of the file next. -/
def wrapWindow : MainWindow :=
  { transferEntered twoBlockFile with
    nAction := ActionModeTypeXModemSendData
    nCPacket := 255
    nCFilePos := 1024 }

/-- The window of `transferEntered hugeFile` in the data phase with the last
block of the file next: 4194303 frames are sent, the offset is 4294966272
and the packet counter 0. -/
def lastBlockWindow : MainWindow :=
  { transferEntered hugeFile with
    nAction := ActionModeTypeXModemSendData
    nCPacket := 0
    nCFilePos := 4294966272
    fpFirmwareFile := { content := hugeFile, isOpen := true, cursor := 4294966272 } }

/-- An example firmware file of 41945 blocks, 42951680 zero bytes. -/
def bigFile : List Nat := List.replicate 42951680 0

/-- The window of `transferEntered bigFile` in the data phase with the last
block of the file next: 41944 frames are sent, the offset is 42950656 and
the packet counter 217. -/
def bigFileWindow : MainWindow :=
  { transferEntered bigFile with
    nAction := ActionModeTypeXModemSendData
    nCPacket := 217
    nCFilePos := 42950656
    fpFirmwareFile := { content := bigFile, isOpen := true, cursor := 42950656 } }

/-- An example firmware file of 4294967295 zero bytes: 4194303 blocks and 1023
bytes more, one byte below the range of the 32-bit file offset. -/
def nearHugeFile : List Nat := List.replicate 4294967295 0

/-- An example firmware file of one block and 476 bytes more: 1500 bytes of
value 7. -/
def oddFile : List Nat := List.replicate 1500 7

/-! ## Checksum loop -/

theorem Calc8BitCRC.loop_eq (l : List Nat) (n c : Nat) (hn : n ≤ l.length) (hc : c < 256) :
    Calc8BitCRC.loop l n c = some ((c + (l.take n).sum) % 256) := by
  induction n generalizing l c with
  | zero => simp [Calc8BitCRC.loop, Nat.mod_eq_of_lt hc]
  | succ n ih =>
    cases l with
    | nil => simp at hn
    | cons b t =>
      have hn1 : n ≤ t.length := by simpa using hn
      simp only [Calc8BitCRC.loop, List.take_succ_cons, List.sum_cons]
      rw [ih t _ hn1 (Nat.mod_lt _ (by norm_num))]
      congr 1
      omega

theorem Calc8BitCRC.loop_none (l : List Nat) (n c : Nat) (hn : l.length < n) :
    Calc8BitCRC.loop l n c = none := by
  induction l generalizing n c with
  | nil =>
    cases n with
    | zero => simp at hn
    | succ n => simp [Calc8BitCRC.loop]
  | cons b t ih =>
    cases n with
    | zero => simp at hn
    | succ n =>
      simp only [Calc8BitCRC.loop]
      exact ih n _ (by simpa using hn)

/-- The sum over `nSize` bytes behind a three-byte header, when the buffer
(with its terminating zero) holds that many. -/
theorem Calc8BitCRC_header (hdr payload : List Nat) (nSize : Nat) (hh : hdr.length = 3)
    (hn : nSize ≤ payload.length + 1) :
    Calc8BitCRC (QByteArray.data (hdr ++ payload)) nSize
      = some (((payload ++ [0]).take nSize).sum % 256) := by
  have hdrop : (hdr ++ payload ++ [0]).drop 3 = payload ++ [0] := by
    rw [List.append_assoc, ← hh, List.drop_left]
  unfold Calc8BitCRC QByteArray.data nXModemHeaderSize
  rw [hdrop, Calc8BitCRC.loop_eq _ _ _ (by simpa using hn) (by norm_num)]
  simp

/-- The sum is undefined when it would run past the terminating zero. -/
theorem Calc8BitCRC_overrun (hdr payload : List Nat) (nSize : Nat) (hh : hdr.length = 3)
    (hn : payload.length + 1 < nSize) :
    Calc8BitCRC (QByteArray.data (hdr ++ payload)) nSize = none := by
  have hdrop : (hdr ++ payload ++ [0]).drop 3 = payload ++ [0] := by
    rw [List.append_assoc, ← hh, List.drop_left]
  unfold Calc8BitCRC QByteArray.data nXModemHeaderSize
  rw [hdrop, Calc8BitCRC.loop_none _ _ _ (by simpa using hn)]

theorem Calc8BitCRC_frame (hdr payload : List Nat) (hh : hdr.length = 3) :
    Calc8BitCRC (QByteArray.data (hdr ++ payload)) payload.length
      = some (payload.sum % 256) := by
  have hdrop : (hdr ++ payload ++ [0]).drop 3 = payload ++ [0] := by
    rw [List.append_assoc, ← hh, List.drop_left]
  unfold Calc8BitCRC QByteArray.data nXModemHeaderSize
  rw [hdrop, Calc8BitCRC.loop_eq _ _ _ (by simp) (by norm_num)]
  simp

/-! ## One step of the transfer engine -/

theorem SerialRead_firmwareUpdate (s : MainWindow) (baRecData : List Nat)
    (hmode : s.nAppMode = ApplicationModeTypeFirmwareUpdate) :
    SerialRead s baRecData = SerialRead.firmwareUpdate s baRecData := by
  simp [SerialRead, hmode]

/-- An ACK for which the file still has a byte at the offset: the data frame
is built, padded, summed and written, and both counters advance. -/
theorem onAck_data (s : MainWindow) (payload : List Nat)
    (hopen : s.fpFirmwareFile.isOpen = true)
    (hread : (s.fpFirmwareFile.content.drop s.nCFilePos).take 1024 = payload)
    (hne : payload ≠ []) :
    SerialRead.onAck s = some { s with
      baLastPacket :=
        [0x02, s.nCPacket, 0xff - s.nCPacket]
          ++ (payload ++ List.replicate (1024 - payload.length) 26)
          ++ [(payload ++ List.replicate (1024 - payload.length) 26).sum % 256]
      bLastPacketSent := if payload.length < 1024 then true else s.bLastPacketSent
      fpFirmwareFile := { s.fpFirmwareFile with cursor := s.nCFilePos + payload.length }
      spSerialPort := s.spSerialPort.write
        ([0x02, s.nCPacket, 0xff - s.nCPacket]
          ++ (payload ++ List.replicate (1024 - payload.length) 26)
          ++ [(payload ++ List.replicate (1024 - payload.length) 26).sum % 256])
      progressBar := toInt32 (s.nCFilePos * 100 % 4294967296 / s.fpFirmwareFile.content.length)
      nCPacket := (s.nCPacket + 1) % 256
      nCFilePos := (s.nCFilePos + 1024) % 4294967296 } := by
  have hlen : payload.length ≤ 1024 := by rw [← hread]; simp
  have hpos : 0 < payload.length := List.length_pos.mpr hne
  have hsize : s.fpFirmwareFile.content.length ≠ 0 := by
    intro h0
    have : s.fpFirmwareFile.content = [] := List.length_eq_zero.mp h0
    rw [this] at hread
    simp at hread
    exact hne hread
  have hcrc := Calc8BitCRC_frame [0x02, s.nCPacket, 0xff - s.nCPacket]
    (payload ++ List.replicate (1024 - payload.length) 26) rfl
  have hplen : (payload ++ List.replicate (1024 - payload.length) 26).length = 1024 := by
    simp; omega
  rw [hplen] at hcrc
  simp only [List.cons_append, List.nil_append] at hcrc
  by_cases hshort : payload.length < 1024
  · have h3 : payload.length + 1 + 1 + 1 < 1027 := by omega
    have hmod : payload.length + (1024 - payload.length) = 1024 := by omega
    by_cases hcur : s.fpFirmwareFile.cursor = s.nCFilePos
    · simp [SerialRead.onAck, QFile.pos, QFile.seek, QFile.read, QFile.size, hopen, hcur, hread,
        nXModemDataSize, nXModemHeaderSize, nXModemPaddingCharacter,
        XModemPacketType1024BytePacket, XMODEM_INVERSE, progressValue, PERCENT_100, hne, hsize,
        h3, hshort, hmod, QSerialPort.write]
      rw [hcrc]
      simp
    · simp [SerialRead.onAck, QFile.pos, QFile.seek, QFile.read, QFile.size, hopen, hcur, hread,
        nXModemDataSize, nXModemHeaderSize, nXModemPaddingCharacter,
        XModemPacketType1024BytePacket, XMODEM_INVERSE, progressValue, PERCENT_100, hne, hsize,
        h3, hshort, hmod, QSerialPort.write]
      rw [hcrc]
      simp
  · have h1024 : payload.length = 1024 := by omega
    have h3 : ¬ payload.length + 1 + 1 + 1 < 1027 := by omega
    have hrep : List.replicate (1024 - payload.length) 26 = [] := by simp [h1024]
    rw [hrep, List.append_nil] at hcrc
    by_cases hcur : s.fpFirmwareFile.cursor = s.nCFilePos
    · simp [SerialRead.onAck, QFile.pos, QFile.seek, QFile.read, QFile.size, hopen, hcur, hread,
        nXModemDataSize, nXModemHeaderSize, nXModemPaddingCharacter,
        XModemPacketType1024BytePacket, XMODEM_INVERSE, progressValue, PERCENT_100, hne, hsize,
        h3, hshort, h1024, QSerialPort.write]
      rw [hcrc]
    · simp [SerialRead.onAck, QFile.pos, QFile.seek, QFile.read, QFile.size, hopen, hcur, hread,
        nXModemDataSize, nXModemHeaderSize, nXModemPaddingCharacter,
        XModemPacketType1024BytePacket, XMODEM_INVERSE, progressValue, PERCENT_100, hne, hsize,
        h3, hshort, h1024, QSerialPort.write]
      rw [hcrc]


/-- An ACK when the file has no byte left at the offset: the end of frame
byte is sent instead of a data frame, and the counters stay. -/
theorem onAck_eof (s : MainWindow) (hopen : s.fpFirmwareFile.isOpen = true)
    (hpos : s.fpFirmwareFile.content.length ≤ s.nCFilePos) :
    SerialRead.onAck s = some { s with
      nAction := ActionModeTypeXModemSendEndOfFrame
      baLastPacket := [0x04]
      fpFirmwareFile := { s.fpFirmwareFile with cursor := s.nCFilePos }
      spSerialPort := s.spSerialPort.write [0x04] } := by
  have hread : List.drop s.nCFilePos s.fpFirmwareFile.content = [] :=
    List.drop_eq_nil_of_le hpos
  by_cases hcur : s.fpFirmwareFile.cursor = s.nCFilePos
  · simp [SerialRead.onAck, QFile.pos, QFile.seek, QFile.read, hopen, hcur, hread,
      nXModemDataSize, nXModemHeaderSize, XModemPacketType1024BytePacket, XMODEM_INVERSE,
      XModemPacketTypeEndOfFrame, QSerialPort.write]
  · simp [SerialRead.onAck, QFile.pos, QFile.seek, QFile.read, hopen, hcur, hread,
      nXModemDataSize, nXModemHeaderSize, XModemPacketType1024BytePacket, XMODEM_INVERSE,
      XModemPacketTypeEndOfFrame, QSerialPort.write]

/-- The first NACK, for a file of at least 1023 bytes: offset and counter are
reset, the first frame is built without padding, summed over 1024 bytes and
written. -/
theorem onNack_first (s : MainWindow) (payload : List Nat)
    (hact : s.nAction = ActionModeTypeXModemWaitForNack)
    (hopen : s.fpFirmwareFile.isOpen = true)
    (hread : s.fpFirmwareFile.content.take 1024 = payload)
    (hlen : 1023 ≤ payload.length) :
    SerialRead.onNack s = some { s with
      nAction := ActionModeTypeXModemSendData
      baLastPacket := [0x02, 0x01, 0xfe] ++ payload ++ [payload.sum % 256]
      fpFirmwareFile := { s.fpFirmwareFile with cursor := payload.length }
      spSerialPort := s.spSerialPort.write ([0x02, 0x01, 0xfe] ++ payload ++ [payload.sum % 256])
      progressBar := 0
      nCPacket := 2
      nCFilePos := 1024 } := by
  have hle : payload.length ≤ 1024 := by rw [← hread]; simp
  have hsize : s.fpFirmwareFile.content.length ≠ 0 := by
    intro h0
    have : s.fpFirmwareFile.content = [] := List.length_eq_zero.mp h0
    rw [this] at hread
    simp at hread
    rw [hread] at hlen
    simp at hlen
  have hcrc := Calc8BitCRC_header [0x02, 0x01, 0xfe] payload 1024 rfl (by omega)
  have htake : ((payload ++ [0]).take 1024).sum = payload.sum := by
    rcases Nat.lt_or_ge payload.length 1024 with h | h
    · have h1023 : payload.length = 1023 := by omega
      rw [List.take_of_length_le (by simp; omega)]
      simp
    · have h1024 : payload.length = 1024 := by omega
      rw [List.take_append_of_le_length (by omega), List.take_of_length_le (by omega)]
  rw [htake] at hcrc
  simp only [List.cons_append, List.nil_append] at hcrc
  simp [SerialRead.onNack, hact, QFile.seek, QFile.read, QFile.size, hopen, hread,
    nXModemDataSize, XModemPacketType1024BytePacket, XMODEM_INVERSE, XMODEM_FIRST_PACKET_ID,
    XMODEM_SECOND_PACKET_ID, progressValue, PERCENT_100, hsize, QSerialPort.write, hcrc, toInt32]

/-- The first NACK is undefined for a file of fewer than 1023 bytes: the sum
over 1024 bytes runs out of the unpadded buffer. -/
theorem onNack_first_overrun (s : MainWindow)
    (hact : s.nAction = ActionModeTypeXModemWaitForNack)
    (hopen : s.fpFirmwareFile.isOpen = true)
    (hlen : s.fpFirmwareFile.content.length < 1023) :
    SerialRead.onNack s = none := by
  have hcrc := Calc8BitCRC_overrun [0x02, 0x01, 0xfe] (s.fpFirmwareFile.content.take 1024) 1024
    rfl (by simp; omega)
  simp only [List.cons_append, List.nil_append] at hcrc
  simp [SerialRead.onNack, hact, QFile.seek, QFile.read, hopen,
    nXModemDataSize, XModemPacketType1024BytePacket, XMODEM_INVERSE, XMODEM_FIRST_PACKET_ID,
    hcrc]

/-- A NACK while sending data writes the last packet again and nothing else. -/
theorem onNack_retransmit (s : MainWindow)
    (hact : s.nAction = ActionModeTypeXModemSendData) :
    SerialRead.onNack s = some { s with
      spSerialPort := s.spSerialPort.write s.baLastPacket } := by
  simp [SerialRead.onNack, hact]

theorem SerialRead_ack (s : MainWindow) (rest : List Nat)
    (hmode : s.nAppMode = ApplicationModeTypeFirmwareUpdate)
    (hact : s.nAction = ActionModeTypeXModemWaitForNack
      ∨ s.nAction = ActionModeTypeXModemSendData) :
    SerialRead s (XModemPacketTypeAck :: rest) = SerialRead.onAck s := by
  simp [SerialRead, SerialRead.firmwareUpdate, hmode, hact]

theorem SerialRead_nack (s : MainWindow) (rest : List Nat)
    (hmode : s.nAppMode = ApplicationModeTypeFirmwareUpdate)
    (hact : s.nAction = ActionModeTypeXModemWaitForNack
      ∨ s.nAction = ActionModeTypeXModemSendData) :
    SerialRead s (XModemPacketTypeNack :: rest) = SerialRead.onNack s := by
  simp [SerialRead, SerialRead.firmwareUpdate, hmode, hact, XModemPacketTypeNack,
    XModemPacketTypeAck]

/-- The parts of a frame made of a three-byte header, 1024 payload bytes and
one trailing byte. -/
theorem frame_parts (a b c x : Nat) (P : List Nat) (hP : P.length = 1024) :
    ([a, b, c] ++ P ++ [x]).length = 1028
    ∧ ([a, b, c] ++ P ++ [x]).take 3 = [a, b, c]
    ∧ (([a, b, c] ++ P ++ [x]).drop 3).take 1024 = P
    ∧ ([a, b, c] ++ P ++ [x]).drop 3 = P ++ [x]
    ∧ ([a, b, c] ++ P ++ [x]).drop 1027 = [x] := by
  have h3 : ([a, b, c] ++ P ++ [x]).drop 3 = P ++ [x] := by simp
  have h1027 : ([a, b, c] ++ P ++ [x]).drop 1027 = [x] := by
    have : ([a, b, c] ++ P).length = 1027 := by simp [hP]
    rw [← this, List.drop_left]
  refine ⟨by simp [hP], by simp, ?_, h3, h1027⟩
  rw [h3, ← hP, List.take_left]

theorem padded_length (payload : List Nat) (hlen : payload.length ≤ 1024) :
    (payload ++ List.replicate (1024 - payload.length) 26).length = 1024 := by
  simp; omega

/-- The members after an ACK that found a byte at the offset. -/
theorem onAck_data_fields (s : MainWindow) (payload : List Nat)
    (hopen : s.fpFirmwareFile.isOpen = true)
    (hread : (s.fpFirmwareFile.content.drop s.nCFilePos).take 1024 = payload)
    (hne : payload ≠ []) :
    ∃ t : MainWindow,
      SerialRead.onAck s = some t
      ∧ t.nAppMode = s.nAppMode
      ∧ t.nAction = s.nAction
      ∧ t.fpFirmwareFile.content = s.fpFirmwareFile.content
      ∧ t.fpFirmwareFile.isOpen = true
      ∧ t.nCPacket = (s.nCPacket + 1) % 256
      ∧ t.nCFilePos = (s.nCFilePos + 1024) % 4294967296
      ∧ t.bLastPacketSent = (if payload.length < 1024 then true else s.bLastPacketSent)
      ∧ t.baLastPacket = [0x02, s.nCPacket, 0xff - s.nCPacket]
          ++ (payload ++ List.replicate (1024 - payload.length) 26)
          ++ [(payload ++ List.replicate (1024 - payload.length) 26).sum % 256]
      ∧ t.spSerialPort.written = s.spSerialPort.written ++ [t.baLastPacket] :=
  ⟨_, onAck_data s payload hopen hread hne, rfl, rfl, rfl, hopen, rfl, rfl, rfl, rfl, rfl⟩

/-- The members after an ACK that found no byte at the offset. -/
theorem onAck_eof_fields (s : MainWindow) (hopen : s.fpFirmwareFile.isOpen = true)
    (hpos : s.fpFirmwareFile.content.length ≤ s.nCFilePos) :
    ∃ t : MainWindow,
      SerialRead.onAck s = some t
      ∧ t.nAppMode = s.nAppMode
      ∧ t.nAction = ActionModeTypeXModemSendEndOfFrame
      ∧ t.nCPacket = s.nCPacket
      ∧ t.nCFilePos = s.nCFilePos
      ∧ t.bLastPacketSent = s.bLastPacketSent
      ∧ t.baLastPacket = [0x04]
      ∧ t.spSerialPort.written = s.spSerialPort.written ++ [[0x04]] :=
  ⟨_, onAck_eof s hopen hpos, rfl, rfl, rfl, rfl, rfl, rfl, rfl⟩

/-- The members after the first NACK, for a file of at least 1023 bytes. -/
theorem onNack_first_fields (s : MainWindow) (payload : List Nat)
    (hact : s.nAction = ActionModeTypeXModemWaitForNack)
    (hopen : s.fpFirmwareFile.isOpen = true)
    (hread : s.fpFirmwareFile.content.take 1024 = payload)
    (hlen : 1023 ≤ payload.length) :
    ∃ t : MainWindow,
      SerialRead.onNack s = some t
      ∧ t.nAppMode = s.nAppMode
      ∧ t.nAction = ActionModeTypeXModemSendData
      ∧ t.fpFirmwareFile.content = s.fpFirmwareFile.content
      ∧ t.fpFirmwareFile.isOpen = true
      ∧ t.nCPacket = 2
      ∧ t.nCFilePos = 1024
      ∧ t.bLastPacketSent = s.bLastPacketSent
      ∧ t.baLastPacket = [0x02, 0x01, 0xfe] ++ payload ++ [payload.sum % 256]
      ∧ t.spSerialPort.written = s.spSerialPort.written ++ [t.baLastPacket] :=
  ⟨_, onNack_first s payload hact hopen hread hlen, rfl, rfl, rfl, hopen, rfl, rfl, rfl, rfl,
    rfl⟩

/-! ## The claims -/

/-- C1: for every data frame built on an ACK (state WaitForNack or SendData,
at least one byte read from the file) the frame has 1028 bytes, its bytes
3..1026 are the file bytes followed by the padding, and its last byte is the
sum of exactly those 1024 bytes modulo 256; with another sequence number in
the header the payload and the checksum byte are the same. -/
theorem C1_checksum_covers_padded_payload (s : MainWindow) (rest : List Nat)
    (hmode : s.nAppMode = ApplicationModeTypeFirmwareUpdate)
    (hact : s.nAction = ActionModeTypeXModemWaitForNack
      ∨ s.nAction = ActionModeTypeXModemSendData)
    (hopen : s.fpFirmwareFile.isOpen = true)
    (hpos : s.nCFilePos < s.fpFirmwareFile.content.length) :
    ∃ frame : List Nat,
      (SerialRead s (XModemPacketTypeAck :: rest)).map (fun t => t.spSerialPort.written)
        = some (s.spSerialPort.written ++ [frame])
      ∧ frame.length = 1028
      ∧ (frame.drop 3).take 1024
          = (s.fpFirmwareFile.content.drop s.nCFilePos).take 1024
            ++ List.replicate
              (1024 - ((s.fpFirmwareFile.content.drop s.nCFilePos).take 1024).length) 26
      ∧ frame.drop 1027 = [((frame.drop 3).take 1024).sum % 256]
      ∧ ∀ seq : Nat, ∃ other : List Nat,
          (SerialRead { s with nCPacket := seq } (XModemPacketTypeAck :: rest)).map
              (fun t => t.spSerialPort.written)
            = some (s.spSerialPort.written ++ [other])
          ∧ other.drop 3 = frame.drop 3 := by
  have hne : (s.fpFirmwareFile.content.drop s.nCFilePos).take 1024 ≠ [] := by
    intro h
    have := congrArg List.length h
    simp at this
    omega
  have hP := padded_length ((s.fpFirmwareFile.content.drop s.nCFilePos).take 1024) (by simp)
  generalize hpay : (s.fpFirmwareFile.content.drop s.nCFilePos).take 1024 = payload at hne hP
  generalize hpad : payload ++ List.replicate (1024 - payload.length) 26 = P at hP
  have hstep : ∀ seq : Nat,
      (SerialRead { s with nCPacket := seq } (XModemPacketTypeAck :: rest)).map
          (fun t => t.spSerialPort.written)
        = some (s.spSerialPort.written ++ [[0x02, seq, 0xff - seq] ++ P ++ [P.sum % 256]]) := by
    intro seq
    rw [SerialRead_ack { s with nCPacket := seq } rest hmode hact,
      onAck_data { s with nCPacket := seq } payload hopen hpay hne]
    simp only [Option.map_some', QSerialPort.write, hpad]
  have hparts := fun a b c x => frame_parts a b c x P hP
  refine ⟨[0x02, s.nCPacket, 0xff - s.nCPacket] ++ P ++ [P.sum % 256], hstep s.nCPacket,
    (hparts _ _ _ _).1, (hparts _ _ _ _).2.2.1, ?_, ?_⟩
  · rw [(hparts _ _ _ _).2.2.1]
    exact (hparts _ _ _ _).2.2.2.2
  · intro seq
    refine ⟨_, hstep seq, ?_⟩
    rw [(hparts _ _ _ _).2.2.2.1, (hparts _ _ _ _).2.2.2.1]

/-- C1 at the three-byte file 41 42 43, ACK received in WaitForNack. -/
theorem C1_checksum_covers_padded_payload_witness :
    ∃ frame : List Nat,
      (SerialRead (transferEntered [0x41, 0x42, 0x43]) [XModemPacketTypeAck]).map
          (fun t => t.spSerialPort.written)
        = some ((transferEntered [0x41, 0x42, 0x43]).spSerialPort.written ++ [frame])
      ∧ frame.length = 1028
      ∧ (frame.drop 3).take 1024
          = ((transferEntered [0x41, 0x42, 0x43]).fpFirmwareFile.content.drop
                (transferEntered [0x41, 0x42, 0x43]).nCFilePos).take 1024
            ++ List.replicate
              (1024 - (((transferEntered [0x41, 0x42, 0x43]).fpFirmwareFile.content.drop
                (transferEntered [0x41, 0x42, 0x43]).nCFilePos).take 1024).length) 26
      ∧ frame.drop 1027 = [((frame.drop 3).take 1024).sum % 256]
      ∧ ∀ seq : Nat, ∃ other : List Nat,
          (SerialRead { transferEntered [0x41, 0x42, 0x43] with nCPacket := seq }
              [XModemPacketTypeAck]).map (fun t => t.spSerialPort.written)
            = some ((transferEntered [0x41, 0x42, 0x43]).spSerialPort.written ++ [other])
          ∧ other.drop 3 = frame.drop 3 :=
  C1_checksum_covers_padded_payload (transferEntered [0x41, 0x42, 0x43]) [] rfl (Or.inl rfl) rfl
    (by decide)

/-- C2: every data frame the engine builds, on an ACK (the file still has a
byte at the offset) or on the first NACK (a file of at least 1023 bytes),
starts with the type byte 0x02, then the sequence number (the packet counter
on an ACK, the first packet id 1 on the first NACK), then 255 minus the
sequence number; the two add up to 255 for every counter value 0..255. -/
theorem C2_header_type_seq_inverse (s : MainWindow) (c : Nat) (rest : List Nat)
    (hmode : s.nAppMode = ApplicationModeTypeFirmwareUpdate)
    (hopen : s.fpFirmwareFile.isOpen = true)
    (hseq : s.nCPacket < 256)
    (hcase :
      (c = XModemPacketTypeAck
        ∧ (s.nAction = ActionModeTypeXModemWaitForNack
            ∨ s.nAction = ActionModeTypeXModemSendData)
        ∧ s.nCFilePos < s.fpFirmwareFile.content.length)
      ∨ (c = XModemPacketTypeNack
        ∧ s.nAction = ActionModeTypeXModemWaitForNack
        ∧ 1023 ≤ s.fpFirmwareFile.content.length)) :
    ∃ (frame : List Nat) (seq : Nat),
      (SerialRead s (c :: rest)).map (fun t => t.spSerialPort.written)
        = some (s.spSerialPort.written ++ [frame])
      ∧ (SerialRead s (c :: rest)).map (fun t => t.baLastPacket) = some frame
      ∧ seq = (if c = XModemPacketTypeAck then s.nCPacket else XMODEM_FIRST_PACKET_ID)
      ∧ frame.take 3 = [0x02, seq, 255 - seq]
      ∧ seq + (255 - seq) = 255
      ∧ (seq + (255 - seq)) % 256 = 255 := by
  rcases hcase with ⟨hc, hact, hpos⟩ | ⟨hc, hact, hlen⟩
  · subst hc
    have hne : (s.fpFirmwareFile.content.drop s.nCFilePos).take 1024 ≠ [] := by
      intro h
      have := congrArg List.length h
      simp at this
      omega
    rw [SerialRead_ack s rest hmode hact, onAck_data s _ hopen rfl hne]
    simp only [Option.map_some', QSerialPort.write]
    exact ⟨_, s.nCPacket, rfl, rfl, by simp, by simp, by omega, by omega⟩
  · subst hc
    have hl : 1023 ≤ (s.fpFirmwareFile.content.take 1024).length := by
      simp; omega
    rw [SerialRead_nack s rest hmode (Or.inl hact), onNack_first s _ hact hopen rfl hl]
    simp only [Option.map_some', QSerialPort.write]
    exact ⟨_, 1, rfl, rfl, by simp [XModemPacketTypeNack, XModemPacketTypeAck,
      XMODEM_FIRST_PACKET_ID], by simp, by omega, by omega⟩

/-- C2 at an ACK with the packet counter wrapped to 0 (one-byte file) and at the
first NACK for the one-block file. -/
theorem C2_header_type_seq_inverse_witness :
    (∃ (frame : List Nat) (seq : Nat),
      (SerialRead { transferEntered [0x41] with nCPacket := 0 } [XModemPacketTypeAck]).map
          (fun t => t.spSerialPort.written)
        = some ([] ++ [frame])
      ∧ (SerialRead { transferEntered [0x41] with nCPacket := 0 } [XModemPacketTypeAck]).map
          (fun t => t.baLastPacket) = some frame
      ∧ seq = (if XModemPacketTypeAck = XModemPacketTypeAck then 0 else XMODEM_FIRST_PACKET_ID)
      ∧ frame.take 3 = [0x02, seq, 255 - seq]
      ∧ seq + (255 - seq) = 255
      ∧ (seq + (255 - seq)) % 256 = 255)
    ∧ (∃ (frame : List Nat) (seq : Nat),
      (SerialRead (transferEntered (List.replicate 1024 7)) [XModemPacketTypeNack]).map
          (fun t => t.spSerialPort.written)
        = some ([] ++ [frame])
      ∧ (SerialRead (transferEntered (List.replicate 1024 7)) [XModemPacketTypeNack]).map
          (fun t => t.baLastPacket) = some frame
      ∧ seq = (if XModemPacketTypeNack = XModemPacketTypeAck then 1 else XMODEM_FIRST_PACKET_ID)
      ∧ frame.take 3 = [0x02, seq, 255 - seq]
      ∧ seq + (255 - seq) = 255
      ∧ (seq + (255 - seq)) % 256 = 255) :=
  ⟨C2_header_type_seq_inverse { transferEntered [0x41] with nCPacket := 0 } XModemPacketTypeAck []
      rfl rfl (by decide) (Or.inl ⟨rfl, Or.inl rfl, by decide⟩),
    C2_header_type_seq_inverse (transferEntered (List.replicate 1024 7)) XModemPacketTypeNack []
      rfl rfl (by decide)
      (Or.inr ⟨rfl, rfl, by
        show 1023 ≤ (List.replicate 1024 7).length
        rw [List.length_replicate]
        decide⟩)⟩

/-- C3: on an ACK in WaitForNack or SendData for which the read at the file
offset returns `n` bytes, `1 <= n`, the frame written is exactly the three
header bytes, the `n` file bytes, `1024 - n` bytes 0x1A (none when
`n = 1024`) and the checksum, 1028 bytes in all, and `bLastPacketSent` is
true afterwards when `n < 1024` and keeps its value when `n = 1024`. -/
theorem C3_short_read_padded_with_0x1A (s : MainWindow) (rest payload : List Nat)
    (hmode : s.nAppMode = ApplicationModeTypeFirmwareUpdate)
    (hact : s.nAction = ActionModeTypeXModemWaitForNack
      ∨ s.nAction = ActionModeTypeXModemSendData)
    (hopen : s.fpFirmwareFile.isOpen = true)
    (hread : ((s.fpFirmwareFile.seek s.nCFilePos).read nXModemDataSize).1 = payload)
    (hn : 1 ≤ payload.length) :
    ∃ t : MainWindow,
      SerialRead s (XModemPacketTypeAck :: rest) = some t
      ∧ t.spSerialPort.written = s.spSerialPort.written ++ [t.baLastPacket]
      ∧ t.baLastPacket
          = [0x02, s.nCPacket, 0xff - s.nCPacket] ++ payload
            ++ List.replicate (1024 - payload.length) 0x1A
            ++ [(payload ++ List.replicate (1024 - payload.length) 0x1A).sum % 256]
      ∧ t.baLastPacket.length = 1028
      ∧ (List.replicate (1024 - payload.length) 0x1A).length = 1024 - payload.length
      ∧ t.bLastPacketSent = (if payload.length < 1024 then true else s.bLastPacketSent) := by
  have hread2 : (s.fpFirmwareFile.content.drop s.nCFilePos).take 1024 = payload := by
    simpa [QFile.seek, QFile.read, hopen, nXModemDataSize] using hread
  have hne : payload ≠ [] := by
    intro h
    rw [h] at hn
    simp at hn
  have hle : payload.length ≤ 1024 := by rw [← hread2]; simp
  rw [SerialRead_ack s rest hmode hact, onAck_data s payload hopen hread2 hne]
  refine ⟨_, rfl, rfl, by simp, ?_, by simp, rfl⟩
  simp
  omega

/-- C3 at the three-byte file 41 42 43: a read of three bytes, 1021 filler bytes. -/
theorem C3_short_read_padded_with_0x1A_witness :
    ∃ t : MainWindow,
      SerialRead (transferEntered [0x41, 0x42, 0x43]) [XModemPacketTypeAck] = some t
      ∧ t.spSerialPort.written
          = (transferEntered [0x41, 0x42, 0x43]).spSerialPort.written ++ [t.baLastPacket]
      ∧ t.baLastPacket
          = [0x02, (transferEntered [0x41, 0x42, 0x43]).nCPacket,
              0xff - (transferEntered [0x41, 0x42, 0x43]).nCPacket] ++ [0x41, 0x42, 0x43]
            ++ List.replicate (1024 - [0x41, 0x42, 0x43].length) 0x1A
            ++ [([0x41, 0x42, 0x43] ++ List.replicate (1024 - [0x41, 0x42, 0x43].length) 0x1A).sum
                % 256]
      ∧ t.baLastPacket.length = 1028
      ∧ (List.replicate (1024 - [0x41, 0x42, 0x43].length) 0x1A).length
          = 1024 - [0x41, 0x42, 0x43].length
      ∧ t.bLastPacketSent
          = (if [0x41, 0x42, 0x43].length < 1024 then true
              else (transferEntered [0x41, 0x42, 0x43]).bLastPacketSent) :=
  C3_short_read_padded_with_0x1A (transferEntered [0x41, 0x42, 0x43]) [] [0x41, 0x42, 0x43]
    rfl (Or.inl rfl) rfl rfl (by decide)

/-- Chunks that all start with NACK, received while sending data: each one
writes the last packet once more and changes nothing else. -/
theorem nacks_retransmit (s : MainWindow) (chunks : List (List Nat))
    (hmode : s.nAppMode = ApplicationModeTypeFirmwareUpdate)
    (hact : s.nAction = ActionModeTypeXModemSendData)
    (hall : ∀ chunk ∈ chunks, chunk.head? = some XModemPacketTypeNack) :
    SerialReadAll s chunks = some { s with
      spSerialPort := { s.spSerialPort with
        written := s.spSerialPort.written ++ List.replicate chunks.length s.baLastPacket } } := by
  induction chunks generalizing s with
  | nil => simp [SerialReadAll]
  | cons chunk more ih =>
    have hhead := hall chunk (List.mem_cons_self _ _)
    obtain ⟨rest, rfl⟩ : ∃ rest, chunk = XModemPacketTypeNack :: rest := by
      cases chunk with
      | nil => simp at hhead
      | cons c rest => exact ⟨rest, by simpa using hhead⟩
    have hmore : ∀ chunk ∈ more, chunk.head? = some XModemPacketTypeNack :=
      fun chunk hc => hall chunk (List.mem_cons_of_mem _ hc)
    simp only [SerialReadAll]
    rw [SerialRead_nack s rest hmode (Or.inr hact), onNack_retransmit s hact]
    simp only
    rw [ih { s with spSerialPort := s.spSerialPort.write s.baLastPacket } hmode hact hmore]
    simp [QSerialPort.write, List.replicate_succ]

/-- C6: a chunk starting with NACK received in SendData writes a frame equal
to `baLastPacket` and leaves every member of the window as it was (file
offset, packet counter, last packet, `bLastPacketSent`, action); any number
of such chunks in a row write that same frame once each and leave the window
as it was. -/
theorem C6_nack_retransmits_last_frame (s : MainWindow) (rest : List Nat)
    (chunks : List (List Nat))
    (hmode : s.nAppMode = ApplicationModeTypeFirmwareUpdate)
    (hact : s.nAction = ActionModeTypeXModemSendData)
    (hall : ∀ chunk ∈ chunks, chunk.head? = some XModemPacketTypeNack) :
    SerialRead s (XModemPacketTypeNack :: rest)
      = some { s with spSerialPort := { s.spSerialPort with
          written := s.spSerialPort.written ++ [s.baLastPacket] } }
    ∧ SerialReadAll s chunks
      = some { s with spSerialPort := { s.spSerialPort with
          written := s.spSerialPort.written ++ List.replicate chunks.length s.baLastPacket } } := by
  refine ⟨?_, nacks_retransmit s chunks hmode hact hall⟩
  rw [SerialRead_nack s rest hmode (Or.inr hact), onNack_retransmit s hact]
  rfl

/-- C6 at a window in SendData whose last packet is 02 01 FE 41, for one chunk
15 06 and for the three chunks 15, 15 06, 15. -/
theorem C6_nack_retransmits_last_frame_witness :
    SerialRead { transferEntered [0x41] with
        nAction := ActionModeTypeXModemSendData, baLastPacket := [0x02, 0x01, 0xfe, 0x41] }
        (XModemPacketTypeNack :: [0x06])
      = some { transferEntered [0x41] with
          nAction := ActionModeTypeXModemSendData, baLastPacket := [0x02, 0x01, 0xfe, 0x41]
          spSerialPort := { (transferEntered [0x41]).spSerialPort with
            written := [] ++ [[0x02, 0x01, 0xfe, 0x41]] } }
    ∧ SerialReadAll { transferEntered [0x41] with
        nAction := ActionModeTypeXModemSendData, baLastPacket := [0x02, 0x01, 0xfe, 0x41] }
        [[0x15], [0x15, 0x06], [0x15]]
      = some { transferEntered [0x41] with
          nAction := ActionModeTypeXModemSendData, baLastPacket := [0x02, 0x01, 0xfe, 0x41]
          spSerialPort := { (transferEntered [0x41]).spSerialPort with
            written := [] ++ List.replicate 3 [0x02, 0x01, 0xfe, 0x41] } } :=
  C6_nack_retransmits_last_frame
    { transferEntered [0x41] with
        nAction := ActionModeTypeXModemSendData, baLastPacket := [0x02, 0x01, 0xfe, 0x41] }
    [0x06] [[0x15], [0x15, 0x06], [0x15]] rfl rfl (by decide)

/-- C7: whatever the file offset and the packet counter were, a NACK received
in WaitForNack for a firmware file of at least 1024 bytes moves the action
to SendData, writes exactly the frame 02 01 FE, the first 1024 file bytes,
their sum modulo 256, keeps that frame as the last packet, and leaves the
file offset at 1024 and the packet counter at 2. -/
theorem C7_first_nack_sends_first_frame (s : MainWindow) (rest : List Nat)
    (hmode : s.nAppMode = ApplicationModeTypeFirmwareUpdate)
    (hact : s.nAction = ActionModeTypeXModemWaitForNack)
    (hopen : s.fpFirmwareFile.isOpen = true)
    (hsize : 1024 ≤ s.fpFirmwareFile.size) :
    ∃ t : MainWindow,
      SerialRead s (XModemPacketTypeNack :: rest) = some t
      ∧ t.nAction = ActionModeTypeXModemSendData
      ∧ t.spSerialPort.written = s.spSerialPort.written
          ++ [[0x02, 0x01, 0xfe] ++ s.fpFirmwareFile.content.take 1024
              ++ [(s.fpFirmwareFile.content.take 1024).sum % 256]]
      ∧ t.baLastPacket = [0x02, 0x01, 0xfe] ++ s.fpFirmwareFile.content.take 1024
              ++ [(s.fpFirmwareFile.content.take 1024).sum % 256]
      ∧ t.baLastPacket.length = 1028
      ∧ t.nCFilePos = 1024
      ∧ t.nCPacket = 2 := by
  have hl : 1024 ≤ s.fpFirmwareFile.content.length := hsize
  have hlen : (s.fpFirmwareFile.content.take 1024).length = 1024 := by
    simp; omega
  rw [SerialRead_nack s rest hmode (Or.inl hact),
    onNack_first s _ hact hopen rfl (by omega)]
  exact ⟨_, rfl, rfl, rfl, rfl, (frame_parts _ _ _ _ _ hlen).1, rfl, rfl⟩

/-- C7 at the one-block file with the stale file offset 5120 and packet counter 77. -/
theorem C7_first_nack_sends_first_frame_witness :
    ∃ t : MainWindow,
      SerialRead staleWindow (XModemPacketTypeNack :: []) = some t
      ∧ t.nAction = ActionModeTypeXModemSendData
      ∧ t.spSerialPort.written = staleWindow.spSerialPort.written
          ++ [[0x02, 0x01, 0xfe] ++ staleWindow.fpFirmwareFile.content.take 1024
              ++ [(staleWindow.fpFirmwareFile.content.take 1024).sum % 256]]
      ∧ t.baLastPacket = [0x02, 0x01, 0xfe] ++ staleWindow.fpFirmwareFile.content.take 1024
              ++ [(staleWindow.fpFirmwareFile.content.take 1024).sum % 256]
      ∧ t.baLastPacket.length = 1028
      ∧ t.nCFilePos = 1024
      ∧ t.nCPacket = 2 :=
  C7_first_nack_sends_first_frame staleWindow [] rfl rfl rfl (by
    show 1024 ≤ oneBlockFile.length
    unfold oneBlockFile
    rw [List.length_replicate])

/-! ## Runs of ACKs -/

theorem SerialReadAll_append (s : MainWindow) (xs ys : List (List Nat)) :
    SerialReadAll s (xs ++ ys) = (SerialReadAll s xs).bind (fun t => SerialReadAll t ys) := by
  induction xs generalizing s with
  | nil => simp [SerialReadAll]
  | cons x more ih =>
    simp only [List.cons_append, SerialReadAll]
    cases SerialRead s x with
    | none => simp
    | some s1 => simpa using ih s1

/-- While whole blocks of 1024 bytes remain in the file and the 32-bit offset has
not wrapped, `j` ACKs in a row write `j` unpadded data frames, block after
block, with consecutive sequence numbers, and leave the action and
`bLastPacketSent` as they were. -/
theorem acks_send_blocks (s : MainWindow) (j : Nat)
    (hmode : s.nAppMode = ApplicationModeTypeFirmwareUpdate)
    (hact : s.nAction = ActionModeTypeXModemWaitForNack
      ∨ s.nAction = ActionModeTypeXModemSendData)
    (hopen : s.fpFirmwareFile.isOpen = true)
    (hseq : s.nCPacket < 256)
    (hoff32 : s.nCFilePos < 4294967296)
    (hfile : s.nCFilePos + 1024 * j ≤ s.fpFirmwareFile.content.length)
    (h32 : s.nCFilePos + 1024 * j ≤ 4294967296) :
    ∃ t : MainWindow,
      SerialReadAll s (List.replicate j [XModemPacketTypeAck]) = some t
      ∧ t.nAppMode = s.nAppMode
      ∧ t.nAction = s.nAction
      ∧ t.fpFirmwareFile.content = s.fpFirmwareFile.content
      ∧ t.fpFirmwareFile.isOpen = true
      ∧ t.nCPacket = (s.nCPacket + j) % 256
      ∧ t.nCFilePos = (s.nCFilePos + 1024 * j) % 4294967296
      ∧ t.bLastPacketSent = s.bLastPacketSent
      ∧ t.spSerialPort.written = s.spSerialPort.written
          ++ (List.range j).map (fun i =>
              [0x02, (s.nCPacket + i) % 256, 0xff - (s.nCPacket + i) % 256]
                ++ (s.fpFirmwareFile.content.drop (s.nCFilePos + 1024 * i)).take 1024
                ++ [((s.fpFirmwareFile.content.drop (s.nCFilePos + 1024 * i)).take 1024).sum
                      % 256]) := by
  induction j with
  | zero =>
    exact ⟨s, by simp [SerialReadAll], rfl, rfl, rfl, hopen, by simp; omega, by simp; omega,
      rfl, by simp⟩
  | succ j ih =>
    obtain ⟨t, hrun, hm, ha, hc, ho, hp, hf, hb, hw⟩ := ih (by omega) (by omega)
    have hoff : t.nCFilePos = s.nCFilePos + 1024 * j := by
      rw [hf]; exact Nat.mod_eq_of_lt (by omega)
    have hread : (t.fpFirmwareFile.content.drop t.nCFilePos).take 1024
        = (s.fpFirmwareFile.content.drop (s.nCFilePos + 1024 * j)).take 1024 := by
      rw [hc, hoff]
    generalize hP : (s.fpFirmwareFile.content.drop (s.nCFilePos + 1024 * j)).take 1024 = P
      at hread
    have hlen : P.length = 1024 := by
      rw [← hP]; simp; omega
    have hne : P ≠ [] := by
      intro h; rw [h] at hlen; simp at hlen
    have hstep := onAck_data t P ho hread hne
    rw [List.replicate_succ', SerialReadAll_append, hrun]
    simp only [Option.some_bind, SerialReadAll]
    rw [SerialRead_ack t [] (hm.trans hmode) (by rw [ha]; exact hact), hstep]
    refine ⟨_, rfl, hm, ha, hc, ho, ?_, ?_, ?_, ?_⟩
    · show (t.nCPacket + 1) % 256 = _
      rw [hp]; omega
    · show (t.nCFilePos + 1024) % 4294967296 = _
      have hnext : s.nCFilePos + 1024 * j + 1024 = s.nCFilePos + 1024 * (j + 1) := by omega
      rw [hoff, hnext]
    · show (if P.length < 1024 then true else t.bLastPacketSent) = _
      rw [if_neg (by omega), hb]
    · show (t.spSerialPort.write _).written = _
      have hrep : List.replicate (1024 - P.length) 26 = [] := by
        rw [hlen]; rfl
      simp only [QSerialPort.write]
      rw [hw, List.range_succ, List.map_append, List.append_assoc]
      simp only [List.map_cons, List.map_nil, hrep, List.append_nil, hp, hP]

/-- The first NACK followed by `m` ACKs, for a file that holds `m + 1` whole
blocks below the 32-bit limit: `m + 1` unpadded data frames are written, the
`i`-th with sequence number `i + 1` and the `i`-th block of the file. -/
theorem handshake_then_acks (s : MainWindow) (m : Nat)
    (hmode : s.nAppMode = ApplicationModeTypeFirmwareUpdate)
    (hact : s.nAction = ActionModeTypeXModemWaitForNack)
    (hopen : s.fpFirmwareFile.isOpen = true)
    (hfile : 1024 * (m + 1) ≤ s.fpFirmwareFile.content.length)
    (h32 : 1024 * (m + 1) ≤ 4294967296) :
    ∃ t : MainWindow,
      SerialReadAll s ([XModemPacketTypeNack] :: List.replicate m [XModemPacketTypeAck]) = some t
      ∧ t.nAppMode = ApplicationModeTypeFirmwareUpdate
      ∧ t.nAction = ActionModeTypeXModemSendData
      ∧ t.fpFirmwareFile.content = s.fpFirmwareFile.content
      ∧ t.fpFirmwareFile.isOpen = true
      ∧ t.nCPacket = (m + 2) % 256
      ∧ t.nCFilePos = (1024 * (m + 1)) % 4294967296
      ∧ t.bLastPacketSent = s.bLastPacketSent
      ∧ t.spSerialPort.written = s.spSerialPort.written
          ++ (List.range (m + 1)).map (fun i =>
              [0x02, (i + 1) % 256, 0xff - (i + 1) % 256]
                ++ (s.fpFirmwareFile.content.drop (1024 * i)).take 1024
                ++ [((s.fpFirmwareFile.content.drop (1024 * i)).take 1024).sum % 256]) := by
  have hl : 1023 ≤ (s.fpFirmwareFile.content.take 1024).length := by
    simp; omega
  have hfirst := onNack_first s _ hact hopen rfl hl
  generalize hs1 : ({ s with
      nAction := ActionModeTypeXModemSendData
      baLastPacket := [0x02, 0x01, 0xfe] ++ s.fpFirmwareFile.content.take 1024
        ++ [(s.fpFirmwareFile.content.take 1024).sum % 256]
      fpFirmwareFile := { s.fpFirmwareFile with
        cursor := (s.fpFirmwareFile.content.take 1024).length }
      spSerialPort := s.spSerialPort.write ([0x02, 0x01, 0xfe]
        ++ s.fpFirmwareFile.content.take 1024
        ++ [(s.fpFirmwareFile.content.take 1024).sum % 256])
      progressBar := 0
      nCPacket := 2
      nCFilePos := 1024 } : MainWindow) = s1 at hfirst
  have h1mode : s1.nAppMode = ApplicationModeTypeFirmwareUpdate := by rw [← hs1]; exact hmode
  have h1act : s1.nAction = ActionModeTypeXModemSendData := by rw [← hs1]
  have h1open : s1.fpFirmwareFile.isOpen = true := by rw [← hs1]; exact hopen
  have h1content : s1.fpFirmwareFile.content = s.fpFirmwareFile.content := by rw [← hs1]
  have h1seq : s1.nCPacket = 2 := by rw [← hs1]
  have h1off : s1.nCFilePos = 1024 := by rw [← hs1]
  have h1flag : s1.bLastPacketSent = s.bLastPacketSent := by rw [← hs1]
  have h1written : s1.spSerialPort.written = s.spSerialPort.written
      ++ [[0x02, 0x01, 0xfe] ++ s.fpFirmwareFile.content.take 1024
        ++ [(s.fpFirmwareFile.content.take 1024).sum % 256]] := by
    rw [← hs1]; rfl
  obtain ⟨t, hrun, hm, ha, hc, ho, hp, hf, hb, hw⟩ :=
    acks_send_blocks s1 m h1mode (Or.inr h1act) h1open (by omega) (by omega)
      (by rw [h1off, h1content]; omega) (by rw [h1off]; omega)
  refine ⟨t, ?_, hm.trans h1mode, ha.trans h1act, hc.trans h1content, ho, ?_, ?_,
    hb.trans h1flag, ?_⟩
  · simp only [SerialReadAll]
    rw [SerialRead_nack s [] hmode (Or.inl hact), hfirst]
    exact hrun
  · rw [hp, h1seq]; congr 1; omega
  · rw [hf, h1off]; congr 1; omega
  · rw [hw, h1written, h1seq, h1off, h1content, List.range_succ_eq_map, List.map_cons,
      List.map_map, List.append_assoc]
    congr 1
    simp only [List.singleton_append]
    congr 1
    simp
    intro i _
    have e1 : 2 + i = i + 1 + 1 := by omega
    have e2 : 1024 + 1024 * i = 1024 * (i + 1) := by omega
    rw [e1, e2]
    exact ⟨rfl, rfl, rfl⟩

theorem oneBlockFile_length : oneBlockFile.length = 1024 := by
  unfold oneBlockFile; rw [List.length_replicate]

theorem twoBlockFile_length : twoBlockFile.length = 2048 := by
  unfold twoBlockFile; rw [List.length_replicate]

theorem shortFile_length : shortFile.length = 1023 := by
  unfold shortFile; rw [List.length_replicate]

theorem hugeFile_length : hugeFile.length = 4294967296 := by
  unfold hugeFile; rw [List.length_replicate]

/-- C4 (the code at the failing inputs): the first NACK for a file of 1023
bytes writes a frame of 1027 bytes, the header, the 1023 file bytes and the
sum, with no 0x1A filler; for a file of three bytes the sum over 1024 bytes
leaves the six-byte buffer and the handler has no defined result. -/
theorem C4_first_nack_does_not_pad :
    (SerialRead (transferEntered shortFile) [XModemPacketTypeNack]).map
        (fun t => t.spSerialPort.written)
      = some [[0x02, 0x01, 0xfe] ++ shortFile ++ [shortFile.sum % 256]]
    ∧ ([0x02, 0x01, 0xfe] ++ shortFile ++ [shortFile.sum % 256]).length = 1027
    ∧ SerialRead (transferEntered [0x41, 0x42, 0x43]) [XModemPacketTypeNack] = none := by
  have htake : (transferEntered shortFile).fpFirmwareFile.content.take 1024 = shortFile :=
    List.take_of_length_le (by rw [show (transferEntered shortFile).fpFirmwareFile.content
      = shortFile from rfl, shortFile_length]; decide)
  refine ⟨?_, ?_, ?_⟩
  · rw [SerialRead_nack _ [] rfl (Or.inl rfl),
      onNack_first (transferEntered shortFile) shortFile rfl rfl htake
        (by rw [shortFile_length])]
    rfl
  · simp [shortFile_length]
  · rw [SerialRead_nack _ [] rfl (Or.inl rfl)]
    exact onNack_first_overrun _ rfl rfl (by decide)

/-- C5 (as stated, refuted): for the firmware file of 4194304 blocks of 1024
bytes, the ACK that follows the 4194304-th data frame does not write the end
of frame byte: the 32-bit file offset has wrapped to 0, a further data frame
of 1028 bytes is written and the action is still SendData. -/
theorem C5_counterexample_offset_wraps :
    hugeFile.length = 4194304 * 1024
    ∧ (SerialReadAll (transferEntered hugeFile)
          ([XModemPacketTypeNack] :: List.replicate 4194304 [XModemPacketTypeAck])).map
        (fun t => (t.nAction, t.spSerialPort.written.length, t.baLastPacket.length,
          t.baLastPacket.take 3, t.nCFilePos))
      = some (ActionModeTypeXModemSendData, 4194305, 1028, [0x02, 0x01, 0xfe], 1024) := by
  refine ⟨hugeFile_length, ?_⟩
  have hlen : (transferEntered hugeFile).fpFirmwareFile.content.length = 4294967296 :=
    hugeFile_length
  obtain ⟨t, hrun, hm, ha, hc, ho, hp, hf, -, hw⟩ :=
    handshake_then_acks (transferEntered hugeFile) 4194303 rfl rfl rfl
      (by rw [hlen]) (by decide)
  have hoff : t.nCFilePos = 0 := by rw [hf]
  have hseq : t.nCPacket = 1 := by rw [hp]
  generalize hP : (t.fpFirmwareFile.content.drop t.nCFilePos).take 1024 = P
  have hPlen : P.length = 1024 := by
    rw [← hP, hc, hoff, List.length_take, List.length_drop, hlen]
    decide
  have hne : P ≠ [] := by
    intro h; rw [h] at hPlen; simp at hPlen
  have hrep : List.replicate (1024 - P.length) 26 = [] := by
    rw [hPlen]; rfl
  have hwlen : t.spSerialPort.written.length = 4194304 := by
    rw [hw, List.length_append, List.length_map, List.length_range]
    rfl
  rw [show List.replicate 4194304 [XModemPacketTypeAck]
      = List.replicate 4194303 [XModemPacketTypeAck] ++ [[XModemPacketTypeAck]] from
      List.replicate_succ' 4194303 _,
    ← List.cons_append, SerialReadAll_append, hrun]
  simp only [Option.some_bind, SerialReadAll]
  rw [SerialRead_ack t [] hm (Or.inr ha), onAck_data t P ho hP hne]
  simp only [Option.map_some', QSerialPort.write, hrep, List.append_nil, ha, hoff, hseq,
    List.length_append, hwlen, List.length_singleton, List.length_cons, hPlen]
  rfl

/-- C5 (amended): for a firmware file of `k` blocks of 1024 bytes, `k >= 1`,
whose size is below 4294967296, the first NACK followed by `k` ACKs writes
exactly `k` data frames, the `i`-th with sequence number `i + 1` and the
1024 unpadded file bytes of block `i`, then the one-byte end of frame 0x04,
and the action is then SendEndOfFrame. -/
theorem C5_blocks_then_end_of_frame (s : MainWindow) (k : Nat)
    (hmode : s.nAppMode = ApplicationModeTypeFirmwareUpdate)
    (hact : s.nAction = ActionModeTypeXModemWaitForNack)
    (hopen : s.fpFirmwareFile.isOpen = true)
    (hk : 1 ≤ k)
    (hsize : s.fpFirmwareFile.size = k * 1024)
    (h32 : k * 1024 < 4294967296) :
    ∃ t : MainWindow,
      SerialReadAll s ([XModemPacketTypeNack] :: List.replicate k [XModemPacketTypeAck]) = some t
      ∧ t.nAction = ActionModeTypeXModemSendEndOfFrame
      ∧ t.spSerialPort.written = s.spSerialPort.written
          ++ (List.range k).map (fun i =>
              [0x02, (i + 1) % 256, 0xff - (i + 1) % 256]
                ++ (s.fpFirmwareFile.content.drop (1024 * i)).take 1024
                ++ [((s.fpFirmwareFile.content.drop (1024 * i)).take 1024).sum % 256])
          ++ [[0x04]]
      ∧ (∀ i, i < k → ((s.fpFirmwareFile.content.drop (1024 * i)).take 1024).length = 1024)
      ∧ t.bLastPacketSent = s.bLastPacketSent := by
  obtain ⟨m, rfl⟩ : ∃ m, k = m + 1 := ⟨k - 1, by omega⟩
  have hlen : s.fpFirmwareFile.content.length = (m + 1) * 1024 := hsize
  obtain ⟨t, hrun, hm, ha, hc, ho, hp, hf, hb, hw⟩ :=
    handshake_then_acks s m hmode hact hopen (by omega) (by omega)
  have hoff : t.nCFilePos = 1024 * (m + 1) := by
    rw [hf]; exact Nat.mod_eq_of_lt (by omega)
  have heof := onAck_eof t ho (by rw [hc, hoff, hlen]; omega)
  rw [List.replicate_succ', ← List.cons_append, SerialReadAll_append, hrun]
  simp only [Option.some_bind, SerialReadAll]
  rw [SerialRead_ack t [] hm (Or.inr ha), heof]
  refine ⟨_, rfl, rfl, ?_, ?_, hb⟩
  · show (t.spSerialPort.write [0x04]).written = _
    simp only [QSerialPort.write, hw]
  · intro i hi
    rw [List.length_take, List.length_drop, hlen]
    omega

/-- C5 (amended) at the two-block file: NACK, ACK, ACK. -/
theorem C5_blocks_then_end_of_frame_witness :
    ∃ t : MainWindow,
      SerialReadAll (transferEntered twoBlockFile)
          ([XModemPacketTypeNack] :: List.replicate 2 [XModemPacketTypeAck]) = some t
      ∧ t.nAction = ActionModeTypeXModemSendEndOfFrame
      ∧ t.spSerialPort.written = (transferEntered twoBlockFile).spSerialPort.written
          ++ (List.range 2).map (fun i =>
              [0x02, (i + 1) % 256, 0xff - (i + 1) % 256]
                ++ ((transferEntered twoBlockFile).fpFirmwareFile.content.drop (1024 * i)).take
                    1024
                ++ [(((transferEntered twoBlockFile).fpFirmwareFile.content.drop
                      (1024 * i)).take 1024).sum % 256])
          ++ [[0x04]]
      ∧ (∀ i, i < 2 →
          (((transferEntered twoBlockFile).fpFirmwareFile.content.drop (1024 * i)).take
            1024).length = 1024)
      ∧ t.bLastPacketSent = (transferEntered twoBlockFile).bLastPacketSent :=
  C5_blocks_then_end_of_frame (transferEntered twoBlockFile) 2 rfl rfl rfl (by decide)
    twoBlockFile_length (by decide)

/-- C8 (as stated, refuted): for the 2048-byte file, an ACK received in
WaitForNack before any NACK writes a frame (the write log goes from empty to
one frame of 1028 bytes) and moves the file offset from 0 to 1024 and the
packet counter from 1 to 2. -/
theorem C8_counterexample_ack_before_nack :
    (transferEntered twoBlockFile).nAction = ActionModeTypeXModemWaitForNack
    ∧ (transferEntered twoBlockFile).spSerialPort.written = []
    ∧ (transferEntered twoBlockFile).nCFilePos = 0
    ∧ (transferEntered twoBlockFile).nCPacket = 1
    ∧ (SerialRead (transferEntered twoBlockFile) [XModemPacketTypeAck]).map
        (fun t => (t.spSerialPort.written.map List.length, t.nCFilePos, t.nCPacket))
      = some ([1028], 1024, 2) := by
  refine ⟨rfl, rfl, rfl, rfl, ?_⟩
  have hlen : (transferEntered twoBlockFile).fpFirmwareFile.content.length = 2048 :=
    twoBlockFile_length
  generalize hP : ((transferEntered twoBlockFile).fpFirmwareFile.content.drop
    (transferEntered twoBlockFile).nCFilePos).take 1024 = P
  have hPlen : P.length = 1024 := by
    rw [← hP, List.length_take, List.length_drop, hlen]
    decide
  have hne : P ≠ [] := by
    intro h; rw [h] at hPlen; simp at hPlen
  rw [SerialRead_ack _ [] rfl (Or.inl rfl), onAck_data _ P rfl hP hne]
  simp only [Option.map_some', QSerialPort.write]
  have hframe := (frame_parts 0x02 (transferEntered twoBlockFile).nCPacket
    (0xff - (transferEntered twoBlockFile).nCPacket)
    ((P ++ List.replicate (1024 - P.length) 26).sum % 256)
    (P ++ List.replicate (1024 - P.length) 26) (padded_length P (by omega))).1
  simp only [List.map_append, List.map_cons, List.map_nil, hframe]
  rfl

/-- C8 (amended): an ACK received in WaitForNack before any NACK is handled
like an ACK in SendData: when the file has a byte at the file offset, one
data frame built from the current packet counter and file offset is written,
the offset advances by 1024 and the counter by 1, and the action stays
WaitForNack. The first NACK after it starts again: for a file of at least
1024 bytes it writes the frame with sequence number 1 and the first 1024
file bytes, and leaves offset 1024, counter 2 and action SendData. -/
theorem C8_ack_before_nack_sends_frame (s : MainWindow) (rest rest2 : List Nat)
    (hmode : s.nAppMode = ApplicationModeTypeFirmwareUpdate)
    (hact : s.nAction = ActionModeTypeXModemWaitForNack)
    (hopen : s.fpFirmwareFile.isOpen = true)
    (hpos : s.nCFilePos < s.fpFirmwareFile.size)
    (hsize : 1024 ≤ s.fpFirmwareFile.size) :
    ∃ t u : MainWindow,
      SerialRead s (XModemPacketTypeAck :: rest) = some t
      ∧ t.spSerialPort.written = s.spSerialPort.written
          ++ [[0x02, s.nCPacket, 0xff - s.nCPacket]
              ++ ((s.fpFirmwareFile.content.drop s.nCFilePos).take 1024
                ++ List.replicate
                  (1024 - ((s.fpFirmwareFile.content.drop s.nCFilePos).take 1024).length) 0x1A)
              ++ [((s.fpFirmwareFile.content.drop s.nCFilePos).take 1024
                ++ List.replicate
                  (1024 - ((s.fpFirmwareFile.content.drop s.nCFilePos).take 1024).length)
                  0x1A).sum % 256]]
      ∧ t.nCFilePos = (s.nCFilePos + 1024) % 4294967296
      ∧ t.nCPacket = (s.nCPacket + 1) % 256
      ∧ t.nAction = ActionModeTypeXModemWaitForNack
      ∧ SerialRead t (XModemPacketTypeNack :: rest2) = some u
      ∧ u.spSerialPort.written = t.spSerialPort.written
          ++ [[0x02, 0x01, 0xfe] ++ s.fpFirmwareFile.content.take 1024
              ++ [(s.fpFirmwareFile.content.take 1024).sum % 256]]
      ∧ u.nCFilePos = 1024
      ∧ u.nCPacket = 2
      ∧ u.nAction = ActionModeTypeXModemSendData := by
  have hl : 1024 ≤ s.fpFirmwareFile.content.length := hsize
  have hp : s.nCFilePos < s.fpFirmwareFile.content.length := hpos
  have hne : (s.fpFirmwareFile.content.drop s.nCFilePos).take 1024 ≠ [] := by
    intro h
    have := congrArg List.length h
    simp at this
    omega
  obtain ⟨t, hstep, htmode, htact, htcontent, htopen, htseq, htoff, -, htlast, htw⟩ :=
    onAck_data_fields s _ hopen rfl hne
  have htl : 1023 ≤ (t.fpFirmwareFile.content.take 1024).length := by
    rw [htcontent]; simp; omega
  obtain ⟨u, hnack, -, huact, -, -, huseq, huoff, -, hulast, huw⟩ :=
    onNack_first_fields t _ (htact.trans hact) htopen rfl htl
  refine ⟨t, u, ?_, ?_, htoff, htseq, htact.trans hact, ?_, ?_, huoff, huseq, huact⟩
  · rw [SerialRead_ack s rest hmode (Or.inl hact), hstep]
  · rw [htw, htlast]
  · rw [SerialRead_nack t rest2 (htmode.trans hmode) (Or.inl (htact.trans hact)), hnack]
  · rw [huw, hulast, htcontent]

/-- C8 (amended) at the two-block file: an ACK, then the first NACK. -/
theorem C8_ack_before_nack_sends_frame_witness :
    ∃ t u : MainWindow,
      SerialRead (transferEntered twoBlockFile) (XModemPacketTypeAck :: []) = some t
      ∧ t.spSerialPort.written = (transferEntered twoBlockFile).spSerialPort.written
          ++ [[0x02, (transferEntered twoBlockFile).nCPacket,
                0xff - (transferEntered twoBlockFile).nCPacket]
              ++ (((transferEntered twoBlockFile).fpFirmwareFile.content.drop
                    (transferEntered twoBlockFile).nCFilePos).take 1024
                ++ List.replicate
                  (1024 - (((transferEntered twoBlockFile).fpFirmwareFile.content.drop
                    (transferEntered twoBlockFile).nCFilePos).take 1024).length) 0x1A)
              ++ [(((transferEntered twoBlockFile).fpFirmwareFile.content.drop
                    (transferEntered twoBlockFile).nCFilePos).take 1024
                ++ List.replicate
                  (1024 - (((transferEntered twoBlockFile).fpFirmwareFile.content.drop
                    (transferEntered twoBlockFile).nCFilePos).take 1024).length)
                  0x1A).sum % 256]]
      ∧ t.nCFilePos = ((transferEntered twoBlockFile).nCFilePos + 1024) % 4294967296
      ∧ t.nCPacket = ((transferEntered twoBlockFile).nCPacket + 1) % 256
      ∧ t.nAction = ActionModeTypeXModemWaitForNack
      ∧ SerialRead t (XModemPacketTypeNack :: []) = some u
      ∧ u.spSerialPort.written = t.spSerialPort.written
          ++ [[0x02, 0x01, 0xfe] ++ (transferEntered twoBlockFile).fpFirmwareFile.content.take 1024
              ++ [((transferEntered twoBlockFile).fpFirmwareFile.content.take 1024).sum % 256]]
      ∧ u.nCFilePos = 1024
      ∧ u.nCPacket = 2
      ∧ u.nAction = ActionModeTypeXModemSendData :=
  C8_ack_before_nack_sends_frame (transferEntered twoBlockFile) [] [] rfl rfl rfl
    (by
      show 0 < twoBlockFile.length
      rw [twoBlockFile_length]
      decide)
    (by
      show 1024 ≤ twoBlockFile.length
      rw [twoBlockFile_length]
      decide)

/-- C9 (as stated, refuted): for the three-byte file in SendData, the ACK whose
read is short sets `bLastPacketSent` and writes one frame only, the padded
data frame of 1028 bytes and no end of frame byte; the action is still
SendData, the file offset has moved from 0 to 1024 and the packet counter
from 1 to 2. -/
theorem C9_counterexample_no_eot_with_last_frame :
    sendingThreeBytes.nCFilePos = 0
    ∧ sendingThreeBytes.nCPacket = 1
    ∧ sendingThreeBytes.spSerialPort.written = []
    ∧ (SerialRead sendingThreeBytes [XModemPacketTypeAck]).map
        (fun t => (t.bLastPacketSent, t.nAction, t.spSerialPort.written.map List.length,
          t.nCFilePos, t.nCPacket))
      = some (true, ActionModeTypeXModemSendData, [1028], 1024, 2) := by
  refine ⟨rfl, rfl, rfl, ?_⟩
  rw [SerialRead_ack _ [] rfl (Or.inr rfl),
    onAck_data sendingThreeBytes [0x41, 0x42, 0x43] rfl rfl (by decide)]
  simp only [Option.map_some', QSerialPort.write]
  have hframe := (frame_parts 0x02 sendingThreeBytes.nCPacket
    (0xff - sendingThreeBytes.nCPacket)
    (([0x41, 0x42, 0x43] ++ List.replicate (1024 - [0x41, 0x42, 0x43].length) 26).sum % 256)
    ([0x41, 0x42, 0x43] ++ List.replicate (1024 - [0x41, 0x42, 0x43].length) 26)
    (padded_length [0x41, 0x42, 0x43] (by decide))).1
  simp only [List.map_append, List.map_cons, List.map_nil, hframe]
  rfl

/-- C9 (amended): when an ACK makes `bLastPacketSent` true (the read at the
file offset returned `n` bytes, `1 <= n < 1024`), that handler writes the
padded data frame and nothing else, keeps the action, and advances the file
offset by 1024 and the packet counter by 1 as for any data frame. With the
offset below the 32-bit limit, the following ACK reads no byte, moves the
action to SendEndOfFrame and writes the one-byte end of frame 0x04, the
offset and the counter staying. -/
theorem C9_eot_on_next_ack (s : MainWindow) (rest rest2 payload : List Nat)
    (hmode : s.nAppMode = ApplicationModeTypeFirmwareUpdate)
    (hact : s.nAction = ActionModeTypeXModemWaitForNack
      ∨ s.nAction = ActionModeTypeXModemSendData)
    (hopen : s.fpFirmwareFile.isOpen = true)
    (hread : ((s.fpFirmwareFile.seek s.nCFilePos).read nXModemDataSize).1 = payload)
    (hn : 1 ≤ payload.length)
    (hshort : payload.length < 1024)
    (h32 : s.nCFilePos + 1024 < 4294967296) :
    ∃ t u : MainWindow,
      SerialRead s (XModemPacketTypeAck :: rest) = some t
      ∧ t.bLastPacketSent = true
      ∧ t.spSerialPort.written = s.spSerialPort.written
          ++ [[0x02, s.nCPacket, 0xff - s.nCPacket] ++ payload
              ++ List.replicate (1024 - payload.length) 0x1A
              ++ [(payload ++ List.replicate (1024 - payload.length) 0x1A).sum % 256]]
      ∧ t.nAction = s.nAction
      ∧ t.nCFilePos = s.nCFilePos + 1024
      ∧ t.nCPacket = (s.nCPacket + 1) % 256
      ∧ SerialRead t (XModemPacketTypeAck :: rest2) = some u
      ∧ u.nAction = ActionModeTypeXModemSendEndOfFrame
      ∧ u.spSerialPort.written = t.spSerialPort.written ++ [[0x04]]
      ∧ u.nCFilePos = t.nCFilePos
      ∧ u.nCPacket = t.nCPacket := by
  have hread2 : (s.fpFirmwareFile.content.drop s.nCFilePos).take 1024 = payload := by
    simpa [QFile.seek, QFile.read, hopen, nXModemDataSize] using hread
  have hne : payload ≠ [] := by
    intro h
    rw [h] at hn
    simp at hn
  have hend : s.fpFirmwareFile.content.length < s.nCFilePos + 1024 := by
    have := congrArg List.length hread2
    simp at this
    omega
  obtain ⟨t, hstep, htmode, htact, htcontent, htopen, htseq, htoff, htflag, htlast, htw⟩ :=
    onAck_data_fields s payload hopen hread2 hne
  have htoff2 : t.nCFilePos = s.nCFilePos + 1024 := by
    rw [htoff]; exact Nat.mod_eq_of_lt h32
  obtain ⟨u, heof, -, huact, huseq, huoff, -, -, huw⟩ :=
    onAck_eof_fields t htopen (by rw [htcontent, htoff2]; omega)
  refine ⟨t, u, ?_, ?_, ?_, htact, htoff2, htseq, ?_, huact, huw, huoff, huseq⟩
  · rw [SerialRead_ack s rest hmode hact, hstep]
  · rw [htflag, if_pos hshort]
  · rw [htw, htlast]
    simp
  · rw [SerialRead_ack t rest2 (htmode.trans hmode) (by rw [htact]; exact hact), heof]

/-- C9 (amended) at the three-byte file in SendData: two ACKs. -/
theorem C9_eot_on_next_ack_witness :
    ∃ t u : MainWindow,
      SerialRead sendingThreeBytes (XModemPacketTypeAck :: []) = some t
      ∧ t.bLastPacketSent = true
      ∧ t.spSerialPort.written = sendingThreeBytes.spSerialPort.written
          ++ [[0x02, sendingThreeBytes.nCPacket, 0xff - sendingThreeBytes.nCPacket]
              ++ [0x41, 0x42, 0x43]
              ++ List.replicate (1024 - [0x41, 0x42, 0x43].length) 0x1A
              ++ [([0x41, 0x42, 0x43]
                    ++ List.replicate (1024 - [0x41, 0x42, 0x43].length) 0x1A).sum % 256]]
      ∧ t.nAction = sendingThreeBytes.nAction
      ∧ t.nCFilePos = sendingThreeBytes.nCFilePos + 1024
      ∧ t.nCPacket = (sendingThreeBytes.nCPacket + 1) % 256
      ∧ SerialRead t (XModemPacketTypeAck :: []) = some u
      ∧ u.nAction = ActionModeTypeXModemSendEndOfFrame
      ∧ u.spSerialPort.written = t.spSerialPort.written ++ [[0x04]]
      ∧ u.nCFilePos = t.nCFilePos
      ∧ u.nCPacket = t.nCPacket :=
  C9_eot_on_next_ack sendingThreeBytes [] [] [0x41, 0x42, 0x43] rfl (Or.inr rfl) rfl rfl
    (by decide) (by decide) (by decide)

/-- C10 (as stated, refuted): for the 2048-byte file, after the first NACK and
one ACK both data frames have been written, the second one (sequence number
2, file offset 1024) ending exactly at the end of the file, and
`bLastPacketSent` is false. -/
theorem C10_counterexample_flag_not_set :
    twoBlockFile.length = 2 * 1024
    ∧ (SerialReadAll (transferEntered twoBlockFile)
          [[XModemPacketTypeNack], [XModemPacketTypeAck]]).map
        (fun t => (t.bLastPacketSent, t.spSerialPort.written.length, t.nCFilePos))
      = some (false, 2, 2048) := by
  refine ⟨twoBlockFile_length, ?_⟩
  obtain ⟨t, hrun, -, -, -, -, -, hf, hb, hw⟩ :=
    handshake_then_acks (transferEntered twoBlockFile) 1 rfl rfl rfl
      (by
        show 1024 * (1 + 1) ≤ twoBlockFile.length
        rw [twoBlockFile_length])
      (by decide)
  have hrun2 : SerialReadAll (transferEntered twoBlockFile)
      [[XModemPacketTypeNack], [XModemPacketTypeAck]] = some t := hrun
  rw [hrun2]
  simp only [Option.map_some', hb, hf, hw, List.length_append, List.length_map,
    List.length_range]
  rfl

/-! ## The mode detector -/

theorem SerialRead_modeCheck (s : MainWindow) (baRecData : List Nat)
    (hmode : s.nAppMode = ApplicationModeTypeFirmwareUpdateModeCheck
      ∨ s.nAppMode = ApplicationModeTypeQuery) :
    SerialRead s baRecData = SerialRead.modeCheck s baRecData := by
  rcases hmode with h | h <;> simp [SerialRead, h]

/-- The test of rule 1 holds exactly for a buffer that begins with `f`, 0x04. -/
theorem rule1_iff (buf : List Nat) :
    (1 < buf.length
      ∧ QByteArray.at buf BOOTLOADER_ERROR_CHAR_INDEX = some BOOTLOADER_ERROR_CHAR
      ∧ QByteArray.at buf BOOTLOADER_ERROR_RESPONSE_INDEX = some BOOTLOADER_ERROR_UNRECOGNISED)
    ↔ ∃ tail, buf = 0x66 :: 0x04 :: tail := by
  constructor
  · rintro ⟨-, h0, h1⟩
    match buf, h0, h1 with
    | a :: b :: tail, h0, h1 =>
      simp [QByteArray.at, BOOTLOADER_ERROR_CHAR_INDEX, BOOTLOADER_ERROR_RESPONSE_INDEX,
        BOOTLOADER_ERROR_CHAR, BOOTLOADER_ERROR_UNRECOGNISED] at h0 h1
      exact ⟨tail, by rw [h0, h1]⟩
    | [a], h0, h1 =>
      simp [QByteArray.at, BOOTLOADER_ERROR_RESPONSE_INDEX] at h1
    | [], h0, h1 =>
      simp [QByteArray.at] at h0
  · rintro ⟨tail, rfl⟩
    simp [QByteArray.at, BOOTLOADER_ERROR_CHAR_INDEX, BOOTLOADER_ERROR_RESPONSE_INDEX,
      BOOTLOADER_ERROR_CHAR, BOOTLOADER_ERROR_UNRECOGNISED]

/-- A buffer begins with `f`, 0x04 exactly when its first two bytes are these. -/
theorem take_two_iff (buf : List Nat) :
    buf.take 2 = [0x66, 0x04] ↔ ∃ tail, buf = 0x66 :: 0x04 :: tail := by
  constructor
  · intro h
    match buf, h with
    | a :: b :: tail, h =>
      simp at h
      exact ⟨tail, by rw [h.1, h.2]⟩
    | [a], h => simp at h
    | [], h => simp at h
  · rintro ⟨tail, rfl⟩
    simp

/-- Rule 1 of the mode detector. -/
theorem modeCheck_bootloader (s : MainWindow) (baRecData tail : List Nat)
    (hact : s.nAction = ActionModeTypeModem)
    (hbuf : s.baRecBuf ++ baRecData = 0x66 :: 0x04 :: tail) :
    SerialRead.modeCheck s baRecData = some { s with
      baRecBuf := s.baRecBuf ++ baRecData
      nAction := ActionModeTypeBootloaderUnbridged
      spSerialPort := s.spSerialPort.write baBootloaderUnlockCommand } := by
  have h1 := (rule1_iff (s.baRecBuf ++ baRecData)).mpr ⟨tail, hbuf⟩
  simp only [SerialRead.modeCheck, hact, if_true, h1, and_self]

/-- C13: in action Modem (mode check or query), whenever the accumulated buffer
begins with `f` (0x66) and 0x04, whatever follows, the action becomes
BootloaderUnbridged, exactly one byte array is written, the unlock command
70 0F 51 2A 51, and the receive buffer keeps every accumulated byte. -/
theorem C13_bootloader_prefix_wins (s : MainWindow) (baRecData tail : List Nat)
    (hmode : s.nAppMode = ApplicationModeTypeFirmwareUpdateModeCheck
      ∨ s.nAppMode = ApplicationModeTypeQuery)
    (hact : s.nAction = ActionModeTypeModem)
    (hbuf : s.baRecBuf ++ baRecData
      = BOOTLOADER_ERROR_CHAR :: BOOTLOADER_ERROR_UNRECOGNISED :: tail) :
    SerialRead s baRecData = some { s with
      baRecBuf := BOOTLOADER_ERROR_CHAR :: BOOTLOADER_ERROR_UNRECOGNISED :: tail
      nAction := ActionModeTypeBootloaderUnbridged
      spSerialPort := { s.spSerialPort with
        written := s.spSerialPort.written ++ [[0x70, 0x0f, 0x51, 0x2a, 0x51]] } } := by
  rw [SerialRead_modeCheck s baRecData hmode, modeCheck_bootloader s baRecData tail hact hbuf,
    hbuf]
  rfl

/-- C13 at a query window that receives `f`, 0x04 and then a modem model, an
error and a not-found marker. -/
theorem C13_bootloader_prefix_wins_witness :
    SerialRead (portOpened ApplicationModeTypeQuery [] none)
        (0x66 :: 0x04 :: bytesOf "HL7800.1234567\r\nERROR\r\nnot found")
      = some { portOpened ApplicationModeTypeQuery [] none with
          baRecBuf := BOOTLOADER_ERROR_CHAR :: BOOTLOADER_ERROR_UNRECOGNISED
            :: bytesOf "HL7800.1234567\r\nERROR\r\nnot found"
          nAction := ActionModeTypeBootloaderUnbridged
          spSerialPort := { (portOpened ApplicationModeTypeQuery [] none).spSerialPort with
            written := (portOpened ApplicationModeTypeQuery [] none).spSerialPort.written
              ++ [[0x70, 0x0f, 0x51, 0x2a, 0x51]] } } :=
  C13_bootloader_prefix_wins (portOpened ApplicationModeTypeQuery [] none)
    (0x66 :: 0x04 :: bytesOf "HL7800.1234567\r\nERROR\r\nnot found")
    (bytesOf "HL7800.1234567\r\nERROR\r\nnot found") (Or.inr rfl) rfl rfl

/-- C15: in SendEndOfFrame (firmware update mode) every received chunk, whatever
its bytes, moves the action to Finished, resets `nBytesWritten` to 0, closes
the firmware file and writes exactly the 11 bytes `AT+WDSR=4` CR LF, which
become the last packet; nothing else is written. -/
theorem C15_end_of_frame_reply_accepts (s : MainWindow) (baRecData : List Nat)
    (hmode : s.nAppMode = ApplicationModeTypeFirmwareUpdate)
    (hact : s.nAction = ActionModeTypeXModemSendEndOfFrame) :
    SerialRead s baRecData = some { s with
        nAction := ActionModeTypeXModemFinished
        nBytesWritten := 0
        fpFirmwareFile := s.fpFirmwareFile.close
        baLastPacket := bytesOf "AT+WDSR=4\r\n"
        spSerialPort := { s.spSerialPort with
          written := s.spSerialPort.written ++ [bytesOf "AT+WDSR=4\r\n"] } }
    ∧ bytesOf "AT+WDSR=4\r\n"
        = [0x41, 0x54, 0x2b, 0x57, 0x44, 0x53, 0x52, 0x3d, 0x34, 0x0d, 0x0a]
    ∧ (bytesOf "AT+WDSR=4\r\n").length = 11 := by
  refine ⟨?_, by decide, by decide⟩
  simp [SerialRead, SerialRead.firmwareUpdate, hmode, hact, QSerialPort.write]
  decide

/-- C15 at a window in SendEndOfFrame that receives a chunk starting with NACK. -/
theorem C15_end_of_frame_reply_accepts_witness :
    SerialRead
        { transferEntered [0x41] with nAction := ActionModeTypeXModemSendEndOfFrame }
        [0x15, 0x06]
      = some { transferEntered [0x41] with
        nAction := ActionModeTypeXModemFinished
        nBytesWritten := 0
        fpFirmwareFile := (transferEntered [0x41]).fpFirmwareFile.close
        baLastPacket := bytesOf "AT+WDSR=4\r\n"
        spSerialPort := { (transferEntered [0x41]).spSerialPort with
          written := (transferEntered [0x41]).spSerialPort.written
            ++ [bytesOf "AT+WDSR=4\r\n"] } }
    ∧ bytesOf "AT+WDSR=4\r\n"
        = [0x41, 0x54, 0x2b, 0x57, 0x44, 0x53, 0x52, 0x3d, 0x34, 0x0d, 0x0a]
    ∧ (bytesOf "AT+WDSR=4\r\n").length = 11 :=
  C15_end_of_frame_reply_accepts
    { transferEntered [0x41] with nAction := ActionModeTypeXModemSendEndOfFrame }
    [0x15, 0x06] rfl rfl

/-! ## The bootloader entrance poller -/

/-- A timeout with clear-to-send not asserted and the incremented counter still
at most 5 only counts. -/
theorem timeout_counts (s : MainWindow) (hcts : s.spSerialPort.clearToSend = false)
    (hcount : s.nBootloaderTimerChecks < 5) :
    BootloaderEntranceTimerTimeout s
      = { s with nBootloaderTimerChecks := s.nBootloaderTimerChecks + 1 } := by
  have hmod : (s.nBootloaderTimerChecks + 1) % 256 = s.nBootloaderTimerChecks + 1 :=
    Nat.mod_eq_of_lt (by omega)
  have hle : ¬ 5 < s.nBootloaderTimerChecks + 1 := by omega
  simp [BootloaderEntranceTimerTimeout, hcts, hmod, hle, BOOTLOADER_ENTER_CHECK_TIMES]

/-- A timeout with clear-to-send not asserted that takes the counter from 5 to 6
gives up. -/
theorem timeout_gives_up (s : MainWindow) (hcts : s.spSerialPort.clearToSend = false)
    (hcount : s.nBootloaderTimerChecks = 5) :
    BootloaderEntranceTimerTimeout s
      = { s with
          nBootloaderTimerChecks := 6
          tmrBootloaderEntranceTimer := false
          pmErrorForm := s.pmErrorForm
            ++ [qstr "CTS is de-asserted, module has failed to enter bootloader mode."]
          spSerialPort := s.spSerialPort.close
          inputsEnabled := true } := by
  simp [BootloaderEntranceTimerTimeout, hcts, hcount, BOOTLOADER_ENTER_CHECK_TIMES,
    SetInputsEnabled]

/-- Up to five timeouts without clear-to-send, from a counter of 0, only count. -/
theorem ticks_count (s : MainWindow) (k : Nat)
    (htimer : s.tmrBootloaderEntranceTimer = true)
    (hcts : s.spSerialPort.clearToSend = false)
    (hk : s.nBootloaderTimerChecks + k ≤ 5) :
    TimerTicks k s = { s with nBootloaderTimerChecks := s.nBootloaderTimerChecks + k } := by
  induction k generalizing s with
  | zero => simp [TimerTicks]
  | succ k ih =>
    simp only [TimerTicks, htimer, if_true]
    rw [timeout_counts s hcts (by omega),
      ih { s with nBootloaderTimerChecks := s.nBootloaderTimerChecks + 1 } htimer hcts
        (by simp only; omega)]
    simp only [Nat.add_assoc, Nat.add_comm 1 k, htimer]

/-- A stopped timer delivers no timeout. -/
theorem ticks_stopped (s : MainWindow) (k : Nat)
    (htimer : s.tmrBootloaderEntranceTimer = false) :
    TimerTicks k s = s := by
  cases k with
  | zero => rfl
  | succ k => simp [TimerTicks, htimer]

theorem TimerTicks_add (s : MainWindow) (a b : Nat) :
    TimerTicks (a + b) s = TimerTicks b (TimerTicks a s) := by
  induction a generalizing s with
  | zero => simp [TimerTicks]
  | succ a ih =>
    rw [Nat.add_right_comm]
    simp only [TimerTicks]
    by_cases h : s.tmrBootloaderEntranceTimer = true
    · simp only [h, if_true]
      exact ih _
    · have h2 : s.tmrBootloaderEntranceTimer = false := by simpa using h
      simp only [h2, Bool.false_eq_true, if_false]
      exact (ticks_stopped s b h2).symm

/-- C14 (as stated, refuted): with the poller just started and clear-to-send
never asserted, five timeouts report no error and leave the timer running;
the error is shown by the sixth timeout. -/
theorem C14_counterexample_no_error_on_fifth_tick :
    pollerStarted.nBootloaderTimerChecks = 0
    ∧ pollerStarted.spSerialPort.clearToSend = false
    ∧ (TimerTicks 5 pollerStarted).pmErrorForm = []
    ∧ (TimerTicks 5 pollerStarted).tmrBootloaderEntranceTimer = true
    ∧ (TimerTicks 5 pollerStarted).nBootloaderTimerChecks = 5
    ∧ (TimerTicks 6 pollerStarted).pmErrorForm
        = [qstr "CTS is de-asserted, module has failed to enter bootloader mode."]
    ∧ (TimerTicks 6 pollerStarted).tmrBootloaderEntranceTimer = false := by
  decide

/-- C14 (amended): from a freshly started poller (timer running, counter 0) with
clear-to-send never asserted, the first five timeouts only count; the sixth
timeout, the first one that takes the counter above 5, shows the error once,
stops the timer, closes the port and enables the inputs; the stopped timer
delivers no seventh timeout, so the window stays as the sixth left it. -/
theorem C14_poller_gives_up_on_sixth_tick (s : MainWindow) (k : Nat)
    (htimer : s.tmrBootloaderEntranceTimer = true)
    (hcts : s.spSerialPort.clearToSend = false)
    (hcount : s.nBootloaderTimerChecks = 0) :
    TimerTicks k s
      = if k ≤ 5 then { s with nBootloaderTimerChecks := k }
        else { s with
          nBootloaderTimerChecks := 6
          tmrBootloaderEntranceTimer := false
          pmErrorForm := s.pmErrorForm
            ++ [qstr "CTS is de-asserted, module has failed to enter bootloader mode."]
          spSerialPort := s.spSerialPort.close
          inputsEnabled := true } := by
  by_cases hk : k ≤ 5
  · rw [if_pos hk, ticks_count s k htimer hcts (by omega), hcount, Nat.zero_add]
  · rw [if_neg hk]
    obtain ⟨m, rfl⟩ : ∃ m, k = 5 + (1 + m) := ⟨k - 6, by omega⟩
    rw [TimerTicks_add, ticks_count s 5 htimer hcts (by omega), TimerTicks_add]
    have hsix : TimerTicks 1 { s with nBootloaderTimerChecks := s.nBootloaderTimerChecks + 5 }
        = BootloaderEntranceTimerTimeout
            { s with nBootloaderTimerChecks := s.nBootloaderTimerChecks + 5 } := by
      simp [TimerTicks, htimer]
    rw [hsix,
      timeout_gives_up { s with nBootloaderTimerChecks := s.nBootloaderTimerChecks + 5 } hcts
        (by simp only; omega),
      ticks_stopped _ m rfl]

/-- C14 (amended) at the freshly started poller, for seven timeouts. -/
theorem C14_poller_gives_up_on_sixth_tick_witness :
    TimerTicks 7 pollerStarted
      = if 7 ≤ 5 then { pollerStarted with nBootloaderTimerChecks := 7 }
        else { pollerStarted with
          nBootloaderTimerChecks := 6
          tmrBootloaderEntranceTimer := false
          pmErrorForm := pollerStarted.pmErrorForm
            ++ [qstr "CTS is de-asserted, module has failed to enter bootloader mode."]
          spSerialPort := pollerStarted.spSerialPort.close
          inputsEnabled := true } :=
  C14_poller_gives_up_on_sixth_tick pollerStarted 7 rfl rfl rfl

/-! ## The completion monitor -/

theorem bytesWritten_elsewhere (s : MainWindow) (n : Nat)
    (h : ¬ (s.nAppMode = ApplicationModeTypeFirmwareUpdate
      ∧ s.nAction = ActionModeTypeXModemFinished)) :
    SerialBytesWritten s n = s := by
  simp only [SerialBytesWritten, h, if_false]

theorem bytesWritten_counts (s : MainWindow) (n : Nat)
    (hmode : s.nAppMode = ApplicationModeTypeFirmwareUpdate)
    (hact : s.nAction = ActionModeTypeXModemFinished)
    (hne : (s.nBytesWritten + n) % 65536 ≠ s.baLastPacket.length) :
    SerialBytesWritten s n = { s with nBytesWritten := (s.nBytesWritten + n) % 65536 } := by
  simp [SerialBytesWritten, hmode, hact, hne]

theorem bytesWritten_completes (s : MainWindow) (n : Nat)
    (hmode : s.nAppMode = ApplicationModeTypeFirmwareUpdate)
    (hact : s.nAction = ActionModeTypeXModemFinished)
    (heq : (s.nBytesWritten + n) % 65536 = s.baLastPacket.length) :
    SerialBytesWritten s n = { s with
      nBytesWritten := s.baLastPacket.length
      spSerialPort := s.spSerialPort.close
      progressBar := 100
      inputsEnabled := true } := by
  simp [SerialBytesWritten, hmode, hact, heq, SetInputsEnabled, PERCENT_100]

theorem SerialBytesWrittenAll_append (s : MainWindow) (xs ys : List Nat) :
    SerialBytesWrittenAll s (xs ++ ys)
      = SerialBytesWrittenAll (SerialBytesWrittenAll s xs) ys := by
  induction xs generalizing s with
  | nil => rfl
  | cons x more ih =>
    rw [List.cons_append]
    simp only [SerialBytesWrittenAll]
    exact ih _

/-- While no event brings the 16-bit counter to the length of the last packet,
the events only move the counter. -/
theorem bytesWrittenAll_counts (s : MainWindow) (counts : List Nat)
    (hmode : s.nAppMode = ApplicationModeTypeFirmwareUpdate)
    (hact : s.nAction = ActionModeTypeXModemFinished)
    (hlt : s.nBytesWritten < 65536)
    (hno : ∀ k, 1 ≤ k → k ≤ counts.length →
      (s.nBytesWritten + (counts.take k).sum) % 65536 ≠ s.baLastPacket.length) :
    SerialBytesWrittenAll s counts
      = { s with nBytesWritten := (s.nBytesWritten + counts.sum) % 65536 } := by
  induction counts generalizing s with
  | nil =>
    simp only [SerialBytesWrittenAll, List.sum_nil, Nat.add_zero, Nat.mod_eq_of_lt hlt]
  | cons n more ih =>
    have h1 : (s.nBytesWritten + n) % 65536 ≠ s.baLastPacket.length := by
      have := hno 1 (by omega) (by simp)
      simpa using this
    simp only [SerialBytesWrittenAll]
    rw [bytesWritten_counts s n hmode hact h1,
      ih { s with nBytesWritten := (s.nBytesWritten + n) % 65536 } hmode hact
        (Nat.mod_lt _ (by norm_num))
        (by
          intro k hk1 hk2
          have := hno (k + 1) (by omega) (by simp; omega)
          simp only [List.take_succ_cons, List.sum_cons] at this
          simp only
          intro h
          apply this
          rw [← h]
          omega)]
    simp only [List.sum_cons, MainWindow.mk.injEq, true_and, and_true]
    omega

/-- C16 (as stated, refuted): in Finished with the accept command (11 bytes) as
last packet and the counter at 0, one write-completed event of 65547 bytes
closes the port and sets the progress to 100, although 65547 bytes are not
11 bytes: the 16-bit counter holds 65547 modulo 65536. -/
theorem C16_counterexample_counter_wraps :
    acceptSent.nAction = ActionModeTypeXModemFinished
    ∧ acceptSent.baLastPacket.length = 11
    ∧ acceptSent.nBytesWritten = 0
    ∧ acceptSent.spSerialPort.isOpen = true
    ∧ (SerialBytesWritten acceptSent 65547).spSerialPort.isOpen = false
    ∧ (SerialBytesWritten acceptSent 65547).progressBar = 100
    ∧ (SerialBytesWritten acceptSent 65547).nBytesWritten = 11 := by
  decide

/-- C16 (amended): in Finished (firmware update mode), from a counter of 0, a
sequence of write-completed events none of which brings the sum of the byte
counts, taken modulo 65536, to the length of the last packet only sets the
counter to that sum modulo 65536; the next event closes the port, sets the
progress to 100 and enables the inputs exactly when the sum modulo 65536
then equals the length of the last packet. In every other mode or action a
write-completed event changes nothing. -/
theorem C16_complete_when_counter_matches (s : MainWindow) (counts : List Nat) (n : Nat)
    (hmode : s.nAppMode = ApplicationModeTypeFirmwareUpdate)
    (hact : s.nAction = ActionModeTypeXModemFinished)
    (hzero : s.nBytesWritten = 0)
    (hno : ∀ k, 1 ≤ k → k ≤ counts.length →
      (counts.take k).sum % 65536 ≠ s.baLastPacket.length) :
    SerialBytesWrittenAll s counts = { s with nBytesWritten := counts.sum % 65536 }
    ∧ SerialBytesWrittenAll s (counts ++ [n])
        = (if (counts.sum + n) % 65536 = s.baLastPacket.length then
            { s with
              nBytesWritten := s.baLastPacket.length
              spSerialPort := s.spSerialPort.close
              progressBar := 100
              inputsEnabled := true }
          else { s with nBytesWritten := (counts.sum + n) % 65536 })
    ∧ ∀ (u : MainWindow) (m : Nat),
        ¬ (u.nAppMode = ApplicationModeTypeFirmwareUpdate
          ∧ u.nAction = ActionModeTypeXModemFinished) →
        SerialBytesWritten u m = u := by
  have hall : SerialBytesWrittenAll s counts
      = { s with nBytesWritten := counts.sum % 65536 } := by
    rw [bytesWrittenAll_counts s counts hmode hact (by omega)
      (by intro k h1 h2; rw [hzero, Nat.zero_add]; exact hno k h1 h2), hzero, Nat.zero_add]
  refine ⟨hall, ?_, bytesWritten_elsewhere⟩
  rw [SerialBytesWrittenAll_append, hall]
  simp only [SerialBytesWrittenAll]
  by_cases h : (counts.sum + n) % 65536 = s.baLastPacket.length
  · rw [if_pos h,
      bytesWritten_completes { s with nBytesWritten := counts.sum % 65536 } n hmode hact
        (by simp only; rw [← h]; omega)]
  · rw [if_neg h,
      bytesWritten_counts { s with nBytesWritten := counts.sum % 65536 } n hmode hact
        (by simp only; intro h2; apply h; rw [← h2]; omega)]
    simp only [MainWindow.mk.injEq, true_and, and_true]
    omega

/-- C16 (amended) at the window that just wrote the accept command: events of
4 and 6 bytes, then one of 1 byte. -/
theorem C16_complete_when_counter_matches_witness :
    SerialBytesWrittenAll acceptSent [4, 6]
      = { acceptSent with nBytesWritten := [4, 6].sum % 65536 }
    ∧ SerialBytesWrittenAll acceptSent ([4, 6] ++ [1])
        = (if ([4, 6].sum + 1) % 65536 = acceptSent.baLastPacket.length then
            { acceptSent with
              nBytesWritten := acceptSent.baLastPacket.length
              spSerialPort := acceptSent.spSerialPort.close
              progressBar := 100
              inputsEnabled := true }
          else { acceptSent with nBytesWritten := ([4, 6].sum + 1) % 65536 })
    ∧ ∀ (u : MainWindow) (m : Nat),
        ¬ (u.nAppMode = ApplicationModeTypeFirmwareUpdate
          ∧ u.nAction = ActionModeTypeXModemFinished) →
        SerialBytesWritten u m = u :=
  C16_complete_when_counter_matches acceptSent [4, 6] 1 rfl rfl rfl
    (by
      intro k h1 h2
      have h3 : k ≤ 2 := h2
      interval_cases k <;> decide)

/-! ## Rule 2 of the mode detector -/

/-- Rule 2: the buffer holds the model marker and rule 1 does not apply. The
version is accepted on the two length thresholds alone. -/
theorem modeCheck_model (s : MainWindow) (baRecData : List Nat)
    (hact : s.nAction = ActionModeTypeModem)
    (hno1 : (s.baRecBuf ++ baRecData).take 2 ≠ [0x66, 0x04])
    (hidx : QByteArray.indexOf (s.baRecBuf ++ baRecData) baModemModel 0 ≠ -1) :
    SerialRead.modeCheck s baRecData
      = if MODEM_VERSION_MODEL_MINIMUM_SIZE ≤ (s.baRecBuf ++ baRecData).length
            ∧ MODEM_VERSION_MINIMUM_SIZE
                ≤ (SerialRead.strFirmwareVersion (s.baRecBuf ++ baRecData)).length then
          some (SerialRead.versionFound { s with baRecBuf := s.baRecBuf ++ baRecData }
            (SerialRead.strFirmwareVersion (s.baRecBuf ++ baRecData)))
        else some { s with baRecBuf := s.baRecBuf ++ baRecData } := by
  have h1 := (not_congr ((rule1_iff (s.baRecBuf ++ baRecData)).trans
    (take_two_iff (s.baRecBuf ++ baRecData)).symm)).mpr hno1
  simp only [SerialRead.modeCheck, hact, if_true, h1, if_false, hidx, ne_eq, not_false_eq_true,
    SerialRead.strFirmwareVersion]

/-- A version found in query mode: the message is shown, the port closed, the
inputs enabled, nothing written. -/
theorem versionFound_query (s : MainWindow) (version : List Nat)
    (hmode : s.nAppMode = ApplicationModeTypeQuery) :
    SerialRead.versionFound s version = { s with
      baRecBuf := []
      pmErrorForm := s.pmErrorForm ++ [qstr "Modem is running firmware version " ++ version]
      spSerialPort := s.spSerialPort.close
      inputsEnabled := true } := by
  simp [SerialRead.versionFound, hmode, SetInputsEnabled]

/-- A version found before an update that goes ahead, the file opening. -/
theorem versionFound_start (s : MainWindow) (version bytes : List Nat)
    (hmode : s.nAppMode = ApplicationModeTypeFirmwareUpdateModeCheck)
    (hgo : QString.indexOf s.edit_File (version ++ qstr "_to") ≠ -1 ∨ s.questionAnswer = true)
    (hfile : s.firmwareOnDisk = some bytes) :
    SerialRead.versionFound s version = { s with
      baRecBuf := []
      nAppMode := ApplicationModeTypeFirmwareUpdate
      fpFirmwareFile := { content := bytes, isOpen := true, cursor := 0 }
      nAction := ActionModeTypeXModemWaitForNack
      bLastPacketSent := false
      spSerialPort := s.spSerialPort.write
        (baFirmwareUpgradeStartCommand ++ bytesOf "=" ++ QString.number bytes.length
          ++ baCRLF) } := by
  have hcont : (if QString.indexOf s.edit_File (version ++ qstr "_to") = -1
      then s.questionAnswer else true) = true := by
    rcases hgo with h | h
    · rw [if_neg h]
    · split_ifs <;> simp [h]
  simp [SerialRead.versionFound, hmode, hcont, hfile, QFile.size]

/-- A version found before an update that goes ahead, the file not opening. -/
theorem versionFound_open_fails (s : MainWindow) (version : List Nat)
    (hmode : s.nAppMode = ApplicationModeTypeFirmwareUpdateModeCheck)
    (hgo : QString.indexOf s.edit_File (version ++ qstr "_to") ≠ -1 ∨ s.questionAnswer = true)
    (hfile : s.firmwareOnDisk = none) :
    SerialRead.versionFound s version = { s with
      baRecBuf := []
      nAppMode := ApplicationModeTypeFirmwareUpdate
      pmErrorForm := s.pmErrorForm
        ++ [qstr "Failed to open FOTO file '" ++ s.edit_File ++ qstr "' for reading: "
            ++ s.fpFirmwareFileErrorString]
      spSerialPort := s.spSerialPort.close
      inputsEnabled := true } := by
  have hcont : (if QString.indexOf s.edit_File (version ++ qstr "_to") = -1
      then s.questionAnswer else true) = true := by
    rcases hgo with h | h
    · rw [if_neg h]
    · split_ifs <;> simp [h]
  simp [SerialRead.versionFound, hmode, hcont, hfile, SetInputsEnabled]

/-- A version found before an update that the user declines. -/
theorem versionFound_declined (s : MainWindow) (version : List Nat)
    (hmode : s.nAppMode = ApplicationModeTypeFirmwareUpdateModeCheck)
    (hmiss : QString.indexOf s.edit_File (version ++ qstr "_to") = -1)
    (hno : s.questionAnswer = false) :
    SerialRead.versionFound s version = { s with
      baRecBuf := []
      spSerialPort := s.spSerialPort.close
      inputsEnabled := true } := by
  simp [SerialRead.versionFound, hmode, hmiss, hno, SetInputsEnabled]

/-! ## The decimal text of a file size -/

theorem toDigitsCore_eq_digits (fuel n : Nat) (ds : List Char) (hn : 0 < n) (hf : n < fuel) :
    Nat.toDigitsCore 10 fuel n ds = (Nat.digits 10 n).reverse.map Nat.digitChar ++ ds := by
  induction fuel generalizing n ds with
  | zero => omega
  | succ fuel ih =>
    rw [Nat.digits_def' (by norm_num) hn]
    simp only [Nat.toDigitsCore]
    by_cases h0 : n / 10 = 0
    · simp [h0]
    · rw [if_neg h0, ih (n / 10) _ (Nat.pos_of_ne_zero h0) (by omega)]
      simp

theorem digitChar_toNat (d : Nat) (hd : d < 10) : (Nat.digitChar d).toNat = d + 48 := by
  interval_cases d <;> rfl

/-- The text `QString::number` gives: the digit `0` for 0, else the decimal
digits of `n`, most significant first, as the characters `0`..`9`. -/
theorem QString.number_eq (n : Nat) :
    QString.number n
      = if n = 0 then [0x30] else (Nat.digits 10 n).reverse.map (fun d => d + 0x30) := by
  by_cases hn : n = 0
  · subst hn
    rfl
  · rw [if_neg hn]
    show ((Nat.repr n).toList).map Char.toNat = _
    have hrepr : (Nat.repr n).toList = Nat.toDigits 10 n := rfl
    rw [hrepr, Nat.toDigits,
      toDigitsCore_eq_digits (n + 1) n [] (Nat.pos_of_ne_zero hn) (by omega),
      List.append_nil, List.map_map]
    apply List.map_congr_left
    intro d hd
    exact digitChar_toNat d (Nat.digits_lt_base (by norm_num) (List.mem_reverse.mp hd))

/-! ## Starting the transfer -/

/-- C17: in mode check, when rule 2 yields a valid version (model marker found,
rule 1 not applying, buffer of at least 14 bytes, version of at least 7
characters), the update goes ahead (the version with `_to` occurs in the
file name, or the user answers yes) and the firmware file opens with the
bytes `bytes`, then the action becomes WaitForNack, `bLastPacketSent` is
false, the file is open, and exactly one command is written: `AT+WDSD=`, the
decimal digits of the file size (most significant first, a single `0` for
an empty file), CR, LF. -/
theorem C17_upgrade_start_command (s : MainWindow) (baRecData bytes : List Nat)
    (hmode : s.nAppMode = ApplicationModeTypeFirmwareUpdateModeCheck)
    (hact : s.nAction = ActionModeTypeModem)
    (hno1 : (s.baRecBuf ++ baRecData).take 2 ≠ [0x66, 0x04])
    (hidx : QByteArray.indexOf (s.baRecBuf ++ baRecData) baModemModel 0 ≠ -1)
    (hlen : 14 ≤ (s.baRecBuf ++ baRecData).length)
    (hver : 7 ≤ (SerialRead.strFirmwareVersion (s.baRecBuf ++ baRecData)).length)
    (hgo : QString.indexOf s.edit_File
          (SerialRead.strFirmwareVersion (s.baRecBuf ++ baRecData) ++ qstr "_to") ≠ -1
      ∨ s.questionAnswer = true)
    (hfile : s.firmwareOnDisk = some bytes) :
    ∃ t : MainWindow,
      SerialRead s baRecData = some t
      ∧ t.nAction = ActionModeTypeXModemWaitForNack
      ∧ t.bLastPacketSent = false
      ∧ t.fpFirmwareFile.isOpen = true
      ∧ t.fpFirmwareFile.size = bytes.length
      ∧ t.spSerialPort.written = s.spSerialPort.written
          ++ [bytesOf "AT+WDSD="
              ++ (if bytes.length = 0 then [0x30]
                  else (Nat.digits 10 bytes.length).reverse.map (fun d => d + 0x30))
              ++ [0x0d, 0x0a]] := by
  have hacc : MODEM_VERSION_MODEL_MINIMUM_SIZE ≤ (s.baRecBuf ++ baRecData).length
      ∧ MODEM_VERSION_MINIMUM_SIZE
          ≤ (SerialRead.strFirmwareVersion (s.baRecBuf ++ baRecData)).length := ⟨hlen, hver⟩
  rw [SerialRead_modeCheck s baRecData (Or.inl hmode),
    modeCheck_model s baRecData hact hno1 hidx, if_pos hacc,
    versionFound_start { s with baRecBuf := s.baRecBuf ++ baRecData } _ bytes hmode hgo hfile,
    QString.number_eq]
  refine ⟨_, rfl, rfl, rfl, rfl, rfl, ?_⟩
  show (s.spSerialPort.write _).written = _
  simp only [QSerialPort.write]
  have hstart : baFirmwareUpgradeStartCommand ++ bytesOf "=" = bytesOf "AT+WDSD=" := by decide
  have hcrlf : baCRLF = [0x0d, 0x0a] := by decide
  rw [hstart, hcrlf]

/-- C17 at the window that asked for an update from `fw.bin` (three bytes) and
receives the version reply. -/
theorem C17_upgrade_start_command_witness :
    ∃ t : MainWindow,
      SerialRead checkWindow versionReply = some t
      ∧ t.nAction = ActionModeTypeXModemWaitForNack
      ∧ t.bLastPacketSent = false
      ∧ t.fpFirmwareFile.isOpen = true
      ∧ t.fpFirmwareFile.size = [0x41, 0x42, 0x43].length
      ∧ t.spSerialPort.written = checkWindow.spSerialPort.written
          ++ [bytesOf "AT+WDSD="
              ++ (if [0x41, 0x42, 0x43].length = 0 then [0x30]
                  else (Nat.digits 10 [0x41, 0x42, 0x43].length).reverse.map (fun d => d + 0x30))
              ++ [0x0d, 0x0a]] :=
  C17_upgrade_start_command checkWindow versionReply [0x41, 0x42, 0x43] rfl rfl
    (by decide) (by decide) (by decide) (by decide) (Or.inr rfl) rfl

/-- C19 (as stated, refuted): when the version reply arrives and the firmware
file cannot be opened, the port is closed when the handler returns; one
message is shown, the inputs are enabled, nothing is written after the
version query. -/
theorem C19_counterexample_port_closed :
    checkWindowNoFile.spSerialPort.isOpen = true
    ∧ checkWindowNoFile.firmwareOnDisk = none
    ∧ (SerialRead checkWindowNoFile versionReply).map
        (fun t => (t.spSerialPort.isOpen, t.pmErrorForm.length, t.inputsEnabled,
          t.spSerialPort.written))
      = some (false, 1, true, [bytesOf "ATI3\r"]) := by
  decide

/-- C19 (amended): in mode check, when rule 2 yields a valid version, the update
goes ahead and the firmware file cannot be opened, the handler shows one
message (the file name and the error string of the failed open), writes
nothing, closes the port and enables the inputs; the receive buffer is
cleared, the mode is then firmware update and the action is still Modem. -/
theorem C19_open_failure_closes_port (s : MainWindow) (baRecData : List Nat)
    (hmode : s.nAppMode = ApplicationModeTypeFirmwareUpdateModeCheck)
    (hact : s.nAction = ActionModeTypeModem)
    (hno1 : (s.baRecBuf ++ baRecData).take 2 ≠ [0x66, 0x04])
    (hidx : QByteArray.indexOf (s.baRecBuf ++ baRecData) baModemModel 0 ≠ -1)
    (hlen : 14 ≤ (s.baRecBuf ++ baRecData).length)
    (hver : 7 ≤ (SerialRead.strFirmwareVersion (s.baRecBuf ++ baRecData)).length)
    (hgo : QString.indexOf s.edit_File
          (SerialRead.strFirmwareVersion (s.baRecBuf ++ baRecData) ++ qstr "_to") ≠ -1
      ∨ s.questionAnswer = true)
    (hfile : s.firmwareOnDisk = none) :
    SerialRead s baRecData = some { s with
      baRecBuf := []
      nAppMode := ApplicationModeTypeFirmwareUpdate
      pmErrorForm := s.pmErrorForm
        ++ [qstr "Failed to open FOTO file '" ++ s.edit_File ++ qstr "' for reading: "
            ++ s.fpFirmwareFileErrorString]
      spSerialPort := { s.spSerialPort with isOpen := false }
      inputsEnabled := true } := by
  have hacc : MODEM_VERSION_MODEL_MINIMUM_SIZE ≤ (s.baRecBuf ++ baRecData).length
      ∧ MODEM_VERSION_MINIMUM_SIZE
          ≤ (SerialRead.strFirmwareVersion (s.baRecBuf ++ baRecData)).length := ⟨hlen, hver⟩
  rw [SerialRead_modeCheck s baRecData (Or.inl hmode),
    modeCheck_model s baRecData hact hno1 hidx, if_pos hacc,
    versionFound_open_fails { s with baRecBuf := s.baRecBuf ++ baRecData } _ hmode hgo hfile]
  rfl

/-- C19 (amended) at the window whose file `fw.bin` cannot be opened. -/
theorem C19_open_failure_closes_port_witness :
    SerialRead checkWindowNoFile versionReply = some { checkWindowNoFile with
      baRecBuf := []
      nAppMode := ApplicationModeTypeFirmwareUpdate
      pmErrorForm := checkWindowNoFile.pmErrorForm
        ++ [qstr "Failed to open FOTO file '" ++ checkWindowNoFile.edit_File
            ++ qstr "' for reading: " ++ checkWindowNoFile.fpFirmwareFileErrorString]
      spSerialPort := { checkWindowNoFile.spSerialPort with isOpen := false }
      inputsEnabled := true } :=
  C19_open_failure_closes_port checkWindowNoFile versionReply rfl rfl
    (by decide) (by decide) (by decide) (by decide) (Or.inr rfl) rfl

/-! ## Searching the receive buffer, cutting out the version -/

theorem go_single_found (c : Nat) (l1 l2 : List Nat) (i : Nat) (h : c ∉ l1) :
    QByteArray.indexOf.go [c] (l1 ++ c :: l2) i = ((i + l1.length : Nat) : Int) := by
  induction l1 generalizing i with
  | nil => simp [QByteArray.indexOf.go, List.isPrefixOf]
  | cons a t ih =>
    have hca : c ≠ a := fun e => h (by simp [e])
    have ht : c ∉ t := fun e => h (by simp [e])
    have hif : ((c == a && true) = true) = False := by simp [hca]
    simp only [List.cons_append, QByteArray.indexOf.go, List.isPrefixOf, hif, if_false,
      List.append_eq]
    rw [ih (i + 1) ht]
    simp only [List.length_cons]
    congr 1
    omega

theorem go_single_absent (c : Nat) (l : List Nat) (i : Nat) (h : c ∉ l) :
    QByteArray.indexOf.go [c] l i = -1 := by
  induction l generalizing i with
  | nil => simp [QByteArray.indexOf.go]
  | cons a t ih =>
    have hca : c ≠ a := fun e => h (by simp [e])
    have ht : c ∉ t := fun e => h (by simp [e])
    have hif : ((c == a && true) = true) = False := by simp [hca]
    simp only [QByteArray.indexOf.go, List.isPrefixOf, hif, if_false]
    exact ih (i + 1) ht

theorem go_found_iff (needle hay : List Nat) (i : Nat) :
    QByteArray.indexOf.go needle hay i ≠ -1 ↔ needle <:+: hay := by
  induction hay generalizing i with
  | nil =>
    simp only [QByteArray.indexOf.go, List.infix_nil]
    by_cases h : needle = []
    · simp [h]
    · simp [h]
  | cons b hay ih =>
    simp only [QByteArray.indexOf.go]
    rw [List.infix_cons_iff]
    by_cases hp : needle.isPrefixOf (b :: hay) = true
    · rw [if_pos hp]
      have := List.isPrefixOf_iff_prefix.mp hp
      constructor
      · intro _; exact Or.inl this
      · intro _; omega
    · rw [if_neg hp, ih (i + 1)]
      have hnp : ¬ needle <+: b :: hay := fun e => hp (List.isPrefixOf_iff_prefix.mpr e)
      constructor
      · intro e; exact Or.inr e
      · rintro (e | e)
        · exact absurd e hnp
        · exact e

theorem indexOf_found_iff (buf needle : List Nat) :
    QByteArray.indexOf buf needle 0 ≠ -1 ↔ needle <:+: buf := by
  simp only [QByteArray.indexOf, Nat.not_lt_zero, if_false, List.drop_zero]
  exact go_found_iff needle buf 0

theorem mid_within (ba : List Nat) (p l : Nat) (h : p + l ≤ ba.length) :
    QByteArray.mid ba (p : Int) (l : Int) = (ba.drop p).take l := by
  have h1 : ¬ ((ba.length : Int) < (p : Int)) := by omega
  have h2 : ¬ ((p : Int) < 0) := by omega
  have h3 : ¬ ((l : Int) < 0 ∨ (ba.length : Int) - (p : Int) < (l : Int)) := by omega
  simp only [QByteArray.mid, h1, h2, h3, if_false, Int.toNat_ofNat]

theorem mid_rest (ba : List Nat) (p : Nat) (l : Int) (hp : p ≤ ba.length) (hl : l < 0) :
    QByteArray.mid ba (p : Int) l = ba.drop p := by
  have h1 : ¬ ((ba.length : Int) < (p : Int)) := by omega
  have h2 : ¬ ((p : Int) < 0) := by omega
  simp only [QByteArray.mid, h1, h2, if_false, hl, true_or, if_true, Int.toNat_ofNat]

theorem baModemModel_eq : baModemModel = [0x48, 0x4c, 0x37, 0x38, 0x30, 0x30] := by decide

theorem baCR_eq : baCR = [0x0d] := by decide

/-- The search for the carriage return from one byte behind the start of the
marker, in a buffer that holds the marker at `pre.length`, then `mid`, then
`tail`. -/
theorem indexOf_cr_after_marker (pre mid tail : List Nat) :
    QByteArray.indexOf (pre ++ baModemModel ++ mid ++ tail) baCR (pre.length + 1)
      = QByteArray.indexOf.go [0x0d] ([0x4c, 0x37, 0x38, 0x30, 0x30] ++ mid ++ tail)
          (pre.length + 1) := by
  have hdrop : (pre ++ baModemModel ++ mid ++ tail).drop (pre.length + 1)
      = [0x4c, 0x37, 0x38, 0x30, 0x30] ++ mid ++ tail := by
    rw [baModemModel_eq, List.append_assoc, List.append_assoc, List.drop_append]
    rfl
  have hlen : ¬ (pre ++ baModemModel ++ mid ++ tail).length < pre.length + 1 := by
    rw [baModemModel_eq]
    simp
  simp only [QByteArray.indexOf, hlen, if_false, hdrop, baCR_eq]

/-- The bytes handed to the `QString`, for a buffer with the marker first at
`pre.length`, one byte `x` other than a carriage return behind it, then
`ver` without a carriage return, then a carriage return. -/
theorem strFirmwareVersion_until_cr (pre ver post : List Nat) (x : Nat)
    (hfirst : QByteArray.indexOf (pre ++ baModemModel ++ [x] ++ ver ++ [0x0d] ++ post)
      baModemModel 0 = (pre.length : Int))
    (hx : x ≠ 0x0d) (hver : 0x0d ∉ ver) :
    SerialRead.strFirmwareVersion (pre ++ baModemModel ++ [x] ++ ver ++ [0x0d] ++ post)
      = QString.fromByteArray ver := by
  have hcr : QByteArray.indexOf (pre ++ baModemModel ++ [x] ++ ver ++ [0x0d] ++ post) baCR
      (pre.length + 1) = ((pre.length + 1 + (6 + ver.length) : Nat) : Int) := by
    have hshape : pre ++ baModemModel ++ [x] ++ ver ++ [0x0d] ++ post
        = pre ++ baModemModel ++ ([x] ++ ver) ++ ([0x0d] ++ post) := by
      simp only [List.append_assoc]
    rw [hshape, indexOf_cr_after_marker]
    have hnot : (0x0d : Nat) ∉ [0x4c, 0x37, 0x38, 0x30, 0x30] ++ ([x] ++ ver) := by
      simp [hver, Ne.symm hx]
    have := go_single_found 0x0d ([0x4c, 0x37, 0x38, 0x30, 0x30] ++ ([x] ++ ver)) post
      (pre.length + 1) hnot
    simp only [List.singleton_append] at this ⊢
    rw [this]
    congr 1
    simp
    omega
  have hstart : ((pre.length : Int) + (baCR.length : Nat)).toNat = pre.length + 1 := by
    rw [baCR_eq]
    simp
  have hpos : (pre.length : Int) + (nModemVersionCutChars : Nat) = ((pre.length + 7 : Nat) : Int) := by
    simp [nModemVersionCutChars]
  have hlen : ((pre.length + 1 + (6 + ver.length) : Nat) : Int) - ((pre.length + 7 : Nat) : Int)
      = (ver.length : Int) := by
    push_cast
    omega
  have hsub : (pre ++ baModemModel ++ [x] ++ ver ++ [0x0d] ++ post).drop (pre.length + 7)
      = ver ++ [0x0d] ++ post := by
    have : pre ++ baModemModel ++ [x] ++ ver ++ [0x0d] ++ post
        = (pre ++ baModemModel ++ [x]) ++ (ver ++ [0x0d] ++ post) := by
      simp only [List.append_assoc]
    rw [this]
    have hl : (pre ++ baModemModel ++ [x]).length = pre.length + 7 := by
      rw [baModemModel_eq]; simp
    rw [← hl, List.drop_left]
  unfold SerialRead.strFirmwareVersion
  rw [hfirst, hstart, hcr, hpos, hlen,
    mid_within _ _ _ (by rw [baModemModel_eq]; simp; omega), hsub, List.append_assoc,
    List.take_left]

/-- The bytes handed to the `QString` when no carriage return follows: the
whole rest of the buffer. -/
theorem strFirmwareVersion_no_cr (pre ver : List Nat) (x : Nat)
    (hfirst : QByteArray.indexOf (pre ++ baModemModel ++ [x] ++ ver) baModemModel 0
      = (pre.length : Int))
    (hx : x ≠ 0x0d) (hver : 0x0d ∉ ver) :
    SerialRead.strFirmwareVersion (pre ++ baModemModel ++ [x] ++ ver)
      = QString.fromByteArray ver := by
  have hcr : QByteArray.indexOf (pre ++ baModemModel ++ [x] ++ ver) baCR (pre.length + 1)
      = -1 := by
    rw [indexOf_cr_after_marker]
    apply go_single_absent
    simp [hver, Ne.symm hx]
  have hstart : ((pre.length : Int) + (baCR.length : Nat)).toNat = pre.length + 1 := by
    rw [baCR_eq]
    simp
  have hpos : (pre.length : Int) + (nModemVersionCutChars : Nat) = ((pre.length + 7 : Nat) : Int) := by
    simp [nModemVersionCutChars]
  have hsub : (pre ++ baModemModel ++ [x] ++ ver).drop (pre.length + 7) = ver := by
    have hl : (pre ++ baModemModel ++ [x]).length = pre.length + 7 := by
      rw [baModemModel_eq]; simp
    rw [← hl, List.drop_left]
  unfold SerialRead.strFirmwareVersion
  rw [hfirst, hstart, hcr, hpos,
    mid_rest _ _ _ (by rw [baModemModel_eq]; simp) (by omega), hsub]

/-- A code unit the decoder step puts out is the lead byte itself, when that
is an ASCII byte, or is at least 0x80. -/
theorem decodeOne_mem (b : Nat) (rest : List Nat) (u : Nat)
    (h : u ∈ (QString.decodeOne b rest).1) : (u = b ∧ b < 0x80) ∨ 0x80 ≤ u := by
  unfold QString.decodeOne at h
  simp only at h
  split_ifs at h with h1 h2 h3 h4
  · simp at h
    exact Or.inl ⟨h, h1⟩
  · split at h
    · split_ifs at h
      · simp at h
        right
        omega
      · simp at h
        right
        omega
    · simp at h
      right
      omega
  · split at h
    · split_ifs at h with h5
      · simp at h
        right
        omega
      · simp at h
        right
        omega
    · simp at h
      right
      omega
  · split at h
    · split_ifs at h with h5
      · simp at h
        right
        omega
      · simp at h
        right
        omega
    · simp at h
      right
      omega
  · simp at h
    right
    omega

theorem decode_mem (fuel : Nat) (l : List Nat) (u : Nat) (h : u ∈ QString.decode fuel l) :
    u ∈ l ∨ 0x80 ≤ u := by
  induction fuel generalizing l with
  | zero => simp [QString.decode] at h
  | succ fuel ih =>
    cases l with
    | nil => simp [QString.decode] at h
    | cons b rest =>
      simp only [QString.decode, List.mem_append] at h
      rcases h with h | h
      · rcases decodeOne_mem b rest u h with ⟨h1, -⟩ | h1
        · left; simp [h1]
        · right; exact h1
      · rcases ih _ h with h1 | h1
        · left
          exact List.mem_cons_of_mem _ (List.mem_of_mem_drop h1)
        · right; exact h1

/-- A code unit of the `QString` made from a byte array is one of its bytes or
is at least 0x80. -/
theorem fromByteArray_mem (ba : List Nat) (u : Nat) (h : u ∈ QString.fromByteArray ba) :
    u ∈ ba ∨ 0x80 ≤ u := by
  unfold QString.fromByteArray at h
  simp only at h
  rcases decode_mem _ _ u h with h1 | h1
  · left
    split_ifs at h1
    · exact (List.takeWhile_sublist _).subset (List.mem_of_mem_drop h1)
    · exact (List.takeWhile_sublist _).subset h1
  · right; exact h1

theorem decode_ascii (fuel : Nat) (l : List Nat) (h : ∀ b ∈ l, b < 0x80)
    (hf : l.length ≤ fuel) : QString.decode fuel l = l := by
  induction fuel generalizing l with
  | zero =>
    have : l = [] := List.length_eq_zero.mp (by omega)
    subst this
    rfl
  | succ fuel ih =>
    cases l with
    | nil => rfl
    | cons b rest =>
      have hb : b < 0x80 := h b (by simp)
      have hone : QString.decodeOne b rest = ([b], 0) := by
        simp [QString.decodeOne, hb]
      simp only [QString.decode, hone, List.drop_zero, List.singleton_append]
      rw [ih rest (fun c hc => h c (List.mem_cons_of_mem _ hc)) (by simpa using hf)]

/-- Bytes that are all ASCII and not zero are their own `QString`. -/
theorem fromByteArray_ascii (ba : List Nat) (h : ∀ b ∈ ba, 0 < b ∧ b < 0x80) :
    QString.fromByteArray ba = ba := by
  have htake : ba.takeWhile (fun b => decide (b ≠ 0)) = ba := by
    rw [List.takeWhile_eq_self_iff]
    intro b hb
    simpa using Nat.pos_iff_ne_zero.mp (h b hb).1
  have hbom : ¬ ([0xEF, 0xBB, 0xBF].isPrefixOf ba = true) := by
    intro hp
    have hp2 := List.isPrefixOf_iff_prefix.mp hp
    have : (0xEF : Nat) ∈ ba := hp2.subset (by simp)
    have := (h _ this).2
    omega
  unfold QString.fromByteArray
  simp only [htake, hbom, if_false]
  exact decode_ascii _ _ (fun b hb => (h b hb).2) (le_refl _)

/-! ## The version that rule 2 extracts -/

/-- C12 (as stated, refuted): in query mode the buffer `HL7800.1234567`, in
which no carriage return has arrived, is accepted at once: the version
`1234567` is shown and the receive buffer is cleared. -/
theorem C12_counterexample_accepted_without_cr :
    (0x0d : Nat) ∉ bytesOf "HL7800.1234567"
    ∧ (SerialRead queryWindow (bytesOf "HL7800.1234567")).map
        (fun t => (t.pmErrorForm, t.baRecBuf))
      = some ([qstr "Modem is running firmware version 1234567"], []) := by
  decide

/-- C12 (amended): for a buffer to which rule 1 does not apply and in which the
model marker first occurs at index `i` (`pre.length`), followed by one byte
other than a carriage return and then by bytes `ver` without a carriage
return that end at the next carriage return or, when none has arrived yet,
at the end of the buffer, the extracted version is the `QString` of exactly
the bytes `ver` from index `i + 7` on; it holds no carriage return and is
`ver` itself when these are ASCII bytes. The buffer is accepted exactly when
it has at least 14 bytes and the version at least 7 characters, whether or
not the carriage return has arrived; otherwise the handler only keeps the
bytes. -/
theorem C12_version_up_to_cr_or_end (s : MainWindow) (baRecData pre ver tail : List Nat)
    (x : Nat)
    (hmode : s.nAppMode = ApplicationModeTypeFirmwareUpdateModeCheck
      ∨ s.nAppMode = ApplicationModeTypeQuery)
    (hact : s.nAction = ActionModeTypeModem)
    (hbuf : s.baRecBuf ++ baRecData = pre ++ baModemModel ++ [x] ++ ver ++ tail)
    (htail : tail = [] ∨ ∃ post, tail = [0x0d] ++ post)
    (hno1 : (s.baRecBuf ++ baRecData).take 2 ≠ [0x66, 0x04])
    (hfirst : QByteArray.indexOf (s.baRecBuf ++ baRecData) baModemModel 0 = (pre.length : Int))
    (hx : x ≠ 0x0d) (hver : 0x0d ∉ ver) :
    SerialRead.strFirmwareVersion (s.baRecBuf ++ baRecData) = QString.fromByteArray ver
    ∧ 0x0d ∉ QString.fromByteArray ver
    ∧ ((∀ b ∈ ver, 0 < b ∧ b < 0x80) → QString.fromByteArray ver = ver)
    ∧ SerialRead s baRecData
        = (if 14 ≤ (s.baRecBuf ++ baRecData).length ∧ 7 ≤ (QString.fromByteArray ver).length
          then some (SerialRead.versionFound { s with baRecBuf := s.baRecBuf ++ baRecData }
            (QString.fromByteArray ver))
          else some { s with baRecBuf := s.baRecBuf ++ baRecData }) := by
  have hversion : SerialRead.strFirmwareVersion (s.baRecBuf ++ baRecData)
      = QString.fromByteArray ver := by
    rcases htail with rfl | ⟨post, rfl⟩
    · rw [List.append_nil] at hbuf
      rw [hbuf] at hfirst ⊢
      exact strFirmwareVersion_no_cr pre ver x hfirst hx hver
    · rw [← List.append_assoc] at hbuf
      rw [hbuf] at hfirst ⊢
      exact strFirmwareVersion_until_cr pre ver post x hfirst hx hver
  have hidx : QByteArray.indexOf (s.baRecBuf ++ baRecData) baModemModel 0 ≠ -1 := by
    rw [hfirst]
    omega
  refine ⟨hversion, ?_, fromByteArray_ascii ver, ?_⟩
  · intro hmem
    rcases fromByteArray_mem ver _ hmem with h | h
    · exact hver h
    · omega
  · rw [SerialRead_modeCheck s baRecData hmode, modeCheck_model s baRecData hact hno1 hidx,
      hversion]
    rfl

/-- C12 (amended) at the query window that receives the version reply: the
version `1234567` ends at the carriage return. -/
theorem C12_version_up_to_cr_or_end_witness :
    SerialRead.strFirmwareVersion (queryWindow.baRecBuf ++ versionReply)
      = QString.fromByteArray (bytesOf "1234567")
    ∧ 0x0d ∉ QString.fromByteArray (bytesOf "1234567")
    ∧ ((∀ b ∈ bytesOf "1234567", 0 < b ∧ b < 0x80)
        → QString.fromByteArray (bytesOf "1234567") = bytesOf "1234567")
    ∧ SerialRead queryWindow versionReply
        = (if 14 ≤ (queryWindow.baRecBuf ++ versionReply).length
              ∧ 7 ≤ (QString.fromByteArray (bytesOf "1234567")).length
          then some (SerialRead.versionFound
            { queryWindow with baRecBuf := queryWindow.baRecBuf ++ versionReply }
            (QString.fromByteArray (bytesOf "1234567")))
          else some { queryWindow with baRecBuf := queryWindow.baRecBuf ++ versionReply }) :=
  C12_version_up_to_cr_or_end queryWindow versionReply [] (bytesOf "1234567") [0x0d] 0x2e
    (Or.inr rfl) rfl (by decide) (Or.inr ⟨[], rfl⟩) (by decide) (by decide) (by decide)
    (by decide)

/-! ## Query mode -/

/-- C18 (as stated, refuted): in query mode a buffer of 17 bytes that holds the
model marker, a version of seven characters and a carriage return, but
begins with `f`, 0x04, is taken by rule 1: no version is shown, the buffer
is not cleared, the unlock command is written and the action becomes
BootloaderUnbridged. -/
theorem C18_counterexample_bootloader_prefix :
    (0x66 :: 0x04 :: versionReply).length = 17
    ∧ (SerialRead queryWindow (0x66 :: 0x04 :: versionReply)).map
        (fun t => (t.pmErrorForm, t.baRecBuf, t.nAction, t.spSerialPort.written))
      = some ([], 0x66 :: 0x04 :: versionReply, ActionModeTypeBootloaderUnbridged,
          [bytesOf "ATI3\r", [0x70, 0x0f, 0x51, 0x2a, 0x51]]) := by
  decide

/-- C18 (amended): in query mode, action Modem, for an accumulated buffer of at
least 14 bytes that does not begin with `f`, 0x04 and in which the model
marker first occurs at `pre.length`, followed by one byte other than a
carriage return, a version `ver` of at least 7 characters without a carriage
return, and a carriage return: the handler shows the version in exactly one
message, clears the receive buffer, writes nothing, closes the port, enables
the inputs, and keeps mode and action, so no transfer starts. -/
theorem C18_query_reports_version (s : MainWindow) (baRecData pre ver post : List Nat)
    (x : Nat)
    (hmode : s.nAppMode = ApplicationModeTypeQuery)
    (hact : s.nAction = ActionModeTypeModem)
    (hbuf : s.baRecBuf ++ baRecData = pre ++ baModemModel ++ [x] ++ ver ++ [0x0d] ++ post)
    (hno1 : (s.baRecBuf ++ baRecData).take 2 ≠ [0x66, 0x04])
    (hfirst : QByteArray.indexOf (s.baRecBuf ++ baRecData) baModemModel 0 = (pre.length : Int))
    (hx : x ≠ 0x0d) (hver : 0x0d ∉ ver)
    (hlen : 14 ≤ (s.baRecBuf ++ baRecData).length)
    (hseven : 7 ≤ (QString.fromByteArray ver).length) :
    SerialRead s baRecData = some { s with
        baRecBuf := []
        pmErrorForm := s.pmErrorForm
          ++ [qstr "Modem is running firmware version " ++ QString.fromByteArray ver]
        spSerialPort := { s.spSerialPort with isOpen := false }
        inputsEnabled := true } := by
  have hversion : SerialRead.strFirmwareVersion (s.baRecBuf ++ baRecData)
      = QString.fromByteArray ver := by
    rw [hbuf] at hfirst ⊢
    exact strFirmwareVersion_until_cr pre ver post x hfirst hx hver
  have hidx : QByteArray.indexOf (s.baRecBuf ++ baRecData) baModemModel 0 ≠ -1 := by
    rw [hfirst]
    omega
  have hacc : MODEM_VERSION_MODEL_MINIMUM_SIZE ≤ (s.baRecBuf ++ baRecData).length
      ∧ MODEM_VERSION_MINIMUM_SIZE
          ≤ (SerialRead.strFirmwareVersion (s.baRecBuf ++ baRecData)).length := by
    rw [hversion]
    exact ⟨hlen, hseven⟩
  rw [SerialRead_modeCheck s baRecData (Or.inr hmode),
    modeCheck_model s baRecData hact hno1 hidx, if_pos hacc, hversion,
    versionFound_query { s with baRecBuf := s.baRecBuf ++ baRecData } _ hmode]
  rfl

/-- C18 (amended) at the query window that receives the version reply. -/
theorem C18_query_reports_version_witness :
    SerialRead queryWindow versionReply = some { queryWindow with
        baRecBuf := []
        pmErrorForm := queryWindow.pmErrorForm
          ++ [qstr "Modem is running firmware version "
              ++ QString.fromByteArray (bytesOf "1234567")]
        spSerialPort := { queryWindow.spSerialPort with isOpen := false }
        inputsEnabled := true } :=
  C18_query_reports_version queryWindow versionReply [] (bytesOf "1234567") [] 0x2e
    rfl rfl (by decide) (by decide) (by decide) (by decide) (by decide) (by decide)
    (by decide)

/-! ## Rule 2 before rule 4 -/

theorem startCommand_ne_trigger (digits : List Nat) :
    baFirmwareUpgradeStartCommand ++ bytesOf "=" ++ digits ++ baCRLF
      ≠ baZephyrEnterBootloader := by
  intro h
  have hA : baFirmwareUpgradeStartCommand = 0x41 :: bytesOf "T+WDSD" := by decide
  have hT : baZephyrEnterBootloader.head? = some 0x6d := by decide
  have := congrArg List.head? h
  rw [hA, hT] at this
  simp at this

/-- What the handling of an accepted version never does: it leaves the poller
alone, leaves the action or moves it to WaitForNack, and writes nothing or
the upgrade start command. -/
theorem versionFound_effects (s : MainWindow) (version : List Nat)
    (hmode : s.nAppMode = ApplicationModeTypeFirmwareUpdateModeCheck
      ∨ s.nAppMode = ApplicationModeTypeQuery) :
    (SerialRead.versionFound s version).tmrBootloaderEntranceTimer
        = s.tmrBootloaderEntranceTimer
    ∧ ((SerialRead.versionFound s version).nAction = s.nAction
      ∨ (SerialRead.versionFound s version).nAction = ActionModeTypeXModemWaitForNack)
    ∧ ∃ new, (SerialRead.versionFound s version).spSerialPort.written
          = s.spSerialPort.written ++ new
        ∧ baZephyrEnterBootloader ∉ new := by
  rcases hmode with hmode | hmode
  · by_cases hgo : QString.indexOf s.edit_File (version ++ qstr "_to") ≠ -1
        ∨ s.questionAnswer = true
    · cases hfile : s.firmwareOnDisk with
      | none =>
        rw [versionFound_open_fails s version hmode hgo hfile]
        exact ⟨rfl, Or.inl rfl, [], by simp [QSerialPort.close], by simp⟩
      | some bytes =>
        rw [versionFound_start s version bytes hmode hgo hfile]
        refine ⟨rfl, Or.inr rfl, [_], rfl, ?_⟩
        simp only [List.mem_singleton]
        exact fun h => startCommand_ne_trigger _ h.symm
    · have hmiss : QString.indexOf s.edit_File (version ++ qstr "_to") = -1 := by
        by_contra h
        exact hgo (Or.inl h)
      have hno : s.questionAnswer = false := by
        cases h : s.questionAnswer with
        | false => rfl
        | true => exact absurd (Or.inr h) hgo
      rw [versionFound_declined s version hmode hmiss hno]
      exact ⟨rfl, Or.inl rfl, [], by simp [QSerialPort.close], by simp⟩
  · rw [versionFound_query s version hmode]
    exact ⟨rfl, Or.inl rfl, [], by simp [QSerialPort.close], by simp⟩

/-- C11 (as stated, refuted): in query mode a buffer that holds the not-found
marker and the model marker with a valid version, but begins with `f`, 0x04,
is not handled as a modem answer: rule 1 takes it, the unlock command is
written, the action becomes BootloaderUnbridged, no version is shown and the
buffer is kept. -/
theorem C11_counterexample_rule_one_first :
    QByteArray.indexOf (0x66 :: 0x04 :: (bytesOf "not found\r\n" ++ versionReply))
        baNotFoundError 0 ≠ -1
    ∧ QByteArray.indexOf (0x66 :: 0x04 :: (bytesOf "not found\r\n" ++ versionReply))
        baModemModel 0 ≠ -1
    ∧ SerialRead.strFirmwareVersion (0x66 :: 0x04 :: (bytesOf "not found\r\n" ++ versionReply))
        = qstr "1234567"
    ∧ (SerialRead queryWindow (0x66 :: 0x04 :: (bytesOf "not found\r\n" ++ versionReply))).map
        (fun t => (t.nAction, t.spSerialPort.written, t.pmErrorForm, t.baRecBuf))
      = some (ActionModeTypeBootloaderUnbridged,
          [bytesOf "ATI3\r", [0x70, 0x0f, 0x51, 0x2a, 0x51]], [],
          0x66 :: 0x04 :: (bytesOf "not found\r\n" ++ versionReply)) := by
  decide

/-- C11 (amended): in action Modem (mode check or query), for every accumulated
buffer that holds both the not-found marker and the model marker with a valid
version (buffer of at least 14 bytes, version of at least 7 characters),
wherever the two markers stand, the handler does not take rule 4: the action
does not become UserApplication, the poller timer is left as it was, and the
bootloader trigger is not among the byte arrays written. The buffer is
handled as a modem answer (rule 2) when it does not begin with `f`, 0x04;
when it does, rule 1 takes it and the action becomes BootloaderUnbridged. -/
theorem C11_model_marker_beats_not_found (s : MainWindow) (baRecData : List Nat)
    (hmode : s.nAppMode = ApplicationModeTypeFirmwareUpdateModeCheck
      ∨ s.nAppMode = ApplicationModeTypeQuery)
    (hact : s.nAction = ActionModeTypeModem)
    (_hnotfound : baNotFoundError <:+: s.baRecBuf ++ baRecData)
    (hmodel : baModemModel <:+: s.baRecBuf ++ baRecData)
    (hlen : 14 ≤ (s.baRecBuf ++ baRecData).length)
    (hver : 7 ≤ (SerialRead.strFirmwareVersion (s.baRecBuf ++ baRecData)).length) :
    ∃ t : MainWindow,
      SerialRead s baRecData = some t
      ∧ t.nAction ≠ ActionModeTypeUserApplication
      ∧ t.tmrBootloaderEntranceTimer = s.tmrBootloaderEntranceTimer
      ∧ (∃ new, t.spSerialPort.written = s.spSerialPort.written ++ new
          ∧ baZephyrEnterBootloader ∉ new)
      ∧ ((s.baRecBuf ++ baRecData).take 2 ≠ [0x66, 0x04] →
          t = SerialRead.versionFound { s with baRecBuf := s.baRecBuf ++ baRecData }
              (SerialRead.strFirmwareVersion (s.baRecBuf ++ baRecData)))
      ∧ ((s.baRecBuf ++ baRecData).take 2 = [0x66, 0x04] →
          t.nAction = ActionModeTypeBootloaderUnbridged) := by
  have hidx : QByteArray.indexOf (s.baRecBuf ++ baRecData) baModemModel 0 ≠ -1 :=
    (indexOf_found_iff _ _).mpr hmodel
  rw [SerialRead_modeCheck s baRecData hmode]
  by_cases h1 : (s.baRecBuf ++ baRecData).take 2 = [0x66, 0x04]
  · obtain ⟨tail, htail⟩ := (take_two_iff _).mp h1
    rw [modeCheck_bootloader s baRecData tail hact htail]
    refine ⟨_, rfl, by simp, rfl, ⟨[baBootloaderUnlockCommand], rfl, by decide⟩,
      fun hne => absurd h1 hne, fun _ => rfl⟩
  · have hacc : MODEM_VERSION_MODEL_MINIMUM_SIZE ≤ (s.baRecBuf ++ baRecData).length
        ∧ MODEM_VERSION_MINIMUM_SIZE
            ≤ (SerialRead.strFirmwareVersion (s.baRecBuf ++ baRecData)).length := ⟨hlen, hver⟩
    rw [modeCheck_model s baRecData hact h1 hidx, if_pos hacc]
    obtain ⟨htimer, haction, hnew⟩ :=
      versionFound_effects { s with baRecBuf := s.baRecBuf ++ baRecData }
        (SerialRead.strFirmwareVersion (s.baRecBuf ++ baRecData)) hmode
    refine ⟨_, rfl, ?_, htimer, hnew, fun _ => rfl, fun h => absurd h h1⟩
    rcases haction with h | h
    · rw [h]
      show s.nAction ≠ _
      rw [hact]
      decide
    · rw [h]
      decide

/-- C11 (amended) at the query window, the not-found marker before the model
marker, and at the update window, the not-found marker behind the version. -/
theorem C11_model_marker_beats_not_found_witness :
    (∃ t : MainWindow,
      SerialRead queryWindow (bytesOf "not found\r\n" ++ versionReply) = some t
      ∧ t.nAction ≠ ActionModeTypeUserApplication
      ∧ t.tmrBootloaderEntranceTimer = queryWindow.tmrBootloaderEntranceTimer
      ∧ (∃ new, t.spSerialPort.written = queryWindow.spSerialPort.written ++ new
          ∧ baZephyrEnterBootloader ∉ new)
      ∧ ((queryWindow.baRecBuf ++ (bytesOf "not found\r\n" ++ versionReply)).take 2
              ≠ [0x66, 0x04] →
          t = SerialRead.versionFound
              { queryWindow with
                baRecBuf := queryWindow.baRecBuf ++ (bytesOf "not found\r\n" ++ versionReply) }
              (SerialRead.strFirmwareVersion
                (queryWindow.baRecBuf ++ (bytesOf "not found\r\n" ++ versionReply))))
      ∧ ((queryWindow.baRecBuf ++ (bytesOf "not found\r\n" ++ versionReply)).take 2
              = [0x66, 0x04] →
          t.nAction = ActionModeTypeBootloaderUnbridged))
    ∧ (∃ t : MainWindow,
      SerialRead checkWindow (versionReply ++ bytesOf "\nnot found") = some t
      ∧ t.nAction ≠ ActionModeTypeUserApplication
      ∧ t.tmrBootloaderEntranceTimer = checkWindow.tmrBootloaderEntranceTimer
      ∧ (∃ new, t.spSerialPort.written = checkWindow.spSerialPort.written ++ new
          ∧ baZephyrEnterBootloader ∉ new)
      ∧ ((checkWindow.baRecBuf ++ (versionReply ++ bytesOf "\nnot found")).take 2
              ≠ [0x66, 0x04] →
          t = SerialRead.versionFound
              { checkWindow with
                baRecBuf := checkWindow.baRecBuf ++ (versionReply ++ bytesOf "\nnot found") }
              (SerialRead.strFirmwareVersion
                (checkWindow.baRecBuf ++ (versionReply ++ bytesOf "\nnot found"))))
      ∧ ((checkWindow.baRecBuf ++ (versionReply ++ bytesOf "\nnot found")).take 2
              = [0x66, 0x04] →
          t.nAction = ActionModeTypeBootloaderUnbridged)) :=
  ⟨C11_model_marker_beats_not_found queryWindow (bytesOf "not found\r\n" ++ versionReply)
      (Or.inr rfl) rfl
      ((indexOf_found_iff _ _).mp (by decide)) ((indexOf_found_iff _ _).mp (by decide))
      (by decide) (by decide),
    C11_model_marker_beats_not_found checkWindow (versionReply ++ bytesOf "\nnot found")
      (Or.inl rfl) rfl
      ((indexOf_found_iff _ _).mp (by decide)) ((indexOf_found_iff _ _).mp (by decide))
      (by decide) (by decide)⟩

/-! ## The mode of the session -/
theorem onAck_keeps_mode (s t : MainWindow) (h : SerialRead.onAck s = some t) :
    t.nAppMode = s.nAppMode := by
  unfold SerialRead.onAck at h
  simp only at h
  split_ifs at h
  all_goals first
    | (injection h with h; rw [← h])
    | (split at h
       · exact absurd h (by simp)
       · split at h
         · exact absurd h (by simp)
         · injection h with h; rw [← h])

theorem onNack_keeps_mode (s t : MainWindow) (h : SerialRead.onNack s = some t) :
    t.nAppMode = s.nAppMode := by
  unfold SerialRead.onNack at h
  simp only at h
  split_ifs at h
  all_goals first
    | (injection h with h; rw [← h])
    | (split at h
       · exact absurd h (by simp)
       · split at h
         · exact absurd h (by simp)
         · injection h with h; rw [← h])

theorem firmwareUpdate_keeps_mode (s t : MainWindow) (baRecData : List Nat)
    (h : SerialRead.firmwareUpdate s baRecData = some t) : t.nAppMode = s.nAppMode := by
  unfold SerialRead.firmwareUpdate at h
  split_ifs at h
  · cases baRecData with
    | nil => exact absurd h (by simp)
    | cons c rest =>
      simp only at h
      split_ifs at h
      · exact onAck_keeps_mode s t h
      · exact onNack_keeps_mode s t h
      · injection h with h; rw [← h]
  · injection h with h; rw [← h]
  · injection h with h; rw [← h]

/-- The mode after the handling of an accepted version. -/
theorem versionFound_mode (s : MainWindow) (version : List Nat) :
    (SerialRead.versionFound s version).nAppMode
      = if s.nAppMode ≠ ApplicationModeTypeQuery
            ∧ (QString.indexOf s.edit_File (version ++ qstr "_to") ≠ -1
              ∨ s.questionAnswer = true)
        then ApplicationModeTypeFirmwareUpdate else s.nAppMode := by
  unfold SerialRead.versionFound
  by_cases hq : s.nAppMode = ApplicationModeTypeQuery
  · simp [hq, SetInputsEnabled]
  · by_cases hidx : QString.indexOf s.edit_File (version ++ qstr "_to") = -1
    · cases hans : s.questionAnswer with
      | false => simp [hq, hidx, hans, SetInputsEnabled]
      | true =>
        cases hfile : s.firmwareOnDisk <;> simp [hq, hidx, hans, hfile, SetInputsEnabled]
    · cases hfile : s.firmwareOnDisk <;> simp [hq, hidx, hfile, SetInputsEnabled]

/-- The mode check branch keeps the mode, except where it hands an accepted
version on. -/
theorem modeCheck_mode (s t : MainWindow) (baRecData : List Nat)
    (h : SerialRead.modeCheck s baRecData = some t) :
    t.nAppMode = s.nAppMode
    ∨ (s.nAction = ActionModeTypeModem
      ∧ (s.baRecBuf ++ baRecData).take 2 ≠ [0x66, 0x04]
      ∧ QByteArray.indexOf (s.baRecBuf ++ baRecData) baModemModel 0 ≠ -1
      ∧ 14 ≤ (s.baRecBuf ++ baRecData).length
      ∧ 7 ≤ (SerialRead.strFirmwareVersion (s.baRecBuf ++ baRecData)).length
      ∧ t = SerialRead.versionFound { s with baRecBuf := s.baRecBuf ++ baRecData }
          (SerialRead.strFirmwareVersion (s.baRecBuf ++ baRecData))) := by
  by_cases hact : s.nAction = ActionModeTypeModem
  · by_cases h1 : (s.baRecBuf ++ baRecData).take 2 = [0x66, 0x04]
    · obtain ⟨tail, htail⟩ := (take_two_iff _).mp h1
      rw [modeCheck_bootloader s baRecData tail hact htail] at h
      injection h with h
      left; rw [← h]
    · by_cases hidx : QByteArray.indexOf (s.baRecBuf ++ baRecData) baModemModel 0 ≠ -1
      · rw [modeCheck_model s baRecData hact h1 hidx] at h
        split_ifs at h with hacc
        · injection h with h
          right
          exact ⟨hact, h1, hidx, hacc.1, hacc.2, h.symm⟩
        · injection h with h
          left; rw [← h]
      · have hr1 := (not_congr ((rule1_iff (s.baRecBuf ++ baRecData)).trans
          (take_two_iff (s.baRecBuf ++ baRecData)).symm)).mpr h1
        simp only [SerialRead.modeCheck, hact, if_true, hr1, if_false, hidx] at h
        split_ifs at h
        all_goals (injection h with h; left; rw [← h])
  · unfold SerialRead.modeCheck at h
    simp only [hact, if_false] at h
    split_ifs at h
    all_goals (injection h with h; left; rw [← h])

/-- The mode check branch is defined on every chunk. -/
theorem modeCheck_total (s : MainWindow) (baRecData : List Nat) :
    ∃ t, SerialRead.modeCheck s baRecData = some t := by
  unfold SerialRead.modeCheck
  simp only
  split_ifs <;> exact ⟨_, rfl⟩


/-- C20, counterexample: a session started in the mode check leaves it. The
version reply is accepted, the user confirms, and the chunk's handling sets the
mode to the firmware update. -/
theorem C20_counterexample_mode_changes :
    checkWindow.nAppMode = ApplicationModeTypeFirmwareUpdateModeCheck
    ∧ (SerialRead checkWindow versionReply).map (fun t => t.nAppMode)
        = some ApplicationModeTypeFirmwareUpdate
    ∧ ApplicationModeTypeFirmwareUpdate ≠ ApplicationModeTypeFirmwareUpdateModeCheck := by
  decide

/-- C20, amended: the mode changes at one place only. A received chunk changes
it to the firmware update exactly when the session is in the mode check with the
modem answering, the buffer does not begin with the bootloader's error pair, and
it holds an accepted version (the model marker, 14 bytes, a version of 7
characters) that the file name carries or the user confirms; every other chunk
the handler is defined on, every write completion and every poller tick leave
the mode as it was. Outside the firmware update the handler is defined on every
chunk. -/
theorem C20_mode_changes_only_at_update_start (s : MainWindow) (baRecData : List Nat)
    (intByteCount : Nat) :
    (∀ t, SerialRead s baRecData = some t →
      t.nAppMode =
        if s.nAppMode = ApplicationModeTypeFirmwareUpdateModeCheck
            ∧ s.nAction = ActionModeTypeModem
            ∧ (s.baRecBuf ++ baRecData).take 2 ≠ [0x66, 0x04]
            ∧ QByteArray.indexOf (s.baRecBuf ++ baRecData) baModemModel 0 ≠ -1
            ∧ 14 ≤ (s.baRecBuf ++ baRecData).length
            ∧ 7 ≤ (SerialRead.strFirmwareVersion (s.baRecBuf ++ baRecData)).length
            ∧ (QString.indexOf s.edit_File
                  (SerialRead.strFirmwareVersion (s.baRecBuf ++ baRecData) ++ qstr "_to") ≠ -1
                ∨ s.questionAnswer = true)
        then ApplicationModeTypeFirmwareUpdate else s.nAppMode)
    ∧ (s.nAppMode ≠ ApplicationModeTypeFirmwareUpdate →
        ∃ t, SerialRead s baRecData = some t)
    ∧ (SerialBytesWritten s intByteCount).nAppMode = s.nAppMode
    ∧ (BootloaderEntranceTimerTimeout s).nAppMode = s.nAppMode := by
  refine ⟨?_, ?_, ?_, ?_⟩
  · intro t h
    by_cases hfu : s.nAppMode = ApplicationModeTypeFirmwareUpdate
    · have hne : s.nAppMode ≠ ApplicationModeTypeFirmwareUpdateModeCheck := by
        rw [hfu]; decide
      rw [if_neg (fun hE => hne hE.1)]
      simp only [SerialRead, hfu, if_true] at h
      exact firmwareUpdate_keeps_mode s t baRecData h
    · by_cases hmq : s.nAppMode = ApplicationModeTypeFirmwareUpdateModeCheck
          ∨ s.nAppMode = ApplicationModeTypeQuery
      · simp only [SerialRead, hfu, if_false, hmq, if_true] at h
        rcases modeCheck_mode s t baRecData h with hkeep | ⟨hact, h1, hidx, hlen, hver, ht⟩
        · rw [hkeep]
          by_cases hE : s.nAppMode = ApplicationModeTypeFirmwareUpdateModeCheck
              ∧ s.nAction = ActionModeTypeModem
              ∧ (s.baRecBuf ++ baRecData).take 2 ≠ [0x66, 0x04]
              ∧ QByteArray.indexOf (s.baRecBuf ++ baRecData) baModemModel 0 ≠ -1
              ∧ 14 ≤ (s.baRecBuf ++ baRecData).length
              ∧ 7 ≤ (SerialRead.strFirmwareVersion (s.baRecBuf ++ baRecData)).length
              ∧ (QString.indexOf s.edit_File
                    (SerialRead.strFirmwareVersion (s.baRecBuf ++ baRecData) ++ qstr "_to") ≠ -1
                  ∨ s.questionAnswer = true)
          · -- the accepted version was handed on, so the mode did change
            exfalso
            obtain ⟨hm, hact, h1, hidx, hlen, hver, hgo⟩ := hE
            have hstep := modeCheck_model s baRecData hact h1 hidx
            rw [if_pos ⟨hlen, hver⟩] at hstep
            rw [hstep] at h
            injection h with h
            have hmode := versionFound_mode { s with baRecBuf := s.baRecBuf ++ baRecData }
              (SerialRead.strFirmwareVersion (s.baRecBuf ++ baRecData))
            have hnq : s.nAppMode ≠ ApplicationModeTypeQuery := by
              rw [hm]; decide
            rw [if_pos ⟨hnq, hgo⟩, h, hkeep, hm] at hmode
            exact absurd hmode (by decide)
          · rw [if_neg hE]
        · rw [ht, versionFound_mode]
          by_cases hm : s.nAppMode = ApplicationModeTypeFirmwareUpdateModeCheck
          · have hnq : s.nAppMode ≠ ApplicationModeTypeQuery := by
              rw [hm]; decide
            by_cases hgo : QString.indexOf s.edit_File
                  (SerialRead.strFirmwareVersion (s.baRecBuf ++ baRecData) ++ qstr "_to") ≠ -1
                ∨ s.questionAnswer = true
            · rw [if_pos ⟨hnq, hgo⟩, if_pos ⟨hm, hact, h1, hidx, hlen, hver, hgo⟩]
            · rw [if_neg (fun hc => hgo hc.2),
                if_neg (fun hc => hgo hc.2.2.2.2.2.2)]
          · have hq : s.nAppMode = ApplicationModeTypeQuery := hmq.resolve_left hm
            rw [if_neg (fun hc => hc.1 hq), if_neg (fun hc => hm hc.1)]
      · simp only [SerialRead, hfu, if_false, hmq] at h
        injection h with h
        rw [← h, if_neg (fun hc => hmq (Or.inl hc.1))]
  · intro hfu
    by_cases hmq : s.nAppMode = ApplicationModeTypeFirmwareUpdateModeCheck
        ∨ s.nAppMode = ApplicationModeTypeQuery
    · simp only [SerialRead, hfu, if_false, hmq, if_true]
      exact modeCheck_total s baRecData
    · simp only [SerialRead, hfu, if_false, hmq]
      exact ⟨_, rfl⟩
  · unfold SerialBytesWritten
    simp only
    split_ifs <;> simp [SetInputsEnabled]
  · unfold BootloaderEntranceTimerTimeout
    simp only
    split_ifs <;> simp [SetInputsEnabled]

/-! ## The poller finds clear-to-send asserted -/

/-- C22: for every value of the check counter, a timeout of the poller that
finds clear-to-send asserted stops the timer, sets the action to
BootloaderUnbridged and writes exactly one byte array, the unlock command
70 0F 51 2A 51; no message is shown, the check counter and every other
member stay as they were. -/
theorem C22_signal_asserted_unlocks (s : MainWindow)
    (hcts : s.spSerialPort.clearToSend = true) :
    BootloaderEntranceTimerTimeout s = { s with
      tmrBootloaderEntranceTimer := false
      nAction := ActionModeTypeBootloaderUnbridged
      spSerialPort := { s.spSerialPort with
        written := s.spSerialPort.written ++ [[0x70, 0x0f, 0x51, 0x2a, 0x51]] } }
    ∧ (BootloaderEntranceTimerTimeout s).pmErrorForm = s.pmErrorForm
    ∧ (BootloaderEntranceTimerTimeout s).nBootloaderTimerChecks = s.nBootloaderTimerChecks := by
  have h : BootloaderEntranceTimerTimeout s = { s with
      tmrBootloaderEntranceTimer := false
      nAction := ActionModeTypeBootloaderUnbridged
      spSerialPort := { s.spSerialPort with
        written := s.spSerialPort.written ++ [[0x70, 0x0f, 0x51, 0x2a, 0x51]] } } := by
    simp only [BootloaderEntranceTimerTimeout, hcts, if_true, QSerialPort.write]
    rfl
  rw [h]
  exact ⟨rfl, rfl, rfl⟩

/-- C22 at a poller that has counted three timeouts. -/
theorem C22_signal_asserted_unlocks_witness :
    BootloaderEntranceTimerTimeout pollerSignalled = { pollerSignalled with
      tmrBootloaderEntranceTimer := false
      nAction := ActionModeTypeBootloaderUnbridged
      spSerialPort := { pollerSignalled.spSerialPort with
        written := pollerSignalled.spSerialPort.written ++ [[0x70, 0x0f, 0x51, 0x2a, 0x51]] } }
    ∧ (BootloaderEntranceTimerTimeout pollerSignalled).pmErrorForm = pollerSignalled.pmErrorForm
    ∧ (BootloaderEntranceTimerTimeout pollerSignalled).nBootloaderTimerChecks
        = pollerSignalled.nBootloaderTimerChecks :=
  C22_signal_asserted_unlocks pollerSignalled rfl

/-! ## The bridged bootloader -/

/-- C26: in action BootloaderBridged (mode check or query) the received bytes
are appended to the buffer; when the buffer then holds more than 3 bytes it
is cleared, exactly `ATI3` CR is written and the action becomes Modem; when
it holds 3 bytes or fewer nothing is written, the action stays and the
buffer keeps every byte received so far. -/
theorem C26_bridged_wakeup (s : MainWindow) (baRecData : List Nat)
    (hmode : s.nAppMode = ApplicationModeTypeFirmwareUpdateModeCheck
      ∨ s.nAppMode = ApplicationModeTypeQuery)
    (hact : s.nAction = ActionModeTypeBootloaderBridged) :
    SerialRead s baRecData
      = some (if 3 < (s.baRecBuf ++ baRecData).length then
          { s with
            baRecBuf := []
            nAction := ActionModeTypeModem
            spSerialPort := { s.spSerialPort with
              written := s.spSerialPort.written ++ [bytesOf "ATI3\r"] } }
        else { s with baRecBuf := s.baRecBuf ++ baRecData }) := by
  have hq : baVersionQueryCommand ++ baCR = bytesOf "ATI3\r" := by decide
  rw [SerialRead_modeCheck s baRecData hmode]
  simp only [SerialRead.modeCheck, hact, MODEM_WAKEUP_RESPONSE_MINIMUM_SIZE, QSerialPort.write,
    hq]
  split_ifs <;> first | rfl | contradiction

/-- C26 at the bridged window: three bytes are kept, the fourth makes the
handler ask for the version. -/
theorem C26_bridged_wakeup_witness :
    SerialRead bridgedWindow [0x4f, 0x4b, 0x0d]
      = some (if 3 < (bridgedWindow.baRecBuf ++ [0x4f, 0x4b, 0x0d]).length then
          { bridgedWindow with
            baRecBuf := []
            nAction := ActionModeTypeModem
            spSerialPort := { bridgedWindow.spSerialPort with
              written := bridgedWindow.spSerialPort.written ++ [bytesOf "ATI3\r"] } }
        else { bridgedWindow with baRecBuf := bridgedWindow.baRecBuf ++ [0x4f, 0x4b, 0x0d] })
    ∧ ¬ 3 < (bridgedWindow.baRecBuf ++ [0x4f, 0x4b, 0x0d]).length
    ∧ SerialRead { bridgedWindow with baRecBuf := [0x4f, 0x4b, 0x0d] } [0x0a]
      = some (if 3 < ([0x4f, 0x4b, 0x0d] ++ [0x0a]).length then
          { bridgedWindow with
            baRecBuf := []
            nAction := ActionModeTypeModem
            spSerialPort := { bridgedWindow.spSerialPort with
              written := bridgedWindow.spSerialPort.written ++ [bytesOf "ATI3\r"] } }
        else { bridgedWindow with baRecBuf := [0x4f, 0x4b, 0x0d] ++ [0x0a] })
    ∧ 3 < ([0x4f, 0x4b, 0x0d] ++ [0x0a]).length :=
  ⟨C26_bridged_wakeup bridgedWindow [0x4f, 0x4b, 0x0d] (Or.inr rfl) rfl, by decide,
    C26_bridged_wakeup { bridgedWindow with baRecBuf := [0x4f, 0x4b, 0x0d] } [0x0a]
      (Or.inr rfl) rfl, by decide⟩

/-! ## Rule 4 and the buffer that cannot be classified yet -/

/-- The mode detector in action Modem once rules 1, 2 and 3 have not applied:
rule 4 on the accumulated buffer, else nothing but keeping the bytes. -/
theorem modeCheck_rule_four (s : MainWindow) (baRecData : List Nat)
    (hact : s.nAction = ActionModeTypeModem)
    (hno1 : (s.baRecBuf ++ baRecData).take 2 ≠ [0x66, 0x04])
    (hno2 : ¬ baModemModel <:+: s.baRecBuf ++ baRecData)
    (hno3 : ¬ baModemError <:+: s.baRecBuf ++ baRecData) :
    SerialRead.modeCheck s baRecData
      = some (if baNotFoundError <:+: s.baRecBuf ++ baRecData
            ∨ 30 < (s.baRecBuf ++ baRecData).length then
          { s with
            baRecBuf := []
            spSerialPort := s.spSerialPort.write baZephyrEnterBootloader
            nAction := ActionModeTypeUserApplication
            nBootloaderTimerChecks := 0
            tmrBootloaderEntranceTimer := true
            tmrBootloaderEntranceTimerInterval := BOOTLOADER_ENTER_TIMER_CHECK_MS }
        else { s with baRecBuf := s.baRecBuf ++ baRecData }) := by
  have h1 := (not_congr ((rule1_iff (s.baRecBuf ++ baRecData)).trans
    (take_two_iff (s.baRecBuf ++ baRecData)).symm)).mpr hno1
  have h2 : ¬ QByteArray.indexOf (s.baRecBuf ++ baRecData) baModemModel 0 ≠ -1 :=
    fun h => hno2 ((indexOf_found_iff _ _).mp h)
  have h3 : ¬ QByteArray.indexOf (s.baRecBuf ++ baRecData) baModemError 0 ≠ -1 :=
    fun h => hno3 ((indexOf_found_iff _ _).mp h)
  simp only [SerialRead.modeCheck, hact, if_true, h1, if_false, h2, h3,
    ZEPHYR_APPLICATION_TRIGGER_DATA_SIZE, indexOf_found_iff]
  split_ifs <;> rfl

/-- C25: in action Modem (mode check or query), for every accumulated buffer
that does not begin with `f`, 0x04 and holds neither the model marker nor
the error marker, rule 4 fires exactly when the buffer holds `not found` or
is longer than 30 bytes. When it fires the buffer is cleared, exactly the
trigger `mg100 bootloader` CR LF `oob bootloader` CR LF is written, the action
becomes UserApplication, the check counter is set to 0 and the poller timer
is started with an interval of 1500 ms; otherwise the bytes are only kept. -/
theorem C25_rule_four_fires (s : MainWindow) (baRecData : List Nat)
    (hmode : s.nAppMode = ApplicationModeTypeFirmwareUpdateModeCheck
      ∨ s.nAppMode = ApplicationModeTypeQuery)
    (hact : s.nAction = ActionModeTypeModem)
    (hno1 : (s.baRecBuf ++ baRecData).take 2 ≠ [0x66, 0x04])
    (hno2 : ¬ baModemModel <:+: s.baRecBuf ++ baRecData)
    (hno3 : ¬ baModemError <:+: s.baRecBuf ++ baRecData) :
    SerialRead s baRecData
      = some (if baNotFoundError <:+: s.baRecBuf ++ baRecData
            ∨ 30 < (s.baRecBuf ++ baRecData).length then
          { s with
            baRecBuf := []
            spSerialPort := { s.spSerialPort with
              written := s.spSerialPort.written
                ++ [bytesOf "mg100 bootloader\r\noob bootloader\r\n"] }
            nAction := ActionModeTypeUserApplication
            nBootloaderTimerChecks := 0
            tmrBootloaderEntranceTimer := true
            tmrBootloaderEntranceTimerInterval := 1500 }
        else { s with baRecBuf := s.baRecBuf ++ baRecData }) := by
  rw [SerialRead_modeCheck s baRecData hmode, modeCheck_rule_four s baRecData hact hno1 hno2 hno3]
  rfl

/-- C25 at the update window: 30 bytes of console output are kept, the 31st
byte makes rule 4 fire; at the query window the eleven bytes `not found` CR
LF make it fire. -/
theorem C25_rule_four_fires_witness :
    SerialRead checkWindow (List.replicate 30 0x2e)
      = some { checkWindow with baRecBuf := List.replicate 30 0x2e }
    ∧ SerialRead { checkWindow with baRecBuf := List.replicate 30 0x2e } [0x2e]
      = some { checkWindow with
          baRecBuf := []
          spSerialPort := { checkWindow.spSerialPort with
            written := checkWindow.spSerialPort.written
              ++ [bytesOf "mg100 bootloader\r\noob bootloader\r\n"] }
          nAction := ActionModeTypeUserApplication
          nBootloaderTimerChecks := 0
          tmrBootloaderEntranceTimer := true
          tmrBootloaderEntranceTimerInterval := 1500 }
    ∧ SerialRead queryWindow (bytesOf "not found\r\n")
      = some { queryWindow with
          baRecBuf := []
          spSerialPort := { queryWindow.spSerialPort with
            written := queryWindow.spSerialPort.written
              ++ [bytesOf "mg100 bootloader\r\noob bootloader\r\n"] }
          nAction := ActionModeTypeUserApplication
          nBootloaderTimerChecks := 0
          tmrBootloaderEntranceTimer := true
          tmrBootloaderEntranceTimerInterval := 1500 } := by
  refine ⟨?_, ?_, ?_⟩
  · rw [C25_rule_four_fires checkWindow (List.replicate 30 0x2e) (Or.inl rfl) rfl (by decide)
      (fun h => absurd ((indexOf_found_iff _ _).mpr h) (by decide))
      (fun h => absurd ((indexOf_found_iff _ _).mpr h) (by decide)),
      if_neg (by
        rintro (h | h)
        · exact absurd ((indexOf_found_iff _ _).mpr h) (by decide)
        · exact absurd h (by decide))]
    rfl
  · rw [C25_rule_four_fires { checkWindow with baRecBuf := List.replicate 30 0x2e } [0x2e]
      (Or.inl rfl) rfl (by decide)
      (fun h => absurd ((indexOf_found_iff _ _).mpr h) (by decide))
      (fun h => absurd ((indexOf_found_iff _ _).mpr h) (by decide)),
      if_pos (Or.inr (by decide))]
  · rw [C25_rule_four_fires queryWindow (bytesOf "not found\r\n") (Or.inr rfl) rfl (by decide)
      (fun h => absurd ((indexOf_found_iff _ _).mpr h) (by decide))
      (fun h => absurd ((indexOf_found_iff _ _).mpr h) (by decide)),
      if_pos (Or.inl ((indexOf_found_iff _ _).mp (by decide)))]

/-- C27 (as stated, refuted): in query mode the eight-byte buffer `f`, 0x04,
`HL7800` holds the model marker and is shorter than 14 bytes, yet the event
acts: rule 1 takes it, the unlock command is written and the action becomes
BootloaderUnbridged. -/
theorem C27_counterexample_short_model_buffer :
    (0x66 :: 0x04 :: baModemModel).length = 8
    ∧ QByteArray.indexOf (0x66 :: 0x04 :: baModemModel) baModemModel 0 ≠ -1
    ∧ (SerialRead queryWindow (0x66 :: 0x04 :: baModemModel)).map
        (fun t => (t.nAction, t.spSerialPort.written, t.baRecBuf))
      = some (ActionModeTypeBootloaderUnbridged,
          [bytesOf "ATI3\r", [0x70, 0x0f, 0x51, 0x2a, 0x51]], 0x66 :: 0x04 :: baModemModel) := by
  decide

/-- C27 (amended): in action Modem (mode check or query), when the accumulated
buffer does not begin with `f`, 0x04 and either holds the model marker but
is shorter than 14 bytes or yields a version shorter than 7 characters
(whatever else it holds, rules 3 and 4 are not tried), or holds none of the
model marker, the error marker and `not found` and is not longer than 30
bytes, the event only appends the received bytes to the buffer: nothing is
written, no message is shown, the action stays Modem and every other member
is unchanged. -/
theorem C27_insufficient_buffer_waits (s : MainWindow) (baRecData : List Nat)
    (hmode : s.nAppMode = ApplicationModeTypeFirmwareUpdateModeCheck
      ∨ s.nAppMode = ApplicationModeTypeQuery)
    (hact : s.nAction = ActionModeTypeModem)
    (hno1 : (s.baRecBuf ++ baRecData).take 2 ≠ [0x66, 0x04])
    (hins : (baModemModel <:+: s.baRecBuf ++ baRecData
        ∧ ((s.baRecBuf ++ baRecData).length < 14
          ∨ (SerialRead.strFirmwareVersion (s.baRecBuf ++ baRecData)).length < 7))
      ∨ (¬ baModemModel <:+: s.baRecBuf ++ baRecData
        ∧ ¬ baModemError <:+: s.baRecBuf ++ baRecData
        ∧ ¬ baNotFoundError <:+: s.baRecBuf ++ baRecData
        ∧ (s.baRecBuf ++ baRecData).length ≤ 30)) :
    SerialRead s baRecData = some { s with baRecBuf := s.baRecBuf ++ baRecData }
    ∧ ∀ t, SerialRead s baRecData = some t →
        t.spSerialPort.written = s.spSerialPort.written
        ∧ t.pmErrorForm = s.pmErrorForm
        ∧ t.nAction = ActionModeTypeModem
        ∧ t.baRecBuf = s.baRecBuf ++ baRecData := by
  have hstep : SerialRead s baRecData = some { s with baRecBuf := s.baRecBuf ++ baRecData } := by
    rw [SerialRead_modeCheck s baRecData hmode]
    rcases hins with ⟨hmodel, hshort⟩ | ⟨hno2, hno3, hno4, hlen⟩
    · rw [modeCheck_model s baRecData hact hno1 ((indexOf_found_iff _ _).mpr hmodel),
        if_neg (by
          unfold MODEM_VERSION_MODEL_MINIMUM_SIZE MODEM_VERSION_MINIMUM_SIZE
          omega)]
    · rw [modeCheck_rule_four s baRecData hact hno1 hno2 hno3,
        if_neg (by
          rintro (h | h)
          · exact hno4 h
          · omega)]
  refine ⟨hstep, ?_⟩
  intro t ht
  rw [hstep] at ht
  injection ht with ht
  rw [← ht]
  exact ⟨rfl, rfl, hact, rfl⟩

/-- C27 (amended) at the query window: a buffer with the model marker, a
version of two characters, the error marker and `not found`, longer than 30
bytes, is only kept; so are three bytes that match no rule. -/
theorem C27_insufficient_buffer_waits_witness :
    (SerialRead queryWindow (bytesOf "HL7800.12\r\nERROR\r\nnot found, not found")
      = some { queryWindow with
          baRecBuf := queryWindow.baRecBuf
            ++ bytesOf "HL7800.12\r\nERROR\r\nnot found, not found" }
      ∧ ∀ t, SerialRead queryWindow (bytesOf "HL7800.12\r\nERROR\r\nnot found, not found")
          = some t →
        t.spSerialPort.written = queryWindow.spSerialPort.written
        ∧ t.pmErrorForm = queryWindow.pmErrorForm
        ∧ t.nAction = ActionModeTypeModem
        ∧ t.baRecBuf = queryWindow.baRecBuf
            ++ bytesOf "HL7800.12\r\nERROR\r\nnot found, not found")
    ∧ (SerialRead queryWindow [0x4f, 0x4b, 0x0d]
      = some { queryWindow with baRecBuf := queryWindow.baRecBuf ++ [0x4f, 0x4b, 0x0d] }
      ∧ ∀ t, SerialRead queryWindow [0x4f, 0x4b, 0x0d] = some t →
        t.spSerialPort.written = queryWindow.spSerialPort.written
        ∧ t.pmErrorForm = queryWindow.pmErrorForm
        ∧ t.nAction = ActionModeTypeModem
        ∧ t.baRecBuf = queryWindow.baRecBuf ++ [0x4f, 0x4b, 0x0d]) :=
  ⟨C27_insufficient_buffer_waits queryWindow
      (bytesOf "HL7800.12\r\nERROR\r\nnot found, not found") (Or.inr rfl) rfl (by decide)
      (Or.inl ⟨(indexOf_found_iff _ _).mp (by decide), Or.inr (by decide)⟩),
    C27_insufficient_buffer_waits queryWindow [0x4f, 0x4b, 0x0d] (Or.inr rfl) rfl (by decide)
      (Or.inr ⟨fun h => absurd ((indexOf_found_iff _ _).mpr h) (by decide),
        fun h => absurd ((indexOf_found_iff _ _).mpr h) (by decide),
        fun h => absurd ((indexOf_found_iff _ _).mpr h) (by decide), by decide⟩)⟩

/-! ## Only the first byte of a chunk counts -/

/-- C30: in firmware update mode, action WaitForNack or SendData, the result
of handling a non-empty chunk is fixed by its first byte: it is the ACK
branch for 0x06, the NACK branch for 0x15 and the unchanged window for any
other byte, whatever follows the first byte. So two chunks with the same
first byte give the same window (the same writes, the same members), and a
chunk that starts with neither ACK nor NACK writes nothing and changes no
member, even if it holds an ACK or a NACK further on. -/
theorem C30_first_byte_decides (s : MainWindow) (c : Nat) (rest other : List Nat)
    (hmode : s.nAppMode = ApplicationModeTypeFirmwareUpdate)
    (hact : s.nAction = ActionModeTypeXModemWaitForNack
      ∨ s.nAction = ActionModeTypeXModemSendData) :
    SerialRead s (c :: rest)
      = (if c = 0x06 then SerialRead.onAck s
        else if c = 0x15 then SerialRead.onNack s
        else some s)
    ∧ SerialRead s (c :: rest) = SerialRead s (c :: other)
    ∧ (c ≠ 0x06 → c ≠ 0x15 → SerialRead s (c :: rest) = some s) := by
  have h : ∀ r : List Nat, SerialRead s (c :: r)
      = (if c = 0x06 then SerialRead.onAck s
        else if c = 0x15 then SerialRead.onNack s
        else some s) := by
    intro r
    rw [SerialRead_firmwareUpdate s _ hmode]
    simp only [SerialRead.firmwareUpdate, hact, if_true, XModemPacketTypeAck,
      XModemPacketTypeNack]
  refine ⟨h rest, by rw [h rest, h other], ?_⟩
  intro hack hnack
  rw [h rest, if_neg hack, if_neg hnack]

/-- C30 at the window sending the three-byte file: a chunk that starts with
`C` and goes on with an ACK and a NACK changes nothing. -/
theorem C30_first_byte_decides_witness :
    SerialRead sendingThreeBytes (0x43 :: [0x06, 0x15])
      = (if 0x43 = 0x06 then SerialRead.onAck sendingThreeBytes
        else if 0x43 = 0x15 then SerialRead.onNack sendingThreeBytes
        else some sendingThreeBytes)
    ∧ SerialRead sendingThreeBytes (0x43 :: [0x06, 0x15]) = SerialRead sendingThreeBytes (0x43 :: [])
    ∧ (0x43 ≠ 0x06 → 0x43 ≠ 0x15 →
        SerialRead sendingThreeBytes (0x43 :: [0x06, 0x15]) = some sendingThreeBytes) :=
  C30_first_byte_decides sendingThreeBytes 0x43 [0x06, 0x15] [] rfl (Or.inr rfl)

/-! ## The counters after a data frame -/

/-- C23 (as stated, refuted): at offset 4294966272 of the file of 4294967296
bytes an ACK in SendData reads a block and writes a frame of 1028 bytes,
and the file offset is then 0, not 4294966272 + 1024. -/
theorem C23_counterexample_offset_wraps :
    lastBlockWindow.nAction = ActionModeTypeXModemSendData
    ∧ lastBlockWindow.nCFilePos = 4294966272
    ∧ lastBlockWindow.nCFilePos < lastBlockWindow.fpFirmwareFile.content.length
    ∧ (SerialRead lastBlockWindow [XModemPacketTypeAck]).map
        (fun t => (t.spSerialPort.written.map List.length, t.nCFilePos))
      = some ([1028], 0) := by
  have hlen : lastBlockWindow.fpFirmwareFile.content.length = 4294967296 := hugeFile_length
  have hoff : lastBlockWindow.nCFilePos = 4294966272 := rfl
  refine ⟨rfl, hoff, ?_, ?_⟩
  · rw [hlen, hoff]; decide
  · generalize hP : (lastBlockWindow.fpFirmwareFile.content.drop lastBlockWindow.nCFilePos).take
      1024 = P
    have hPlen : P.length = 1024 := by
      rw [← hP, List.length_take, List.length_drop, hlen, hoff]
      decide
    have hne : P ≠ [] := by
      intro h; rw [h] at hPlen; simp at hPlen
    obtain ⟨t, ht, -, -, -, -, -, hf, -, hb, hw⟩ := onAck_data_fields lastBlockWindow P rfl hP hne
    have hframe : t.baLastPacket.length = 1028 := by
      rw [hb]
      exact (frame_parts _ _ _ _ _ (padded_length P (by omega))).1
    have hwritten : lastBlockWindow.spSerialPort.written = [] := rfl
    have hwrap : (4294966272 + 1024) % 4294967296 = 0 := by decide
    rw [SerialRead_ack lastBlockWindow [] rfl (Or.inr rfl), ht]
    show some (t.spSerialPort.written.map List.length, t.nCFilePos) = some ([1028], 0)
    rw [hw, hf, hoff, hwritten, hwrap, List.nil_append, List.map_cons, List.map_nil, hframe]

/-- C23 (amended): an ACK handled in SendData (firmware update mode, file open)
with a byte of the file at the offset writes exactly one frame, whose header
carries the packet counter of before the event and its inverse; afterwards
the packet counter is the old one plus 1 modulo 256, so 255 is followed by
0, and the file offset is the old one plus 1024 modulo 4294967296, which is
the old one plus 1024 whenever that sum is below 4294967296. -/
theorem C23_counters_after_data_frame (s : MainWindow) (rest : List Nat)
    (hmode : s.nAppMode = ApplicationModeTypeFirmwareUpdate)
    (hact : s.nAction = ActionModeTypeXModemSendData)
    (hopen : s.fpFirmwareFile.isOpen = true)
    (hpos : s.nCFilePos < s.fpFirmwareFile.content.length) :
    ∃ (t : MainWindow) (frame : List Nat),
      SerialRead s (XModemPacketTypeAck :: rest) = some t
      ∧ t.spSerialPort.written = s.spSerialPort.written ++ [frame]
      ∧ frame.length = 1028
      ∧ frame.take 3 = [0x02, s.nCPacket, 0xff - s.nCPacket]
      ∧ t.nCPacket = (s.nCPacket + 1) % 256
      ∧ (s.nCPacket = 255 → t.nCPacket = 0)
      ∧ t.nCFilePos = (s.nCFilePos + 1024) % 4294967296
      ∧ (s.nCFilePos + 1024 < 4294967296 → t.nCFilePos = s.nCFilePos + 1024)
      ∧ t.nAction = ActionModeTypeXModemSendData := by
  generalize hP : (s.fpFirmwareFile.content.drop s.nCFilePos).take 1024 = P
  have hPlen : P.length ≤ 1024 := by rw [← hP]; simp
  have hne : P ≠ [] := by
    intro h
    have h0 : P.length = 0 := by rw [h]; rfl
    rw [← hP, List.length_take, List.length_drop] at h0
    omega
  obtain ⟨t, ht, -, ha, -, -, hp, hf, -, hb, hw⟩ := onAck_data_fields s P hopen hP hne
  have hparts := frame_parts 0x02 s.nCPacket (0xff - s.nCPacket)
    ((P ++ List.replicate (1024 - P.length) 26).sum % 256)
    (P ++ List.replicate (1024 - P.length) 26) (padded_length P hPlen)
  refine ⟨t, t.baLastPacket, ?_, hw, ?_, ?_, hp, ?_, hf, ?_, ha.trans hact⟩
  · rw [SerialRead_ack s rest hmode (Or.inr hact), ht]
  · rw [hb]; exact hparts.1
  · rw [hb]; exact hparts.2.1
  · intro h255
    rw [hp, h255]
  · intro h32
    rw [hf]
    exact Nat.mod_eq_of_lt h32

/-- C23 (amended) at the two-block file with the packet counter at 255. -/
theorem C23_counters_after_data_frame_witness :
    ∃ (t : MainWindow) (frame : List Nat),
      SerialRead wrapWindow (XModemPacketTypeAck :: []) = some t
      ∧ t.spSerialPort.written = wrapWindow.spSerialPort.written ++ [frame]
      ∧ frame.length = 1028
      ∧ frame.take 3 = [0x02, wrapWindow.nCPacket, 0xff - wrapWindow.nCPacket]
      ∧ t.nCPacket = (wrapWindow.nCPacket + 1) % 256
      ∧ (wrapWindow.nCPacket = 255 → t.nCPacket = 0)
      ∧ t.nCFilePos = (wrapWindow.nCFilePos + 1024) % 4294967296
      ∧ (wrapWindow.nCFilePos + 1024 < 4294967296 → t.nCFilePos = wrapWindow.nCFilePos + 1024)
      ∧ t.nAction = ActionModeTypeXModemSendData :=
  C23_counters_after_data_frame wrapWindow [] rfl rfl rfl
    (by
      show 1024 < twoBlockFile.length
      rw [twoBlockFile_length]
      decide)
/-! ## The transfer engine only moves forward -/

theorem onAck_total (s : MainWindow) : ∃ t, SerialRead.onAck s = some t := by
  cases hopen : s.fpFirmwareFile.isOpen with
  | true =>
    by_cases hpos : s.nCFilePos < s.fpFirmwareFile.content.length
    · have hne : (s.fpFirmwareFile.content.drop s.nCFilePos).take 1024 ≠ [] := by
        intro h
        have h0 := congrArg List.length h
        rw [List.length_take, List.length_drop] at h0
        simp only [List.length_nil] at h0
        omega
      exact ⟨_, onAck_data s _ hopen rfl hne⟩
    · exact ⟨_, onAck_eof s hopen (by omega)⟩
  | false =>
    exact ⟨_, by
      simp [SerialRead.onAck, QFile.pos, QFile.seek, QFile.read, hopen, nXModemHeaderSize]
      rfl⟩

/-- The action after the ACK branch: as before, or SendEndOfFrame. -/
theorem onAck_action (s t : MainWindow) (h : SerialRead.onAck s = some t) :
    t.nAction = s.nAction ∨ t.nAction = ActionModeTypeXModemSendEndOfFrame := by
  unfold SerialRead.onAck at h
  simp only at h
  split_ifs at h
  all_goals first
    | (injection h with h; rw [← h]; exact Or.inr rfl)
    | (split at h
       · exact absurd h (by simp)
       · split at h
         · exact absurd h (by simp)
         · injection h with h; rw [← h]; exact Or.inl rfl)

/-- The action after the NACK branch: as before, or SendData after WaitForNack. -/
theorem onNack_action (s t : MainWindow) (h : SerialRead.onNack s = some t) :
    t.nAction = s.nAction
    ∨ (s.nAction = ActionModeTypeXModemWaitForNack
      ∧ t.nAction = ActionModeTypeXModemSendData) := by
  unfold SerialRead.onNack at h
  simp only at h
  split_ifs at h with h1 h2
  · split at h
    · exact absurd h (by simp)
    · split at h
      · exact absurd h (by simp)
      · injection h with h; rw [← h]; exact Or.inr ⟨h1, rfl⟩
  · injection h with h; rw [← h]; exact Or.inl rfl
  · injection h with h; rw [← h]; exact Or.inl rfl

/-- One received chunk in firmware update mode: the mode stays, the action
keeps its place in the enumeration or moves up, and in Finished the window
is unchanged. -/
theorem firmwareUpdate_advances (s t : MainWindow) (baRecData : List Nat)
    (h : SerialRead.firmwareUpdate s baRecData = some t) :
    s.nAction.toNat ≤ t.nAction.toNat
    ∧ (s.nAction = ActionModeTypeXModemFinished → t = s) := by
  unfold SerialRead.firmwareUpdate at h
  split_ifs at h with h1 h2
  · refine ⟨?_, fun hfin => by rcases h1 with h1 | h1 <;> rw [hfin] at h1 <;> cases h1⟩
    cases baRecData with
    | nil => exact absurd h (by simp)
    | cons c rest =>
      simp only at h
      split_ifs at h
      · rcases onAck_action s t h with ha | ha
        · rw [ha]
        · rw [ha]
          rcases h1 with h1 | h1 <;> rw [h1] <;> decide
      · rcases onNack_action s t h with ha | ⟨hs, ha⟩
        · rw [ha]
        · rw [ha, hs]; decide
      · injection h with h; rw [← h]
  · injection h with h
    refine ⟨?_, fun hfin => by rw [hfin] at h2; cases h2⟩
    have ht : t.nAction = ActionModeTypeXModemFinished := by rw [← h]
    rw [ht, h2]
    decide
  · injection h with h
    exact ⟨by rw [← h], fun _ => h.symm⟩

/-- A write-completed event leaves mode, action and write log alone. -/
theorem bytesWritten_keeps (s : MainWindow) (intByteCount : Nat) :
    (SerialBytesWritten s intByteCount).nAppMode = s.nAppMode
    ∧ (SerialBytesWritten s intByteCount).nAction = s.nAction
    ∧ (SerialBytesWritten s intByteCount).spSerialPort.written = s.spSerialPort.written := by
  unfold SerialBytesWritten
  simp only
  split_ifs <;> simp [SetInputsEnabled, QSerialPort.close]

/-- One signal in firmware update mode. -/
theorem deliver_advances (s t : MainWindow) (sig : SerialSignal)
    (hmode : s.nAppMode = ApplicationModeTypeFirmwareUpdate)
    (h : deliver s sig = some t) :
    t.nAppMode = ApplicationModeTypeFirmwareUpdate
    ∧ s.nAction.toNat ≤ t.nAction.toNat
    ∧ (s.nAction = ActionModeTypeXModemFinished →
        t.spSerialPort.written = s.spSerialPort.written) := by
  cases sig with
  | readyRead baRecData =>
    simp only [deliver] at h
    rw [SerialRead_firmwareUpdate s baRecData hmode] at h
    obtain ⟨hle, hfin⟩ := firmwareUpdate_advances s t baRecData h
    exact ⟨(firmwareUpdate_keeps_mode s t baRecData h).trans hmode, hle,
      fun hf => by rw [hfin hf]⟩
  | bytesWritten intByteCount =>
    simp only [deliver, Option.some.injEq] at h
    obtain ⟨hm, ha, hw⟩ := bytesWritten_keeps s intByteCount
    rw [← h]
    exact ⟨hm.trans hmode, by rw [ha], fun _ => hw⟩

/-- Any sequence of signals in firmware update mode. -/
theorem deliverAll_advances (signals : List SerialSignal) (s t : MainWindow)
    (hmode : s.nAppMode = ApplicationModeTypeFirmwareUpdate)
    (h : deliverAll s signals = some t) :
    t.nAppMode = ApplicationModeTypeFirmwareUpdate
    ∧ s.nAction.toNat ≤ t.nAction.toNat
    ∧ (s.nAction = ActionModeTypeXModemFinished →
        t.spSerialPort.written = s.spSerialPort.written) := by
  induction signals generalizing s with
  | nil =>
    simp only [deliverAll, Option.some.injEq] at h
    rw [← h]
    exact ⟨hmode, le_refl _, fun _ => rfl⟩
  | cons sig more ih =>
    simp only [deliverAll] at h
    cases hstep : deliver s sig with
    | none => rw [hstep] at h; cases h
    | some s1 =>
      rw [hstep] at h
      obtain ⟨hm1, hle1, hw1⟩ := deliver_advances s s1 sig hmode hstep
      obtain ⟨hm, hle, hw⟩ := ih s1 hm1 h
      refine ⟨hm, le_trans hle1 hle, fun hfin => ?_⟩
      have hfin1 : s1.nAction = ActionModeTypeXModemFinished := by
        have h7 : 7 ≤ s1.nAction.toNat := by
          rw [hfin] at hle1; exact hle1
        revert h7
        cases s1.nAction <;> decide
      rw [hw hfin1, hw1 hfin]

/-- Past the data phase every sequence of signals is handled. -/
theorem deliverAll_total (signals : List SerialSignal) (s : MainWindow)
    (hmode : s.nAppMode = ApplicationModeTypeFirmwareUpdate)
    (hact : s.nAction = ActionModeTypeXModemSendEndOfFrame
      ∨ s.nAction = ActionModeTypeXModemFinished) :
    ∃ t, deliverAll s signals = some t := by
  induction signals generalizing s with
  | nil => exact ⟨s, rfl⟩
  | cons sig more ih =>
    have hstep : ∃ s1, deliver s sig = some s1 := by
      cases sig with
      | readyRead baRecData =>
        simp only [deliver]
        rw [SerialRead_firmwareUpdate s baRecData hmode]
        rcases hact with ha | ha <;> simp [SerialRead.firmwareUpdate, ha]
      | bytesWritten intByteCount => exact ⟨_, rfl⟩
    obtain ⟨s1, hs1⟩ := hstep
    obtain ⟨hm1, hle1, -⟩ := deliver_advances s s1 sig hmode hs1
    have hact1 : s1.nAction = ActionModeTypeXModemSendEndOfFrame
        ∨ s1.nAction = ActionModeTypeXModemFinished := by
      have h6 : 6 ≤ s1.nAction.toNat := by
        rcases hact with ha | ha <;> rw [ha] at hle1
        · exact hle1
        · exact le_trans (by decide) hle1
      revert h6
      cases s1.nAction <;> decide
    obtain ⟨t, ht⟩ := ih s1 hm1 hact1
    exact ⟨t, by simp only [deliverAll, hs1, ht]⟩

/-- A received chunk in the data phase is handled when it is not empty and,
for the first NACK, the open file holds at least 1023 bytes. -/
theorem firmwareUpdate_defined (s : MainWindow) (c : Nat) (rest : List Nat)
    (hfirst : s.nAction = ActionModeTypeXModemWaitForNack → c = XModemPacketTypeNack →
      s.fpFirmwareFile.isOpen = true ∧ 1023 ≤ s.fpFirmwareFile.content.length) :
    ∃ t, SerialRead.firmwareUpdate s (c :: rest) = some t := by
  unfold SerialRead.firmwareUpdate
  split_ifs with h1 h2
  · simp only
    split_ifs with hack hnack
    · exact onAck_total s
    · by_cases hw : s.nAction = ActionModeTypeXModemWaitForNack
      · obtain ⟨hopen, hlen⟩ := hfirst hw hnack
        exact ⟨_, onNack_first s _ hw hopen rfl (by simp; omega)⟩
      · have hs : s.nAction = ActionModeTypeXModemSendData := h1.resolve_left hw
        exact ⟨_, onNack_retransmit s hs⟩
    · exact ⟨_, rfl⟩
  · exact ⟨_, rfl⟩
  · exact ⟨_, rfl⟩

/-- C24: from a window in the transfer engine (firmware update mode, action
WaitForNack, SendData, SendEndOfFrame or Finished), whatever `readyRead` and
`bytesWritten` signals follow, the window they lead to is still in firmware
update mode with one of these four actions, and the action has not moved
back in the order WaitForNack, SendData, SendEndOfFrame, Finished; from
Finished the action stays Finished and nothing more is written. A single
chunk in Finished leaves the whole window as it is. Every sequence of
signals is handled from SendEndOfFrame and Finished on, and in the data
phase every non-empty chunk is, the first NACK provided the open file holds
at least 1023 bytes. -/
theorem C24_transfer_states_only_advance (s : MainWindow) (signals : List SerialSignal)
    (baRecData : List Nat)
    (hmode : s.nAppMode = ApplicationModeTypeFirmwareUpdate)
    (hact : s.nAction = ActionModeTypeXModemWaitForNack
      ∨ s.nAction = ActionModeTypeXModemSendData
      ∨ s.nAction = ActionModeTypeXModemSendEndOfFrame
      ∨ s.nAction = ActionModeTypeXModemFinished) :
    (∀ t, deliverAll s signals = some t →
      t.nAppMode = ApplicationModeTypeFirmwareUpdate
      ∧ (t.nAction = ActionModeTypeXModemWaitForNack
        ∨ t.nAction = ActionModeTypeXModemSendData
        ∨ t.nAction = ActionModeTypeXModemSendEndOfFrame
        ∨ t.nAction = ActionModeTypeXModemFinished)
      ∧ s.nAction.toNat ≤ t.nAction.toNat
      ∧ (s.nAction = ActionModeTypeXModemFinished →
          t.nAction = ActionModeTypeXModemFinished
          ∧ t.spSerialPort.written = s.spSerialPort.written))
    ∧ (s.nAction = ActionModeTypeXModemFinished → SerialRead s baRecData = some s)
    ∧ (s.nAction = ActionModeTypeXModemSendEndOfFrame
        ∨ s.nAction = ActionModeTypeXModemFinished → ∃ t, deliverAll s signals = some t)
    ∧ (baRecData ≠ [] →
        (s.nAction = ActionModeTypeXModemWaitForNack →
          baRecData.head? = some XModemPacketTypeNack →
          s.fpFirmwareFile.isOpen = true ∧ 1023 ≤ s.fpFirmwareFile.content.length) →
        ∃ t, SerialRead s baRecData = some t) := by
  refine ⟨?_, ?_, deliverAll_total signals s hmode, ?_⟩
  · intro t ht
    obtain ⟨hm, hle, hw⟩ := deliverAll_advances signals s t hmode ht
    have h4 : 4 ≤ t.nAction.toNat := by
      refine le_trans ?_ hle
      rcases hact with ha | ha | ha | ha <;> rw [ha] <;> decide
    refine ⟨hm, ?_, hle, fun hfin => ⟨?_, hw hfin⟩⟩
    · revert h4
      cases t.nAction <;> decide
    · have h7 : 7 ≤ t.nAction.toNat := by
        rw [hfin] at hle; exact hle
      revert h7
      cases t.nAction <;> decide
  · intro hfin
    rw [SerialRead_firmwareUpdate s baRecData hmode]
    simp [SerialRead.firmwareUpdate, hfin]
  · intro hne hfirst
    rw [SerialRead_firmwareUpdate s baRecData hmode]
    cases baRecData with
    | nil => exact absurd rfl hne
    | cons c rest =>
      exact firmwareUpdate_defined s c rest
        (fun hw hc => hfirst hw (by rw [hc]; rfl))

/-- C24 at the window waiting for the first NACK of the two-block file, for
the signals NACK, ACK, ACK, a reply to the end of frame, a write
confirmation and a late chunk. -/
theorem C24_transfer_states_only_advance_witness :
    (∀ t, deliverAll (transferEntered twoBlockFile)
        [SerialSignal.readyRead [0x15], SerialSignal.readyRead [0x06],
          SerialSignal.readyRead [0x06], SerialSignal.readyRead [0x4f, 0x4b],
          SerialSignal.bytesWritten 11, SerialSignal.readyRead [0x06]] = some t →
      t.nAppMode = ApplicationModeTypeFirmwareUpdate
      ∧ (t.nAction = ActionModeTypeXModemWaitForNack
        ∨ t.nAction = ActionModeTypeXModemSendData
        ∨ t.nAction = ActionModeTypeXModemSendEndOfFrame
        ∨ t.nAction = ActionModeTypeXModemFinished)
      ∧ (transferEntered twoBlockFile).nAction.toNat ≤ t.nAction.toNat
      ∧ ((transferEntered twoBlockFile).nAction = ActionModeTypeXModemFinished →
          t.nAction = ActionModeTypeXModemFinished
          ∧ t.spSerialPort.written = (transferEntered twoBlockFile).spSerialPort.written))
    ∧ ((transferEntered twoBlockFile).nAction = ActionModeTypeXModemFinished →
        SerialRead (transferEntered twoBlockFile) [0x15] = some (transferEntered twoBlockFile))
    ∧ ((transferEntered twoBlockFile).nAction = ActionModeTypeXModemSendEndOfFrame
        ∨ (transferEntered twoBlockFile).nAction = ActionModeTypeXModemFinished →
        ∃ t, deliverAll (transferEntered twoBlockFile)
          [SerialSignal.readyRead [0x15], SerialSignal.readyRead [0x06],
            SerialSignal.readyRead [0x06], SerialSignal.readyRead [0x4f, 0x4b],
            SerialSignal.bytesWritten 11, SerialSignal.readyRead [0x06]] = some t)
    ∧ ([0x15] ≠ [] →
        ((transferEntered twoBlockFile).nAction = ActionModeTypeXModemWaitForNack →
          [0x15].head? = some XModemPacketTypeNack →
          (transferEntered twoBlockFile).fpFirmwareFile.isOpen = true
            ∧ 1023 ≤ (transferEntered twoBlockFile).fpFirmwareFile.content.length) →
        ∃ t, SerialRead (transferEntered twoBlockFile) [0x15] = some t) :=
  C24_transfer_states_only_advance (transferEntered twoBlockFile)
    [SerialSignal.readyRead [0x15], SerialSignal.readyRead [0x06],
      SerialSignal.readyRead [0x06], SerialSignal.readyRead [0x4f, 0x4b],
      SerialSignal.bytesWritten 11, SerialSignal.readyRead [0x06]] [0x15] rfl (Or.inl rfl)

/-! ## The progress value -/

theorem bigFile_length : bigFile.length = 42951680 := by
  unfold bigFile; rw [List.length_replicate]

theorem nearHugeFile_length : nearHugeFile.length = 4294967295 := by
  unfold nearHugeFile; rw [List.length_replicate]

/-- The progress value and the frame of an ACK that found a byte at the offset. -/
theorem onAck_data_progress (s : MainWindow) (payload : List Nat)
    (hopen : s.fpFirmwareFile.isOpen = true)
    (hread : (s.fpFirmwareFile.content.drop s.nCFilePos).take 1024 = payload)
    (hne : payload ≠ []) :
    ∃ t : MainWindow,
      SerialRead.onAck s = some t
      ∧ t.progressBar
          = toInt32 (s.nCFilePos * 100 % 4294967296 / s.fpFirmwareFile.content.length)
      ∧ t.spSerialPort.written = s.spSerialPort.written ++ [t.baLastPacket]
      ∧ t.baLastPacket.length = 1028 := by
  have hlen : payload.length ≤ 1024 := by rw [← hread]; simp
  exact ⟨_, onAck_data s payload hopen hread hne, rfl, rfl,
    (frame_parts _ _ _ _ _ (padded_length payload hlen)).1⟩

/-- C21 (the code at the failing input): at offset 42950656 of the file of
42951680 bytes an ACK writes a data frame and gives the progress bar the
value 0, where 42950656 * 100 / 42951680 is 99: the product is taken in 32
bits and 4295065600 wraps to 98304. -/
theorem C21_progress_product_wraps :
    bigFileWindow.fpFirmwareFile.size = 42951680
    ∧ bigFileWindow.nCFilePos = 42950656
    ∧ 42950656 * 100 / 42951680 = 99
    ∧ 42950656 * 100 % 4294967296 = 98304
    ∧ progressValue 42950656 42951680 = some 0
    ∧ (SerialRead bigFileWindow [XModemPacketTypeAck]).map
        (fun t => (t.spSerialPort.written.map List.length, t.progressBar))
      = some ([1028], 0) := by
  have hlen : bigFileWindow.fpFirmwareFile.content.length = 42951680 := bigFile_length
  have hoff : bigFileWindow.nCFilePos = 42950656 := rfl
  have hvalue : toInt32 (42950656 * 100 % 4294967296 / 42951680) = 0 := by decide
  refine ⟨hlen, hoff, by decide, by decide, by decide, ?_⟩
  generalize hP : (bigFileWindow.fpFirmwareFile.content.drop bigFileWindow.nCFilePos).take
    1024 = P
  have hPlen : P.length = 1024 := by
    rw [← hP, List.length_take, List.length_drop, hlen, hoff]
    decide
  have hne : P ≠ [] := by
    intro h; rw [h] at hPlen; simp at hPlen
  obtain ⟨t, ht, hprog, hw, hframe⟩ := onAck_data_progress bigFileWindow P rfl hP hne
  have hwritten : bigFileWindow.spSerialPort.written = [] := rfl
  rw [SerialRead_ack bigFileWindow [] rfl (Or.inr rfl), ht]
  show some (t.spSerialPort.written.map List.length, t.progressBar) = some ([1028], 0)
  rw [hw, hprog, hoff, hlen, hvalue, hwritten, List.nil_append, List.map_cons, List.map_nil,
    hframe]

/-! ## The first NACK for a short file -/

/-- C29 (the code at the failing inputs): for the empty file the first NACK has
no defined result. The frame buffer handed to the checksum holds the three
header bytes only, fewer than 3 + 1024, so the sum over `nXModemDataSize`
bytes leaves the buffer, and the progress value would divide by the file
size 0. The sum leaves the buffer for every open file shorter than 1023
bytes, so the handler has no defined result for any of them. -/
theorem C29_first_nack_short_file_undefined :
    SerialRead (transferEntered []) [XModemPacketTypeNack] = none
    ∧ ([0x02, 0x01, 0xfe] ++ ((transferEntered []).fpFirmwareFile.read nXModemDataSize).1).length
        < 3 + nXModemDataSize
    ∧ Calc8BitCRC (QByteArray.data
        ([0x02, 0x01, 0xfe] ++ ((transferEntered []).fpFirmwareFile.read nXModemDataSize).1))
        nXModemDataSize = none
    ∧ progressValue 0 (transferEntered []).fpFirmwareFile.size = none
    ∧ ∀ (s : MainWindow) (rest : List Nat),
        s.nAppMode = ApplicationModeTypeFirmwareUpdate →
        s.nAction = ActionModeTypeXModemWaitForNack →
        s.fpFirmwareFile.isOpen = true →
        s.fpFirmwareFile.content.length < 1023 →
        SerialRead s (XModemPacketTypeNack :: rest) = none := by
  have hall : ∀ (s : MainWindow) (rest : List Nat),
      s.nAppMode = ApplicationModeTypeFirmwareUpdate →
      s.nAction = ActionModeTypeXModemWaitForNack →
      s.fpFirmwareFile.isOpen = true →
      s.fpFirmwareFile.content.length < 1023 →
      SerialRead s (XModemPacketTypeNack :: rest) = none := by
    intro s rest hmode hact hopen hlen
    rw [SerialRead_nack s rest hmode (Or.inl hact)]
    exact onNack_first_overrun s hact hopen hlen
  refine ⟨hall _ [] rfl rfl rfl (by decide), by decide, ?_, by decide, hall⟩
  exact Calc8BitCRC_overrun [0x02, 0x01, 0xfe] [] nXModemDataSize rfl (by decide)

/-! ## The whole file, block after block -/

/-- While the file has a byte at the offset of every block asked for and the
32-bit offset has not wrapped, `j` ACKs in a row write `j` data frames,
block after block, the last one filled up with 0x1A when the file ends in
it, with consecutive sequence numbers. -/
theorem acks_send_padded (s : MainWindow) (j : Nat)
    (hmode : s.nAppMode = ApplicationModeTypeFirmwareUpdate)
    (hact : s.nAction = ActionModeTypeXModemWaitForNack
      ∨ s.nAction = ActionModeTypeXModemSendData)
    (hopen : s.fpFirmwareFile.isOpen = true)
    (hseq : s.nCPacket < 256)
    (hoff32 : s.nCFilePos < 4294967296)
    (hfile : s.nCFilePos + 1024 * j < s.fpFirmwareFile.content.length + 1024)
    (h32 : s.nCFilePos + 1024 * j ≤ 4294967296) :
    ∃ t : MainWindow,
      SerialReadAll s (List.replicate j [XModemPacketTypeAck]) = some t
      ∧ t.nAppMode = s.nAppMode
      ∧ t.nAction = s.nAction
      ∧ t.fpFirmwareFile.content = s.fpFirmwareFile.content
      ∧ t.fpFirmwareFile.isOpen = true
      ∧ t.nCPacket = (s.nCPacket + j) % 256
      ∧ t.nCFilePos = (s.nCFilePos + 1024 * j) % 4294967296
      ∧ t.spSerialPort.written = s.spSerialPort.written
          ++ (List.range j).map (fun i =>
              [0x02, (s.nCPacket + i) % 256, 0xff - (s.nCPacket + i) % 256]
                ++ ((s.fpFirmwareFile.content.drop (s.nCFilePos + 1024 * i)).take 1024
                  ++ List.replicate (1024
                    - ((s.fpFirmwareFile.content.drop (s.nCFilePos + 1024 * i)).take
                        1024).length) 26)
                ++ [((s.fpFirmwareFile.content.drop (s.nCFilePos + 1024 * i)).take 1024
                  ++ List.replicate (1024
                    - ((s.fpFirmwareFile.content.drop (s.nCFilePos + 1024 * i)).take
                        1024).length) 26).sum % 256]) := by
  induction j with
  | zero =>
    exact ⟨s, by simp [SerialReadAll], rfl, rfl, rfl, hopen, by simp; omega, by simp; omega,
      by simp⟩
  | succ j ih =>
    obtain ⟨t, hrun, hm, ha, hc, ho, hp, hf, hw⟩ := ih (by omega) (by omega)
    have hoff : t.nCFilePos = s.nCFilePos + 1024 * j := by
      rw [hf]; exact Nat.mod_eq_of_lt (by omega)
    have hread : (t.fpFirmwareFile.content.drop t.nCFilePos).take 1024
        = (s.fpFirmwareFile.content.drop (s.nCFilePos + 1024 * j)).take 1024 := by
      rw [hc, hoff]
    generalize hP : (s.fpFirmwareFile.content.drop (s.nCFilePos + 1024 * j)).take 1024 = P
      at hread
    have hne : P ≠ [] := by
      intro h
      have h0 := congrArg List.length hP
      rw [h, List.length_take, List.length_drop] at h0
      simp only [List.length_nil] at h0
      omega
    obtain ⟨t2, ht2, hm2, ha2, hc2, ho2, hp2, hf2, -, hb2, hw2⟩ :=
      onAck_data_fields t P ho hread hne
    rw [List.replicate_succ', SerialReadAll_append, hrun]
    simp only [Option.some_bind, SerialReadAll]
    rw [SerialRead_ack t [] (hm.trans hmode) (by rw [ha]; exact hact), ht2]
    refine ⟨t2, rfl, hm2.trans hm, ha2.trans ha, hc2.trans hc, ho2, ?_, ?_, ?_⟩
    · rw [hp2, hp]; omega
    · have hnext : s.nCFilePos + 1024 * j + 1024 = s.nCFilePos + 1024 * (j + 1) := by omega
      rw [hf2, hoff, hnext]
    · rw [hw2, hb2, hw, List.range_succ, List.map_append, List.append_assoc]
      simp only [List.map_cons, List.map_nil, hp, hP]

/-- The blocks of a file, each filled up to 1024 bytes with 0x1A, put one
behind the other, are the file followed by the filler. -/
theorem padded_blocks_flatten (k : Nat) (file : List Nat) (h : file.length ≤ 1024 * k) :
    ((List.range k).map (fun i =>
        (file.drop (1024 * i)).take 1024
          ++ List.replicate (1024 - ((file.drop (1024 * i)).take 1024).length) 26)).flatten
      = file ++ List.replicate (1024 * k - file.length) 26 := by
  induction k generalizing file with
  | zero =>
    have hnil : file = [] := List.length_eq_zero.mp (by omega)
    subst hnil
    rfl
  | succ k ih =>
    have hshift : (List.range k).map ((fun i =>
          (file.drop (1024 * i)).take 1024
            ++ List.replicate (1024 - ((file.drop (1024 * i)).take 1024).length) 26)
          ∘ Nat.succ)
        = (List.range k).map (fun i =>
          ((file.drop 1024).drop (1024 * i)).take 1024
            ++ List.replicate
              (1024 - (((file.drop 1024).drop (1024 * i)).take 1024).length) 26) := by
      apply List.map_congr_left
      intro i _
      have e : 1024 * Nat.succ i = 1024 + 1024 * i := by omega
      simp only [Function.comp, List.drop_drop, e]
    rw [List.range_succ_eq_map, List.map_cons, List.map_map, List.flatten_cons, hshift,
      ih (file.drop 1024) (by rw [List.length_drop]; omega), Nat.mul_zero, List.drop_zero,
      List.length_take, List.length_drop]
    by_cases hl : 1024 ≤ file.length
    · have h1 : 1024 - min 1024 file.length = 0 := by omega
      have h2 : 1024 * k - (file.length - 1024) = 1024 * (k + 1) - file.length := by omega
      rw [h1, h2, List.replicate_zero, List.append_nil, ← List.append_assoc,
        List.take_append_drop]
    · have h1 : 1024 - min 1024 file.length = 1024 - file.length := by omega
      have h2 : 1024 * k - (file.length - 1024) = 1024 * k := by omega
      have h3 : 1024 * (k + 1) - file.length = (1024 - file.length) + 1024 * k := by omega
      rw [h1, h2, h3, List.take_of_length_le (by omega), List.drop_eq_nil_of_le (by omega),
        List.nil_append, List.replicate_add, List.append_assoc]

/-- C28 (as stated, refuted): for the file of 4294967295 bytes, a size below
4294967296, the ACK that follows the 4194304-th and last data frame does not
write the end of frame byte: the 32-bit file offset has wrapped to 0, a
further data frame of 1028 bytes with sequence number 1 is written and the
action is still SendData. -/
theorem C28_counterexample_last_block_wraps :
    nearHugeFile.length = 4294967295
    ∧ (4294967295 + 1023) / 1024 = 4194304
    ∧ (SerialReadAll (transferEntered nearHugeFile)
          ([XModemPacketTypeNack] :: List.replicate 4194304 [XModemPacketTypeAck])).map
        (fun t => (t.nAction, t.spSerialPort.written.length, t.baLastPacket.length,
          t.baLastPacket.take 3, t.nCFilePos))
      = some (ActionModeTypeXModemSendData, 4194305, 1028, [0x02, 0x01, 0xfe], 1024) := by
  refine ⟨nearHugeFile_length, by decide, ?_⟩
  have hlen : (transferEntered nearHugeFile).fpFirmwareFile.content.length = 4294967295 :=
    nearHugeFile_length
  have hwritten : (transferEntered nearHugeFile).spSerialPort.written = [] := rfl
  -- the first NACK and 4194302 ACKs send the 4194303 whole blocks
  obtain ⟨t, hrun, hm, ha, hc, ho, hp, hf, -, hw⟩ :=
    handshake_then_acks (transferEntered nearHugeFile) 4194302 rfl rfl rfl
      (by rw [hlen]; decide) (by decide)
  have hoff : t.nCFilePos = 4294966272 := by rw [hf]
  have hseq : t.nCPacket = 0 := by rw [hp]
  have hwlen : t.spSerialPort.written.length = 4194303 := by
    rw [hw, List.length_append, List.length_map, List.length_range, hwritten]
    rfl
  -- the next ACK sends the last 1023 bytes, and the offset wraps
  generalize hP : (t.fpFirmwareFile.content.drop t.nCFilePos).take 1024 = P
  have hne : P ≠ [] := by
    intro h
    have h0 := congrArg List.length hP
    rw [h, List.length_take, List.length_drop, hc, hoff, hlen] at h0
    revert h0
    decide
  obtain ⟨t2, ht2, hm2, ha2, hc2, ho2, hp2, hf2, -, -, hw2⟩ := onAck_data_fields t P ho hP hne
  have hoff2 : t2.nCFilePos = 0 := by rw [hf2, hoff]
  have hseq2 : t2.nCPacket = 1 := by rw [hp2, hseq]
  -- the ACK after the last data frame sends the first block again
  generalize hQ : (t2.fpFirmwareFile.content.drop t2.nCFilePos).take 1024 = Q
  have hQlen : Q.length = 1024 := by
    rw [← hQ, List.length_take, List.length_drop, hc2, hc, hoff2, hlen]
    decide
  have hQne : Q ≠ [] := by
    intro h; rw [h] at hQlen; simp at hQlen
  obtain ⟨t3, ht3, -, ha3, -, -, -, hf3, -, hb3, hw3⟩ := onAck_data_fields t2 Q ho2 hQ hQne
  have hframe : t3.baLastPacket.length = 1028 ∧ t3.baLastPacket.take 3 = [0x02, 0x01, 0xfe] := by
    have hparts := frame_parts 0x02 t2.nCPacket (0xff - t2.nCPacket)
      ((Q ++ List.replicate (1024 - Q.length) 26).sum % 256)
      (Q ++ List.replicate (1024 - Q.length) 26) (padded_length Q (by omega))
    rw [hb3]
    refine ⟨hparts.1, ?_⟩
    rw [hparts.2.1, hseq2]
  rw [show List.replicate 4194304 [XModemPacketTypeAck]
      = List.replicate 4194302 [XModemPacketTypeAck]
        ++ [[XModemPacketTypeAck], [XModemPacketTypeAck]] from by
      rw [show (4194304 : Nat) = 4194302 + 2 from rfl, List.replicate_add]
      rfl,
    ← List.cons_append, SerialReadAll_append, hrun]
  simp only [Option.some_bind, SerialReadAll]
  rw [SerialRead_ack t [] hm (Or.inr ha), ht2]
  simp only []
  rw [SerialRead_ack t2 [] (hm2.trans hm) (Or.inr (ha2.trans ha)), ht3]
  show some (t3.nAction, t3.spSerialPort.written.length, t3.baLastPacket.length,
    t3.baLastPacket.take 3, t3.nCFilePos) = _
  rw [ha3, ha2, ha, hw3, hw2, List.length_append, List.length_append, hwlen, hframe.1, hframe.2,
    hf3, hoff2]
  rfl
theorem oddFile_length : oddFile.length = 1500 := by
  unfold oddFile; rw [List.length_replicate]

/-- C28 (amended): for a firmware file of `n` bytes with 1024 <= n <= 4294966272
(so that the 32-bit file offset does not wrap), the first NACK followed by
ACKs writes exactly `k` data frames, `k` the number of blocks `n` over 1024
rounded up, the `i`-th (from 0) with sequence number `i + 1` modulo 256, its
inverse, the file bytes of block `i` filled up to 1024 bytes with 0x1A and
their sum modulo 256; the ACK after the last data frame writes the end of
frame byte 0x04 and the action is then SendEndOfFrame. The payloads put one
behind the other are the file followed by 0x1A bytes only. -/
theorem C28_file_sent_in_padded_blocks (s : MainWindow) (k : Nat)
    (hmode : s.nAppMode = ApplicationModeTypeFirmwareUpdate)
    (hact : s.nAction = ActionModeTypeXModemWaitForNack)
    (hopen : s.fpFirmwareFile.isOpen = true)
    (hmin : 1024 ≤ s.fpFirmwareFile.size)
    (hmax : s.fpFirmwareFile.size ≤ 4294966272)
    (hk : k = (s.fpFirmwareFile.size + 1023) / 1024) :
    ∃ t : MainWindow,
      SerialReadAll s ([XModemPacketTypeNack] :: List.replicate k [XModemPacketTypeAck]) = some t
      ∧ t.nAction = ActionModeTypeXModemSendEndOfFrame
      ∧ t.spSerialPort.written = s.spSerialPort.written
          ++ (List.range k).map (fun i =>
              [0x02, (i + 1) % 256, 0xff - (i + 1) % 256]
                ++ ((s.fpFirmwareFile.content.drop (1024 * i)).take 1024
                  ++ List.replicate
                    (1024 - ((s.fpFirmwareFile.content.drop (1024 * i)).take 1024).length) 26)
                ++ [((s.fpFirmwareFile.content.drop (1024 * i)).take 1024
                  ++ List.replicate
                    (1024 - ((s.fpFirmwareFile.content.drop (1024 * i)).take 1024).length)
                    26).sum % 256])
          ++ [[0x04]]
      ∧ (∀ i, i < k →
          ((s.fpFirmwareFile.content.drop (1024 * i)).take 1024
            ++ List.replicate
              (1024 - ((s.fpFirmwareFile.content.drop (1024 * i)).take 1024).length)
              26).length = 1024)
      ∧ ((List.range k).map (fun i =>
            (s.fpFirmwareFile.content.drop (1024 * i)).take 1024
              ++ List.replicate
                (1024 - ((s.fpFirmwareFile.content.drop (1024 * i)).take 1024).length)
                26)).flatten
          = s.fpFirmwareFile.content
            ++ List.replicate (1024 * k - s.fpFirmwareFile.size) 26
      ∧ (((List.range k).map (fun i =>
            (s.fpFirmwareFile.content.drop (1024 * i)).take 1024
              ++ List.replicate
                (1024 - ((s.fpFirmwareFile.content.drop (1024 * i)).take 1024).length)
                26)).flatten).take s.fpFirmwareFile.size
          = s.fpFirmwareFile.content := by
  unfold QFile.size at hmin hmax hk ⊢
  obtain ⟨m, rfl⟩ : ∃ m, k = m + 1 := ⟨k - 1, by omega⟩
  -- the first NACK
  have hP0 : (s.fpFirmwareFile.content.take 1024).length = 1024 := by
    rw [List.length_take]; omega
  obtain ⟨t0, ht0, hm0, ha0, hc0, ho0, hp0, hf0, -, hb0, hw0⟩ :=
    onNack_first_fields s _ hact hopen rfl (by rw [hP0]; decide)
  -- the ACKs that find a byte at the offset
  obtain ⟨t1, hrun, hm1, ha1, hc1, ho1, -, hf1, hw1⟩ :=
    acks_send_padded t0 m (hm0.trans hmode) (Or.inr ha0) ho0 (by rw [hp0]; decide)
      (by rw [hf0]; decide) (by rw [hf0, hc0]; omega) (by rw [hf0]; omega)
  have hoff1 : t1.nCFilePos = 1024 * (m + 1) := by
    rw [hf1, hf0, Nat.mod_eq_of_lt (by omega)]
    omega
  -- the ACK that finds none
  obtain ⟨t2, ht2, -, ha2, -, -, -, -, hw2⟩ :=
    onAck_eof_fields t1 ho1 (by rw [hc1, hc0, hoff1]; omega)
  have hflat := padded_blocks_flatten (m + 1) s.fpFirmwareFile.content (by omega)
  refine ⟨t2, ?_, ha2, ?_, ?_, hflat, ?_⟩
  · rw [List.replicate_succ', ← List.cons_append, SerialReadAll_append]
    simp only [SerialReadAll]
    rw [SerialRead_nack s [] hmode (Or.inl hact), ht0]
    simp only []
    rw [hrun]
    simp only [Option.some_bind]
    rw [SerialRead_ack t1 [] (hm1.trans (hm0.trans hmode)) (Or.inr (ha1.trans ha0)), ht2]
  · rw [hw2, hw1, hw0, hb0, hp0, hf0, hc0, List.range_succ_eq_map, List.map_cons, List.map_map,
      List.append_assoc s.spSerialPort.written, List.singleton_append]
    congr 2
    simp only [Nat.mul_zero, List.drop_zero, hP0, Nat.sub_self, List.replicate_zero,
      List.append_nil]
    have hrest : ∀ i ∈ List.range m,
        ([0x02, (2 + i) % 256, 0xff - (2 + i) % 256]
          ++ ((s.fpFirmwareFile.content.drop (1024 + 1024 * i)).take 1024
            ++ List.replicate
              (1024 - ((s.fpFirmwareFile.content.drop (1024 + 1024 * i)).take 1024).length) 26)
          ++ [((s.fpFirmwareFile.content.drop (1024 + 1024 * i)).take 1024
            ++ List.replicate
              (1024 - ((s.fpFirmwareFile.content.drop (1024 + 1024 * i)).take 1024).length)
              26).sum % 256])
        = ((fun i =>
            [0x02, (i + 1) % 256, 0xff - (i + 1) % 256]
              ++ ((s.fpFirmwareFile.content.drop (1024 * i)).take 1024
                ++ List.replicate
                  (1024 - ((s.fpFirmwareFile.content.drop (1024 * i)).take 1024).length) 26)
              ++ [((s.fpFirmwareFile.content.drop (1024 * i)).take 1024
                ++ List.replicate
                  (1024 - ((s.fpFirmwareFile.content.drop (1024 * i)).take 1024).length)
                  26).sum % 256]) ∘ Nat.succ) i := by
      intro i _
      have e1 : 2 + i = Nat.succ i + 1 := by omega
      have e2 : 1024 + 1024 * i = 1024 * Nat.succ i := by omega
      simp only [Function.comp, e1, e2]
    rw [List.map_congr_left hrest]
  · intro i _
    exact padded_length _ (by rw [List.length_take]; omega)
  · rw [hflat]
    exact List.take_left _ _

/-- C28 (amended) at the file of 1500 bytes: NACK, ACK, ACK. -/
theorem C28_file_sent_in_padded_blocks_witness :
    ∃ t : MainWindow,
      SerialReadAll (transferEntered oddFile)
          ([XModemPacketTypeNack] :: List.replicate 2 [XModemPacketTypeAck]) = some t
      ∧ t.nAction = ActionModeTypeXModemSendEndOfFrame
      ∧ t.spSerialPort.written = (transferEntered oddFile).spSerialPort.written
          ++ (List.range 2).map (fun i =>
              [0x02, (i + 1) % 256, 0xff - (i + 1) % 256]
                ++ (((transferEntered oddFile).fpFirmwareFile.content.drop (1024 * i)).take 1024
                  ++ List.replicate
                    (1024 - (((transferEntered oddFile).fpFirmwareFile.content.drop
                      (1024 * i)).take 1024).length) 26)
                ++ [(((transferEntered oddFile).fpFirmwareFile.content.drop (1024 * i)).take 1024
                  ++ List.replicate
                    (1024 - (((transferEntered oddFile).fpFirmwareFile.content.drop
                      (1024 * i)).take 1024).length)
                    26).sum % 256])
          ++ [[0x04]]
      ∧ (∀ i, i < 2 →
          (((transferEntered oddFile).fpFirmwareFile.content.drop (1024 * i)).take 1024
            ++ List.replicate
              (1024 - (((transferEntered oddFile).fpFirmwareFile.content.drop
                (1024 * i)).take 1024).length)
              26).length = 1024)
      ∧ ((List.range 2).map (fun i =>
            ((transferEntered oddFile).fpFirmwareFile.content.drop (1024 * i)).take 1024
              ++ List.replicate
                (1024 - (((transferEntered oddFile).fpFirmwareFile.content.drop
                  (1024 * i)).take 1024).length)
                26)).flatten
          = (transferEntered oddFile).fpFirmwareFile.content
            ++ List.replicate (1024 * 2 - (transferEntered oddFile).fpFirmwareFile.size) 26
      ∧ (((List.range 2).map (fun i =>
            ((transferEntered oddFile).fpFirmwareFile.content.drop (1024 * i)).take 1024
              ++ List.replicate
                (1024 - (((transferEntered oddFile).fpFirmwareFile.content.drop
                  (1024 * i)).take 1024).length)
                26)).flatten).take (transferEntered oddFile).fpFirmwareFile.size
          = (transferEntered oddFile).fpFirmwareFile.content :=
  C28_file_sent_in_padded_blocks (transferEntered oddFile) 2 rfl rfl rfl
    (le_of_le_of_eq (by norm_num : 1024 ≤ 1500) oddFile_length.symm)
    (le_of_eq_of_le oddFile_length (by norm_num : 1500 ≤ 4294966272))
    (by rw [show (transferEntered oddFile).fpFirmwareFile.size = 1500 from oddFile_length])

/-! ## The last-packet flag -/

/-- The ACK branch sets `bLastPacketSent` only with a frame built from a read
of 1 to 1023 bytes. -/
theorem onAck_flag (u v : MainWindow) (h : SerialRead.onAck u = some v)
    (hclear : u.bLastPacketSent = false) (hset : v.bLastPacketSent = true) :
    u.fpFirmwareFile.isOpen = true
    ∧ 1 ≤ ((u.fpFirmwareFile.content.drop u.nCFilePos).take 1024).length
    ∧ ((u.fpFirmwareFile.content.drop u.nCFilePos).take 1024).length ≤ 1023
    ∧ v.spSerialPort.written = u.spSerialPort.written
        ++ [[0x02, u.nCPacket, 0xff - u.nCPacket]
          ++ ((u.fpFirmwareFile.content.drop u.nCFilePos).take 1024
            ++ List.replicate
              (1024 - ((u.fpFirmwareFile.content.drop u.nCFilePos).take 1024).length) 26)
          ++ [((u.fpFirmwareFile.content.drop u.nCFilePos).take 1024
            ++ List.replicate
              (1024 - ((u.fpFirmwareFile.content.drop u.nCFilePos).take 1024).length)
              26).sum % 256]] := by
  cases hopen : u.fpFirmwareFile.isOpen with
  | false =>
    exfalso
    simp [SerialRead.onAck, QFile.pos, QFile.seek, QFile.read, hopen, nXModemHeaderSize] at h
    rw [← h] at hset
    rw [hclear] at hset
    cases hset
  | true =>
    by_cases hpos : u.nCFilePos < u.fpFirmwareFile.content.length
    · generalize hP : (u.fpFirmwareFile.content.drop u.nCFilePos).take 1024 = P
      have hne : P ≠ [] := by
        intro hnil
        have h0 := congrArg List.length hP
        rw [hnil, List.length_take, List.length_drop] at h0
        simp only [List.length_nil] at h0
        omega
      have hle : P.length ≤ 1024 := by rw [← hP]; simp
      obtain ⟨t, ht, -, -, -, -, -, -, hb, hframe, hw⟩ := onAck_data_fields u P hopen hP hne
      rw [ht] at h
      injection h with h
      subst h
      refine ⟨rfl, List.length_pos.mpr hne, ?_, ?_⟩
      · by_contra hfull
        rw [hb, if_neg (by omega), hclear] at hset
        cases hset
      · rw [hw, hframe]
    · exfalso
      obtain ⟨t, ht, -, -, -, -, hb, -, -⟩ := onAck_eof_fields u hopen (by omega)
      rw [ht] at h
      injection h with h
      subst h
      rw [hb, hclear] at hset
      cases hset

theorem onNack_keeps_flag (s t : MainWindow) (h : SerialRead.onNack s = some t) :
    t.bLastPacketSent = s.bLastPacketSent := by
  unfold SerialRead.onNack at h
  simp only at h
  split_ifs at h
  all_goals first
    | (injection h with h; rw [← h])
    | (split at h
       · exact absurd h (by simp)
       · split at h
         · exact absurd h (by simp)
         · injection h with h; rw [← h])

/-- A chunk in firmware update mode leaves `bLastPacketSent` alone unless it is
handled by the ACK branch. -/
theorem firmwareUpdate_flag (s t : MainWindow) (baRecData : List Nat)
    (h : SerialRead.firmwareUpdate s baRecData = some t) :
    t.bLastPacketSent = s.bLastPacketSent
    ∨ ((s.nAction = ActionModeTypeXModemWaitForNack
        ∨ s.nAction = ActionModeTypeXModemSendData)
      ∧ baRecData.head? = some XModemPacketTypeAck
      ∧ SerialRead.onAck s = some t) := by
  unfold SerialRead.firmwareUpdate at h
  split_ifs at h with h1 h2
  · cases baRecData with
    | nil => exact absurd h (by simp)
    | cons c rest =>
      simp only at h
      split_ifs at h with hack
      · exact Or.inr ⟨h1, by rw [hack]; rfl, h⟩
      · exact Or.inl (onNack_keeps_flag s t h)
      · injection h with h; rw [← h]; exact Or.inl rfl
  · injection h with h; rw [← h]; exact Or.inl rfl
  · injection h with h; rw [← h]; exact Or.inl rfl

/-- The handling of an accepted version leaves `bLastPacketSent` alone or
clears it. -/
theorem versionFound_flag (s : MainWindow) (version : List Nat) :
    (SerialRead.versionFound s version).bLastPacketSent = s.bLastPacketSent
    ∨ (SerialRead.versionFound s version).bLastPacketSent = false := by
  unfold SerialRead.versionFound
  by_cases hq : s.nAppMode = ApplicationModeTypeQuery
  · simp [hq, SetInputsEnabled]
  · by_cases hidx : QString.indexOf s.edit_File (version ++ qstr "_to") = -1
    · cases hans : s.questionAnswer with
      | false => simp [hq, hidx, hans, SetInputsEnabled]
      | true =>
        cases hfile : s.firmwareOnDisk <;> simp [hq, hidx, hans, hfile, SetInputsEnabled]
    · cases hfile : s.firmwareOnDisk <;> simp [hq, hidx, hfile, SetInputsEnabled]

/-- The mode check branch leaves `bLastPacketSent` alone or clears it. -/
theorem modeCheck_flag (s t : MainWindow) (baRecData : List Nat)
    (h : SerialRead.modeCheck s baRecData = some t) :
    t.bLastPacketSent = s.bLastPacketSent ∨ t.bLastPacketSent = false := by
  by_cases hact : s.nAction = ActionModeTypeModem
  · by_cases h1 : (s.baRecBuf ++ baRecData).take 2 = [0x66, 0x04]
    · obtain ⟨tail, htail⟩ := (take_two_iff _).mp h1
      rw [modeCheck_bootloader s baRecData tail hact htail] at h
      injection h with h
      left; rw [← h]
    · by_cases hidx : QByteArray.indexOf (s.baRecBuf ++ baRecData) baModemModel 0 ≠ -1
      · rw [modeCheck_model s baRecData hact h1 hidx] at h
        split_ifs at h with hacc
        · injection h with h
          rw [← h]
          exact versionFound_flag { s with baRecBuf := s.baRecBuf ++ baRecData } _
        · injection h with h
          left; rw [← h]
      · have hr1 := (not_congr ((rule1_iff (s.baRecBuf ++ baRecData)).trans
          (take_two_iff (s.baRecBuf ++ baRecData)).symm)).mpr h1
        simp only [SerialRead.modeCheck, hact, if_true, hr1, if_false, hidx] at h
        split_ifs at h
        all_goals (injection h with h; left; rw [← h])
  · unfold SerialRead.modeCheck at h
    simp only [hact, if_false] at h
    split_ifs at h
    all_goals (injection h with h; left; rw [← h])

/-- A received chunk, in any mode, sets `bLastPacketSent` only through the ACK
branch of the transfer. -/
theorem SerialRead_flag (u v : MainWindow) (baRecData : List Nat)
    (h : SerialRead u baRecData = some v)
    (hclear : u.bLastPacketSent = false) (hset : v.bLastPacketSent = true) :
    u.nAppMode = ApplicationModeTypeFirmwareUpdate
    ∧ (u.nAction = ActionModeTypeXModemWaitForNack
      ∨ u.nAction = ActionModeTypeXModemSendData)
    ∧ baRecData.head? = some XModemPacketTypeAck
    ∧ SerialRead.onAck u = some v := by
  have hne : v.bLastPacketSent ≠ u.bLastPacketSent := by
    rw [hclear, hset]; decide
  have hnf : v.bLastPacketSent ≠ false := by
    rw [hset]; decide
  by_cases hfu : u.nAppMode = ApplicationModeTypeFirmwareUpdate
  · rw [SerialRead_firmwareUpdate u baRecData hfu] at h
    rcases firmwareUpdate_flag u v baRecData h with hk | ⟨ha, hhead, hack⟩
    · exact absurd hk hne
    · exact ⟨hfu, ha, hhead, hack⟩
  · exfalso
    by_cases hmq : u.nAppMode = ApplicationModeTypeFirmwareUpdateModeCheck
        ∨ u.nAppMode = ApplicationModeTypeQuery
    · rw [SerialRead_modeCheck u baRecData hmq] at h
      rcases modeCheck_flag u v baRecData h with hk | hk
      · exact hne hk
      · exact hnf hk
    · simp only [SerialRead, hfu, if_false, hmq] at h
      injection h with h
      exact hne (by rw [← h])

/-- C10 (amended): for a firmware file of `k` blocks of 1024 bytes, `k >= 1`,
of at most 4294967296 bytes, after the first NACK and the `k - 1` ACKs that
write the `k` data frames (the last one ending exactly at the end of the
file) `bLastPacketSent` still has the value it had when the transfer was
entered: a frame with a full payload never sets it. The flag is set only by
a frame built from a short read: whenever a received chunk, in any mode and
action, takes the flag from false to true, the window is in firmware update
mode in WaitForNack or SendData, the chunk starts with ACK, the file is open
with 1 to 1023 bytes left at the offset, and the handler has written the
frame made of these bytes and the 0x1A filler; write confirmations and
poller timeouts never change the flag. -/
theorem C10_full_blocks_leave_flag (s : MainWindow) (k : Nat)
    (hmode : s.nAppMode = ApplicationModeTypeFirmwareUpdate)
    (hact : s.nAction = ActionModeTypeXModemWaitForNack)
    (hopen : s.fpFirmwareFile.isOpen = true)
    (hk : 1 ≤ k)
    (hsize : s.fpFirmwareFile.size = k * 1024)
    (h32 : k * 1024 ≤ 4294967296) :
    (∃ t : MainWindow,
      SerialReadAll s ([XModemPacketTypeNack] :: List.replicate (k - 1) [XModemPacketTypeAck])
        = some t
      ∧ t.spSerialPort.written = s.spSerialPort.written
          ++ (List.range k).map (fun i =>
              [0x02, (i + 1) % 256, 0xff - (i + 1) % 256]
                ++ (s.fpFirmwareFile.content.drop (1024 * i)).take 1024
                ++ [((s.fpFirmwareFile.content.drop (1024 * i)).take 1024).sum % 256])
      ∧ s.fpFirmwareFile.content.drop (1024 * (k - 1) + 1024) = []
      ∧ t.bLastPacketSent = s.bLastPacketSent)
    ∧ (∀ (u v : MainWindow) (baRecData : List Nat),
        SerialRead u baRecData = some v →
        u.bLastPacketSent = false → v.bLastPacketSent = true →
        u.nAppMode = ApplicationModeTypeFirmwareUpdate
        ∧ (u.nAction = ActionModeTypeXModemWaitForNack
          ∨ u.nAction = ActionModeTypeXModemSendData)
        ∧ baRecData.head? = some XModemPacketTypeAck
        ∧ u.fpFirmwareFile.isOpen = true
        ∧ 1 ≤ ((u.fpFirmwareFile.content.drop u.nCFilePos).take 1024).length
        ∧ ((u.fpFirmwareFile.content.drop u.nCFilePos).take 1024).length ≤ 1023
        ∧ v.spSerialPort.written = u.spSerialPort.written
            ++ [[0x02, u.nCPacket, 0xff - u.nCPacket]
              ++ ((u.fpFirmwareFile.content.drop u.nCFilePos).take 1024
                ++ List.replicate
                  (1024 - ((u.fpFirmwareFile.content.drop u.nCFilePos).take 1024).length) 26)
              ++ [((u.fpFirmwareFile.content.drop u.nCFilePos).take 1024
                ++ List.replicate
                  (1024 - ((u.fpFirmwareFile.content.drop u.nCFilePos).take 1024).length)
                  26).sum % 256]])
    ∧ (∀ (u : MainWindow) (intByteCount : Nat),
        (SerialBytesWritten u intByteCount).bLastPacketSent = u.bLastPacketSent)
    ∧ (∀ u : MainWindow,
        (BootloaderEntranceTimerTimeout u).bLastPacketSent = u.bLastPacketSent) := by
  refine ⟨?_, ?_, ?_, ?_⟩
  · obtain ⟨m, rfl⟩ : ∃ m, k = m + 1 := ⟨k - 1, by omega⟩
    have hlen : s.fpFirmwareFile.content.length = (m + 1) * 1024 := hsize
    obtain ⟨t, hrun, -, -, -, -, -, -, hb, hw⟩ :=
      handshake_then_acks s m hmode hact hopen (by omega) (by omega)
    refine ⟨t, hrun, hw, ?_, hb⟩
    apply List.drop_eq_nil_of_le
    rw [hlen]
    omega
  · intro u v baRecData hrun hclear hset
    obtain ⟨hfu, ha, hhead, hack⟩ := SerialRead_flag u v baRecData hrun hclear hset
    obtain ⟨ho, h1, h2, hw⟩ := onAck_flag u v hack hclear hset
    exact ⟨hfu, ha, hhead, ho, h1, h2, hw⟩
  · intro u intByteCount
    unfold SerialBytesWritten
    simp only
    split_ifs <;> simp [SetInputsEnabled]
  · intro u
    unfold BootloaderEntranceTimerTimeout
    simp only
    split_ifs <;> simp [SetInputsEnabled]

/-- C10 (amended) at the two-block file: NACK, ACK. -/
theorem C10_full_blocks_leave_flag_witness :
    (∃ t : MainWindow,
      SerialReadAll (transferEntered twoBlockFile)
          ([XModemPacketTypeNack] :: List.replicate (2 - 1) [XModemPacketTypeAck])
        = some t
      ∧ t.spSerialPort.written = (transferEntered twoBlockFile).spSerialPort.written
          ++ (List.range 2).map (fun i =>
              [0x02, (i + 1) % 256, 0xff - (i + 1) % 256]
                ++ ((transferEntered twoBlockFile).fpFirmwareFile.content.drop (1024 * i)).take
                    1024
                ++ [(((transferEntered twoBlockFile).fpFirmwareFile.content.drop
                      (1024 * i)).take 1024).sum % 256])
      ∧ (transferEntered twoBlockFile).fpFirmwareFile.content.drop (1024 * (2 - 1) + 1024) = []
      ∧ t.bLastPacketSent = (transferEntered twoBlockFile).bLastPacketSent)
    ∧ (∀ (u v : MainWindow) (baRecData : List Nat),
        SerialRead u baRecData = some v →
        u.bLastPacketSent = false → v.bLastPacketSent = true →
        u.nAppMode = ApplicationModeTypeFirmwareUpdate
        ∧ (u.nAction = ActionModeTypeXModemWaitForNack
          ∨ u.nAction = ActionModeTypeXModemSendData)
        ∧ baRecData.head? = some XModemPacketTypeAck
        ∧ u.fpFirmwareFile.isOpen = true
        ∧ 1 ≤ ((u.fpFirmwareFile.content.drop u.nCFilePos).take 1024).length
        ∧ ((u.fpFirmwareFile.content.drop u.nCFilePos).take 1024).length ≤ 1023
        ∧ v.spSerialPort.written = u.spSerialPort.written
            ++ [[0x02, u.nCPacket, 0xff - u.nCPacket]
              ++ ((u.fpFirmwareFile.content.drop u.nCFilePos).take 1024
                ++ List.replicate
                  (1024 - ((u.fpFirmwareFile.content.drop u.nCFilePos).take 1024).length) 26)
              ++ [((u.fpFirmwareFile.content.drop u.nCFilePos).take 1024
                ++ List.replicate
                  (1024 - ((u.fpFirmwareFile.content.drop u.nCFilePos).take 1024).length)
                  26).sum % 256]])
    ∧ (∀ (u : MainWindow) (intByteCount : Nat),
        (SerialBytesWritten u intByteCount).bLastPacketSent = u.bLastPacketSent)
    ∧ (∀ u : MainWindow,
        (BootloaderEntranceTimerTimeout u).bLastPacketSent = u.bLastPacketSent) :=
  C10_full_blocks_leave_flag (transferEntered twoBlockFile) 2 rfl rfl rfl (by decide)
    twoBlockFile_length (by decide)

end XModemUtil
